import Mathlib

/-! File-transfer byte pump and channel state machine (libempathy/empathy-tp-file.c)

A shallow embedding of the stream copier (`copy_stream`, `schedule_next`,
`read_done_cb`, `write_done_cb`, `close_done`, `io_error`, `copy_data_unref`) and of
the `EmpathyTpFile` callbacks, followed by the properties established about them.

Asynchronous GIO operations are modelled by explicit bookkeeping of the operations
that are in flight; a completion is an event that runs the corresponding callback.
-/

set_option linter.unusedVariables false

namespace Empathy

/-! ## The stream copier -/

/-- Number of temporary buffers (`#define N_BUFFERS 2`). -/
def N_BUFFERS : Nat := 2

/-- Size of one temporary buffer (`#define BUFFER_SIZE 4096`). -/
def BUFFER_SIZE : Nat := 4096

/-- Seconds without progress after which a transfer is stalled
(`#define STALLED_TIMEOUT 5`). -/
def STALLED_TIMEOUT : Int := 5

/-- A C array of `N_BUFFERS` (two) elements. -/
structure Slots (α : Type) where
  s0 : α
  s1 : α
deriving DecidableEq, Repr

/-- Array read `a[i]`. -/
def Slots.get {α : Type} (a : Slots α) (i : Nat) : α :=
  if i = 0 then a.s0 else a.s1

/-- Array write `a[i] = v`. -/
def Slots.set {α : Type} (a : Slots α) (i : Nat) (v : α) : Slots α :=
  if i = 0 then { a with s0 := v } else { a with s1 := v }

/-- The `GError` handed to a completion callback, as far as `io_error` inspects it:
`cancelled` is `G_IO_ERROR` / `G_IO_ERROR_CANCELLED`, `none` is a `NULL` error. -/
inductive GError where
  | none
  | cancelled
  | other
deriving DecidableEq, Repr

/-- The `CopyData` structure. The stream pointers `in` and `out` are represented by
whether they are non-`NULL`; `buff` holds the bytes of each temporary buffer. -/
structure CopyData where
  in_ : Bool
  out_ : Bool
  buff : Slots (List Nat)
  count : Slots Nat
  is_full : Slots Bool
  curr_read : Nat
  curr_write : Nat
  is_reading : Bool
  is_writing : Bool
  n_closed : Nat
  ref_count : Int
deriving DecidableEq, Repr

/-- A running copy together with its environment: the cancellation token, the data the
source will still deliver, what the sink has accepted, and the operations in flight.
`in_closes` / `out_closes` count every close request made on the source / sink,
`in_closing` / `out_closing` the asynchronous closes whose `close_done` has not run
yet, `released` the number of times the freeing branch of `copy_data_unref` ran and
`warnings` the number of `g_warning` calls. -/
structure Pump where
  copy : CopyData
  cancelled : Bool
  source : List (List Nat)
  sink : List Nat
  reads : Nat
  writes : Nat
  in_closing : Nat
  out_closing : Nat
  in_closes : Nat
  out_closes : Nat
  released : Nat
  warnings : Nat
deriving DecidableEq, Repr

/-- The function `copy_data_unref`: decrement the reference count; when it reaches zero
count one more closed stream and free everything once two have been counted. -/
def copy_data_unref (p : Pump) : Pump :=
  let p1 := { p with copy := { p.copy with ref_count := p.copy.ref_count - 1 } }
  if p1.copy.ref_count = 0 then
    let p2 := { p1 with copy := { p1.copy with n_closed := p1.copy.n_closed + 1 } }
    if p2.copy.n_closed < 2 then p2
    else { p2 with released := p2.released + 1 }
  else p1

/-- The function `io_error`: cancel the token, warn unless the error is a cancellation,
close (synchronously) each stream whose pointer is still set, drop one reference. -/
def io_error (error : GError) (p : Pump) : Pump :=
  let p1 := { p with cancelled := true }
  let p2 := if error = GError.cancelled then p1 else { p1 with warnings := p1.warnings + 1 }
  let p3 := if p2.copy.in_ then { p2 with in_closes := p2.in_closes + 1 } else p2
  let p4 := if p3.copy.out_ then { p3 with out_closes := p3.out_closes + 1 } else p3
  copy_data_unref p4

/-- The callback `close_done`. -/
def close_done (p : Pump) : Pump :=
  copy_data_unref p

/-- The function `schedule_next`: start a read when the source is open, no read is
running and the read slot is empty; then, when no write is running and the write slot
is full, close the sink if the slot holds zero bytes and start a write otherwise.
GIO ignores a request made on a `NULL` stream, so such a request starts nothing. -/
def schedule_next (p : Pump) : Pump :=
  let p1 :=
    if p.copy.in_ && !p.copy.is_reading && !p.copy.is_full.get p.copy.curr_read then
      { p with copy := { p.copy with is_reading := true }, reads := p.reads + 1 }
    else p
  if !p1.copy.is_writing && p1.copy.is_full.get p1.copy.curr_write then
    if p1.copy.count.get p1.copy.curr_write = 0 then
      if p1.copy.out_ then
        { p1 with copy := { p1.copy with out_ := false },
                  out_closes := p1.out_closes + 1, out_closing := p1.out_closing + 1 }
      else p1
    else
      { p1 with copy := { p1.copy with is_writing := true },
                writes := if p1.copy.out_ then p1.writes + 1 else p1.writes }
  else p1

/-- The callback `write_done_cb`, given the result of `g_output_stream_write_finish`. -/
def write_done_cb (count_write : Int) (error : GError) (p : Pump) : Pump :=
  if count_write ≤ 0 then io_error error p
  else
    schedule_next { p with copy := { p.copy with
      is_full := p.copy.is_full.set p.copy.curr_write false,
      curr_write := (p.copy.curr_write + 1) % N_BUFFERS,
      is_writing := false } }

/-- The callback `read_done_cb`, given the result of `g_input_stream_read_finish`:
a result of zero starts closing the source, a negative one is an error; otherwise, and
after a zero result, the slot is marked full and the read cursor advances. -/
def read_done_cb (count_read : Int) (error : GError) (p : Pump) : Pump :=
  let store (q : Pump) : Pump :=
    schedule_next { q with copy := { q.copy with
      count := q.copy.count.set q.copy.curr_read count_read.toNat,
      is_full := q.copy.is_full.set q.copy.curr_read true,
      curr_read := (q.copy.curr_read + 1) % N_BUFFERS,
      is_reading := false } }
  if count_read = 0 then
    store { p with copy := { p.copy with in_ := false },
                   in_closes := p.in_closes + 1, in_closing := p.in_closing + 1 }
  else if count_read < 0 then io_error error p
  else store p

/-- The function `copy_stream` for non-`NULL` streams, on a source that will deliver
`chunks` and then report the end of data. -/
def copy_stream (chunks : List (List Nat)) : Pump :=
  schedule_next
    { copy :=
        { in_ := true, out_ := true,
          buff := ⟨[], []⟩, count := ⟨0, 0⟩, is_full := ⟨false, false⟩,
          curr_read := 0, curr_write := 0,
          is_reading := false, is_writing := false,
          n_closed := 0, ref_count := 1 },
      cancelled := false, source := chunks, sink := [],
      reads := 0, writes := 0, in_closing := 0, out_closing := 0,
      in_closes := 0, out_closes := 0, released := 0, warnings := 0 }

/-- Completion of an asynchronous operation of the copier.
* `read_done`: the read delivers the next chunk of the source, or zero bytes when the
  source is exhausted;
* `read_fail e`: the read finishes with `-1` and error `e`;
* `write_all`: the sink accepted the whole slot;
* `write_done n e`: the write finishes with result `n` (possibly short, zero or
  negative) and error `e`;
* `close_done_in`, `close_done_out`: an asynchronous close of the source / sink
  finished. -/
inductive Event where
  | read_done
  | read_fail (e : GError)
  | write_all
  | write_done (n : Int) (e : GError)
  | close_done_in
  | close_done_out
deriving DecidableEq, Repr

/-- What the sink holds after a write of the current write slot returned `n`. -/
def sink_after (n : Int) (p : Pump) : List Nat :=
  p.sink ++ (((p.copy.buff.get p.copy.curr_write).take
    (p.copy.count.get p.copy.curr_write)).take n.toNat)

/-- One completion. The result is `none` when no such operation is in flight (or when
a write claims to have written more than it was given). A read stores the delivered
bytes at the start of the read slot before `read_done_cb` runs. -/
def step (e : Event) (p : Pump) : Option Pump :=
  match e with
  | Event.read_done =>
    if p.reads = 0 then none
    else
      match p.source with
      | [] => some (read_done_cb 0 GError.none { p with reads := p.reads - 1 })
      | c :: rest =>
        some (read_done_cb c.length GError.none
          { p with reads := p.reads - 1, source := rest,
                   copy := { p.copy with buff := (p.copy.buff.set p.copy.curr_read
                     (c ++ (p.copy.buff.get p.copy.curr_read).drop c.length)) } })
  | Event.read_fail e =>
    if p.reads = 0 then none
    else some (read_done_cb (-1) e { p with reads := p.reads - 1 })
  | Event.write_all =>
    if p.writes = 0 then none
    else
      let n : Int := p.copy.count.get p.copy.curr_write
      some (write_done_cb n GError.none
        { p with writes := p.writes - 1, sink := sink_after n p })
  | Event.write_done n e =>
    if p.writes = 0 then none
    else if (p.copy.count.get p.copy.curr_write : Int) < n then none
    else
      some (write_done_cb n e { p with writes := p.writes - 1, sink := sink_after n p })
  | Event.close_done_in =>
    if p.in_closing = 0 then none
    else some (close_done { p with in_closing := p.in_closing - 1 })
  | Event.close_done_out =>
    if p.out_closing = 0 then none
    else some (close_done { p with out_closing := p.out_closing - 1 })

/-- Run a sequence of completions, in the given order. -/
def run : List Event → Pump → Option Pump
  | [], p => some p
  | e :: es, p => (step e p).bind (run es)

/-- No read, write or close is in flight. -/
def Pump.idle (p : Pump) : Bool :=
  p.reads == 0 && p.writes == 0 && p.in_closing == 0 && p.out_closing == 0

/-- A completion that reports no failure and in which the sink takes all it is given. -/
def Event.ok : Event → Bool
  | Event.read_done => true
  | Event.write_all => true
  | Event.close_done_in => true
  | Event.close_done_out => true
  | _ => false

/-- The bytes held in the full slots, in the order in which they will be written. -/
def CopyData.queued (c : CopyData) : List Nat :=
  (if c.is_full.get c.curr_write then
     (c.buff.get c.curr_write).take (c.count.get c.curr_write) else []) ++
  (if c.is_full.get (1 - c.curr_write) then
     (c.buff.get (1 - c.curr_write)).take (c.count.get (1 - c.curr_write)) else [])

/-- Number of completions still to come in a run without failures. -/
def Pump.todo (p : Pump) : Nat :=
  (if p.copy.in_ then 2 * p.source.length + 2 else p.in_closing) +
  (if p.copy.is_full.s0 && decide (0 < p.copy.count.s0) then 1 else 0) +
  (if p.copy.is_full.s1 && decide (0 < p.copy.count.s1) then 1 else 0) +
  (if p.copy.out_ then 1 else p.out_closing)

/-- Invariant of the runs without failures of a copy of the byte sequence `b`. -/
structure Good (b : List Nat) (p : Pump) : Prop where
  cr_lt : p.copy.curr_read < 2
  cw_lt : p.copy.curr_write < 2
  shape : (p.copy.curr_read = p.copy.curr_write ∧ p.copy.is_full.s0 = p.copy.is_full.s1) ∨
    (p.copy.curr_read ≠ p.copy.curr_write ∧ p.copy.is_full.get p.copy.curr_write = true ∧
      p.copy.is_full.get p.copy.curr_read = false)
  reads_eq : p.reads = if p.copy.is_reading then 1 else 0
  writes_eq : p.writes = if p.copy.is_writing then 1 else 0
  reading : p.copy.is_reading = (p.copy.in_ && !p.copy.is_full.get p.copy.curr_read)
  writing : p.copy.is_full.get p.copy.curr_write = true →
    (p.copy.is_writing = true ∧ 0 < p.copy.count.get p.copy.curr_write ∧ p.copy.out_ = true) ∨
    (p.copy.is_writing = false ∧ p.copy.count.get p.copy.curr_write = 0 ∧ p.copy.out_ = false)
  not_writing : p.copy.is_full.get p.copy.curr_write = false → p.copy.is_writing = false
  in_open : p.copy.in_ = true → p.in_closes = 0 ∧ p.in_closing = 0 ∧ p.copy.out_ = true ∧
    (p.copy.is_full.s0 = true → 0 < p.copy.count.s0) ∧
    (p.copy.is_full.s1 = true → 0 < p.copy.count.s1)
  in_closed : p.copy.in_ = false → p.in_closes = 1 ∧ p.in_closing ≤ 1 ∧ p.source = [] ∧
    p.copy.is_full.get (1 - p.copy.curr_read) = true ∧
    p.copy.count.get (1 - p.copy.curr_read) = 0 ∧
    (p.copy.is_full.get p.copy.curr_read = true → 0 < p.copy.count.get p.copy.curr_read)
  out_open : p.copy.out_ = true → p.out_closes = 0 ∧ p.out_closing = 0
  out_closed : p.copy.out_ = false → p.out_closes = 1 ∧ p.out_closing ≤ 1
  src : ∀ c ∈ p.source, 0 < c.length
  data : b = p.sink ++ p.copy.queued ++ p.source.flatten


/-- A completion that reports success (a write may still be short). -/
def Event.succeeded : Event → Bool
  | Event.read_done => true
  | Event.read_fail _ => false
  | Event.write_all => true
  | Event.write_done n _ => decide (0 < n)
  | Event.close_done_in => true
  | Event.close_done_out => true

/-- Invariant of all runs: an operation in flight is unique and its flag is set. -/
def Single (p : Pump) : Prop :=
  p.reads ≤ 1 ∧ p.writes ≤ 1 ∧ (p.reads = 1 → p.copy.is_reading = true) ∧
    (p.writes = 1 → p.copy.is_writing = true)

/-- Invariant of the runs in which every completion succeeded: the flags say exactly
which operations are in flight. -/
structure Exact (p : Pump) : Prop where
  cr_lt : p.copy.curr_read < 2
  cw_lt : p.copy.curr_write < 2
  reads_eq : p.reads = if p.copy.is_reading then 1 else 0
  writes_eq : p.writes = if p.copy.is_writing then 1 else 0
  reading_open : p.copy.is_reading = true → p.copy.in_ = true
  eof0 : p.copy.is_full.s0 = true → p.copy.count.s0 = 0 → p.copy.in_ = false
  eof1 : p.copy.is_full.s1 = true → p.copy.count.s1 = 0 → p.copy.in_ = false
  out_closed : p.copy.out_ = false → p.copy.is_full.get p.copy.curr_write = true ∧
    p.copy.count.get p.copy.curr_write = 0 ∧ p.copy.is_writing = false
  writing_slot : p.copy.is_writing = true → p.copy.is_full.get p.copy.curr_write = true ∧
    0 < p.copy.count.get p.copy.curr_write
  reading_slot : p.copy.is_reading = true → p.copy.is_full.get p.copy.curr_read = false

/-- Invariant of all runs: the reference count was decremented at most to zero while
nothing was counted as closed, or one stream was counted and the count is not
positive; the freeing branch has not run. -/
def Leaked (p : Pump) : Prop :=
  p.released = 0 ∧
    ((p.copy.ref_count = 1 ∧ p.copy.n_closed = 0) ∨ (p.copy.ref_count ≤ 0 ∧ p.copy.n_closed = 1))

/-- The copy of the one-byte source `[7]` once its first read has completed: the byte
is in slot 0, the read of slot 1 and the write of slot 0 are in flight. -/
def after_first_read : Pump :=
  { copy :=
      { in_ := true, out_ := true, buff := ⟨[7], []⟩, count := ⟨1, 0⟩,
        is_full := ⟨true, false⟩, curr_read := 1, curr_write := 0,
        is_reading := true, is_writing := true, n_closed := 0, ref_count := 1 },
    cancelled := false, source := [], sink := [], reads := 1, writes := 1,
    in_closing := 0, out_closing := 0, in_closes := 0, out_closes := 0,
    released := 0, warnings := 0 }

/-- Invariant of the runs without failures: the reference count is one less for every
`close_done` that has run. -/
def Counted (p : Pump) : Prop :=
  p.copy.ref_count + (p.in_closes : Int) + (p.out_closes : Int) =
    1 + (p.in_closing : Int) + (p.out_closing : Int)


/-! ## The transfer object -/

/-- Modelled from the spec: the enumeration `TpFileTransferState` is declared in the
Telepathy extension headers, which are not among the sources; the spec lists its
members as None, Pending, Accepted, Open, Completed, Cancelled, numbered here in that
order. This is `TP_FILE_TRANSFER_STATE_NONE`. -/
def TP_FILE_TRANSFER_STATE_NONE : Nat := 0

/-- Modelled from the spec: member Open of `TpFileTransferState` (see
`TP_FILE_TRANSFER_STATE_NONE`). -/
def TP_FILE_TRANSFER_STATE_OPEN : Nat := 3

/-- Modelled from the spec: member Completed of `TpFileTransferState` (see
`TP_FILE_TRANSFER_STATE_NONE`). -/
def TP_FILE_TRANSFER_STATE_COMPLETED : Nat := 4

/-- Modelled from the spec: member Cancelled of `TpFileTransferState` (see
`TP_FILE_TRANSFER_STATE_NONE`). -/
def TP_FILE_TRANSFER_STATE_CANCELLED : Nat := 5

/-- Modelled from the spec: the enumeration `TpFileTransferStateChangeReason` is
declared in the Telepathy extension headers, which are not among the sources; this is
its member none. -/
def TP_FILE_TRANSFER_STATE_CHANGE_REASON_NONE : Nat := 0

/-- Modelled from the spec: member local-error of `TpFileTransferStateChangeReason`
(see `TP_FILE_TRANSFER_STATE_CHANGE_REASON_NONE`); only its being different from the
member none matters. -/
def TP_FILE_TRANSFER_STATE_CHANGE_REASON_LOCAL_ERROR : Nat := 4

/-- The GLib constant `G_MAXUINT`, the largest `guint`. -/
def G_MAXUINT : Nat := 4294967295

/-- The GLib constant `G_MAXUINT64`; `EMPATHY_TP_FILE_UNKNOWN_SIZE` is this value. -/
def G_MAXUINT64 : Nat := 18446744073709551615

/-- Modelled from the spec: the unknown-size sentinel `EMPATHY_TP_FILE_UNKNOWN_SIZE` is
declared in `empathy-tp-file.h`, which is not among the sources; it is taken to be
`G_MAXUINT64`, the default of the `size` property in `empathy_tp_file_class_init`. -/
def EMPATHY_TP_FILE_UNKNOWN_SIZE : Nat := G_MAXUINT64

/-- The GLib constants `G_MININT` and `G_MAXINT` bound a `gint`. -/
def G_MININT : Int := -2147483648

/-- See `G_MININT`. -/
def G_MAXINT : Int := 2147483647

/-- What the object emits: `g_object_notify` for a property, or the `refresh` signal. -/
inductive Signal where
  | notify_state
  | notify_ready
  | notify_incoming
  | notify_size
  | notify_transferred_bytes
  | notify_filename
  | notify_content_hash
  | notify_content_hash_type
  | notify_content_type
  | refresh
deriving DecidableEq, Repr

/-- The `GValue` carrying a socket address: a byte array (`DBUS_TYPE_G_UCHAR_ARRAY`), a
string (`G_TYPE_STRING`, given by its bytes), or a value of another type. -/
inductive GValue where
  | uchar_array (a : List Nat)
  | string (s : List Nat)
  | other
deriving DecidableEq, Repr

/-- The private data `EmpathyTpFilePriv`, without the metadata strings, followed by the
observable effects of the callbacks. Pointers are represented by whether they are set:
`contact`, `in_stream`, `out_stream`; `socket_address` holds the stored bytes;
`cancellable` is `none` for `NULL` and otherwise tells whether the token was cancelled.
`speed` is a `gdouble`, represented by the rational number it denotes.

Effects: `signals` are the emissions in order, `timers` the pending timeout sources
(identifier and due time), `next_source_id` the identifier the next source receives,
`close_calls` the number of `tp_cli_channel_call_close` requests, `start_log` the value
of `state` seen by each call of `tp_file_start_transfer`, `pumps` the number of
`copy_stream` runs that passed the argument checks and `tokens` the number of
`g_cancellable_new` calls. -/
structure TpFile where
  ready : Bool
  contact : Bool
  in_stream : Bool
  out_stream : Bool
  state : Nat
  size : Nat
  transferred_bytes : Nat
  incoming : Bool
  state_change_reason : Nat
  last_update_time : Int
  last_update_transferred_bytes : Nat
  speed : ℚ
  remaining_time : Int
  stalled_id : Nat
  socket_address : Option (List Nat)
  cancellable : Option Bool
  signals : List Signal
  timers : List (Nat × Int)
  next_source_id : Nat
  close_calls : Nat
  start_log : List Nat
  pumps : Nat
  tokens : Nat
deriving DecidableEq, Repr

/-- What the operating system answers when `tp_file_start_transfer` runs: whether
`socket` and `connect` succeed, and the current time. -/
structure StartEnv where
  socket_ok : Bool
  connect_ok : Bool
  now : Int
deriving DecidableEq, Repr

/-- GLib `g_timeout_add_seconds (STALLED_TIMEOUT, tp_file_stalled_cb, tp_file)` at time
`now`: a new pending source; returns the state and the identifier. -/
def g_timeout_add_seconds (now : Int) (t : TpFile) : TpFile × Nat :=
  ({ t with timers := t.timers ++ [(t.next_source_id, now + STALLED_TIMEOUT)],
            next_source_id := t.next_source_id + 1 }, t.next_source_id)

/-- GLib `g_source_remove (id)`: the source is no longer pending. -/
def g_source_remove (id : Nat) (t : TpFile) : TpFile :=
  { t with timers := t.timers.filter (fun s => s.1 != id) }

/-- The function `empathy_tp_file_cancel`: ask the channel to close and cancel the
token if there is one. -/
def empathy_tp_file_cancel (t : TpFile) : TpFile :=
  { t with close_calls := t.close_calls + 1,
           cancellable := t.cancellable.map (fun _ => true) }

/-- The callback `tp_file_invalidated_cb`. -/
def tp_file_invalidated_cb (t : TpFile) : TpFile :=
  if t.state ≠ TP_FILE_TRANSFER_STATE_COMPLETED ∧
      t.state ≠ TP_FILE_TRANSFER_STATE_CANCELLED then
    { t with state := TP_FILE_TRANSFER_STATE_CANCELLED,
             state_change_reason := TP_FILE_TRANSFER_STATE_CHANGE_REASON_LOCAL_ERROR,
             signals := t.signals ++ [Signal.notify_state] }
  else t

/-- The timeout callback `tp_file_stalled_cb`; it returns `FALSE`. -/
def tp_file_stalled_cb (t : TpFile) : TpFile :=
  { t with speed := 0, remaining_time := -1, signals := t.signals ++ [Signal.refresh] }

/-- The function `tp_file_start_transfer`. `copy_stream` returns at once when the file
stream it is given is `NULL`. -/
def tp_file_start_transfer (env : StartEnv) (t : TpFile) : TpFile :=
  let t0 := { t with start_log := t.start_log ++ [t.state] }
  if !env.socket_ok then empathy_tp_file_cancel t0
  else if !env.connect_ok then empathy_tp_file_cancel t0
  else
    let t1 := { t0 with last_update_time := env.now,
                        last_update_transferred_bytes := t0.transferred_bytes }
    let (t2, id) := g_timeout_add_seconds env.now t1
    let t3 := { t2 with stalled_id := id, cancellable := some false,
                        tokens := t2.tokens + 1 }
    if t3.incoming then
      { t3 with pumps := if t3.out_stream then t3.pumps + 1 else t3.pumps }
    else
      { t3 with pumps := if t3.in_stream then t3.pumps + 1 else t3.pumps }

/-- The callback `tp_file_state_changed_cb`. -/
def tp_file_state_changed_cb (state reason : Nat) (env : StartEnv) (t : TpFile) : TpFile :=
  if state = t.state then t
  else
    let t1 :=
      if state = TP_FILE_TRANSFER_STATE_OPEN ∧ t.socket_address ≠ none then
        tp_file_start_transfer env t
      else t
    { t1 with state := state, state_change_reason := reason,
              signals := t1.signals ++ [Signal.notify_state] }

/-- Round to the nearest integer, a tie going to the even one. -/
def round_half_even (x : ℚ) : Int :=
  if x - ⌊x⌋ < 1 / 2 then ⌊x⌋
  else if 1 / 2 < x - ⌊x⌋ then ⌊x⌋ + 1
  else if ⌊x⌋ % 2 = 0 then ⌊x⌋ else ⌊x⌋ + 1

/-- The `gdouble` nearest to a rational number, as a rational number: what the cast
`(gdouble)` of an integer and a division of `gdouble` values yield in IEEE 754 binary64
arithmetic (53 significant bits; round to nearest, a tie going to the even significand).
The exponent is not bounded here: the operands of the callback are `guint64` and `time_t`
values and quotients of such, all of which lie well inside the range of the normal
numbers. -/
def gdouble (q : ℚ) : ℚ :=
  if q = 0 then 0
  else
    let e : Int := Int.log 2 |q| - 52
    (if q < 0 then -1 else 1) * (round_half_even (|q| / 2 ^ e) : ℚ) * 2 ^ e

/-- The assignment `remaining_time = num / speed`, with `num` a `guint64` and `speed` a
`gdouble`: `num` is converted to `gdouble`, the division is that of `gdouble` values, and
the result is converted to `gint` by truncation towards zero. When the divisor is zero
or the quotient does not fit a `gint` the C conversion is undefined; `undef` stands for
whatever it yields. -/
def double_to_gint (undef : Int) (num : Nat) (speed : ℚ) : Int :=
  if speed = 0 then undef
  else
    let q : ℚ := gdouble (gdouble (num : ℚ) / speed)
    let r : Int := Int.tdiv q.num q.den
    if G_MININT ≤ r ∧ r ≤ G_MAXINT then r else undef

/-- The callback `tp_file_transferred_bytes_changed_cb` at time `now`. Subtractions of
`guint64` values wrap around; the speed is the `gdouble` quotient of the two operands
converted to `gdouble`. -/
def tp_file_transferred_bytes_changed_cb (count : Nat) (now : Int) (undef : Int)
    (t : TpFile) : TpFile :=
  if t.transferred_bytes = count then t
  else
    let t1 := { t with transferred_bytes := count,
                       signals := t.signals ++ [Signal.notify_transferred_bytes] }
    let t2 := if t1.stalled_id ≠ 0 then g_source_remove t1.stalled_id t1 else t1
    let (t3, id) := g_timeout_add_seconds now t2
    let t4 := { t3 with stalled_id := id }
    let elapsed_time : Int := now - t4.last_update_time
    if elapsed_time ≥ 1 then
      let transferred_bytes : Nat :=
        (count + (G_MAXUINT64 + 1) - t4.last_update_transferred_bytes % (G_MAXUINT64 + 1))
          % (G_MAXUINT64 + 1)
      let speed : ℚ := gdouble (gdouble (transferred_bytes : ℚ) / gdouble (elapsed_time : ℚ))
      { t4 with speed := speed,
                remaining_time := double_to_gint undef
                  ((t4.size + (G_MAXUINT64 + 1) - count % (G_MAXUINT64 + 1))
                    % (G_MAXUINT64 + 1)) speed,
                last_update_transferred_bytes := count,
                last_update_time := now,
                signals := t4.signals ++ [Signal.refresh] }
    else t4

/-- The function `tp_file_check_if_ready`. -/
def tp_file_check_if_ready (t : TpFile) : TpFile :=
  if t.ready ∨ t.contact = false ∨ t.state = TP_FILE_TRANSFER_STATE_NONE then t
  else { t with ready := true, signals := t.signals ++ [Signal.notify_ready] }

/-- The callback `tp_file_got_contact_cb`. -/
def tp_file_got_contact_cb (error : Bool) (t : TpFile) : TpFile :=
  if error then empathy_tp_file_cancel t
  else tp_file_check_if_ready { t with contact := true }

/-- The callback `tp_file_get_all_cb`, given the values of the properties `Size`,
`State` and `TransferredBytes`. -/
def tp_file_get_all_cb (error : Bool) (size state transferred_bytes : Nat)
    (t : TpFile) : TpFile :=
  if error then { t with close_calls := t.close_calls + 1 }
  else
    tp_file_check_if_ready
      { t with size := size, state := state, transferred_bytes := transferred_bytes,
               signals := t.signals ++
                 [Signal.notify_size, Signal.notify_state, Signal.notify_transferred_bytes,
                  Signal.notify_filename, Signal.notify_content_hash,
                  Signal.notify_content_hash_type, Signal.notify_content_type] }

/-- The callback `tp_file_get_requested_cb`. -/
def tp_file_get_requested_cb (error : Bool) (requested : Bool) (t : TpFile) : TpFile :=
  if error then { t with close_calls := t.close_calls + 1 }
  else
    tp_file_check_if_ready
      { t with incoming := !requested, signals := t.signals ++ [Signal.notify_incoming] }

/-- The callback `tp_file_method_cb`, the reply to `AcceptFile` or `ProvideFile`. -/
def tp_file_method_cb (error : Bool) (address : GValue) (env : StartEnv)
    (t : TpFile) : TpFile :=
  if error then empathy_tp_file_cancel t
  else
    match address with
    | GValue.uchar_array a =>
      let t1 := { t with socket_address := some a }
      if t1.state = TP_FILE_TRANSFER_STATE_OPEN then tp_file_start_transfer env t1 else t1
    | GValue.string s =>
      let t1 := { t with socket_address := some s }
      if t1.state = TP_FILE_TRANSFER_STATE_OPEN then tp_file_start_transfer env t1 else t1
    | GValue.other => empathy_tp_file_cancel t

/-- The function `empathy_tp_file_accept`: `file_ok` tells whether `g_file_replace`
returned a stream, `error_out` whether the caller passed a location for the error. -/
def empathy_tp_file_accept (file_ok error_out : Bool) (t : TpFile) : TpFile :=
  let t1 := { t with out_stream := file_ok }
  if error_out && !file_ok then t1
  else { t1 with signals := t1.signals ++ [Signal.notify_filename] }

/-- The function `empathy_tp_file_offer`: `file_ok` tells whether `g_file_read`
returned a stream, `error_out` whether the caller passed a location for the error. -/
def empathy_tp_file_offer (file_ok error_out : Bool) (t : TpFile) : TpFile :=
  { t with in_stream := file_ok }

/-- A property and the value given to `tp_file_set_property`; the properties whose
value is a string or an object carry none here. -/
inductive Property where
  | channel
  | state (v : Nat)
  | incoming (v : Bool)
  | filename
  | size (v : Nat)
  | content_type
  | content_hash
deriving DecidableEq, Repr

/-- The function `tp_file_set_property`, on the fields represented in `TpFile`. -/
def tp_file_set_property (prop : Property) (t : TpFile) : TpFile :=
  match prop with
  | Property.channel => t
  | Property.state v => { t with state := v }
  | Property.incoming v => { t with incoming := v }
  | Property.filename => t
  | Property.size v => { t with size := v }
  | Property.content_type => t
  | Property.content_hash => t

/-- The instance as GObject allocates it: private data filled with zeros. -/
def priv_zero : TpFile :=
  { ready := false, contact := false, in_stream := false, out_stream := false,
    state := 0, size := 0, transferred_bytes := 0, incoming := false,
    state_change_reason := 0, last_update_time := 0, last_update_transferred_bytes := 0,
    speed := 0, remaining_time := 0, stalled_id := 0, socket_address := none,
    cancellable := none, signals := [], timers := [], next_source_id := 1,
    close_calls := 0, start_log := [], pumps := 0, tokens := 0 }

/-- The function `tp_file_constructor`, reached from `empathy_tp_file_new` through
`g_object_new (EMPATHY_TYPE_TP_FILE, "channel", channel, NULL)`. The parent constructor
sets every property installed with `G_PARAM_CONSTRUCT` or `G_PARAM_CONSTRUCT_ONLY`:
`channel` to the value passed, `state` and `incoming` to the defaults of their
parameter specifications in `empathy_tp_file_class_init` (`G_MAXUINT` and `FALSE`).
Then the state-change reason is set and the requests are sent. -/
def tp_file_constructor : TpFile :=
  let t1 := tp_file_set_property Property.channel priv_zero
  let t2 := tp_file_set_property (Property.state G_MAXUINT) t1
  let t3 := tp_file_set_property (Property.incoming false) t2
  { t3 with state_change_reason := TP_FILE_TRANSFER_STATE_CHANGE_REASON_NONE }

/-- What can happen to a transfer: a callback of the channel or of a request, a call of
the public interface (`set_property` is `g_object_set` on one property), or the stall
timeout `id` firing. -/
inductive TpEvent where
  | invalidated
  | state_changed (state reason : Nat) (env : StartEnv)
  | transferred_bytes_changed (count : Nat) (now : Int) (undef : Int)
  | got_contact (error : Bool)
  | get_all (error : Bool) (size state transferred_bytes : Nat)
  | get_requested (error : Bool) (requested : Bool)
  | method_reply (error : Bool) (address : GValue) (env : StartEnv)
  | accept (file_ok error_out : Bool)
  | offer (file_ok error_out : Bool)
  | cancel
  | stalled (id : Nat)
  | set_property (prop : Property)
deriving DecidableEq, Repr

/-- Process one event. A timeout fires only while its source is pending; since
`tp_file_stalled_cb` returns `FALSE` GLib then destroys the source. -/
def handle (e : TpEvent) (t : TpFile) : TpFile :=
  match e with
  | TpEvent.invalidated => tp_file_invalidated_cb t
  | TpEvent.state_changed state reason env => tp_file_state_changed_cb state reason env t
  | TpEvent.transferred_bytes_changed count now undef =>
    tp_file_transferred_bytes_changed_cb count now undef t
  | TpEvent.got_contact error => tp_file_got_contact_cb error t
  | TpEvent.get_all error size state transferred_bytes =>
    tp_file_get_all_cb error size state transferred_bytes t
  | TpEvent.get_requested error requested => tp_file_get_requested_cb error requested t
  | TpEvent.method_reply error address env => tp_file_method_cb error address env t
  | TpEvent.accept file_ok error_out => empathy_tp_file_accept file_ok error_out t
  | TpEvent.offer file_ok error_out => empathy_tp_file_offer file_ok error_out t
  | TpEvent.cancel => empathy_tp_file_cancel t
  | TpEvent.stalled id =>
    if t.timers.any (fun s => s.1 == id) then g_source_remove id (tp_file_stalled_cb t)
    else t
  | TpEvent.set_property prop => tp_file_set_property prop t

/-- Process a sequence of events in order. -/
def handle_all : List TpEvent → TpFile → TpFile
  | [], t => t
  | e :: es, t => handle_all es (handle e t)

/-- The events that the channel delivers to a transfer in use: state-changed
notifications, byte-count updates, socket-endpoint replies, invalidation, and the
cancel request. -/
def TpEvent.channel_event : TpEvent → Bool
  | TpEvent.invalidated => true
  | TpEvent.state_changed _ _ _ => true
  | TpEvent.transferred_bytes_changed _ _ _ => true
  | TpEvent.method_reply _ _ _ => true
  | TpEvent.cancel => true
  | _ => false

/-- The function `empathy_tp_file_get_remaining_time`. -/
def empathy_tp_file_get_remaining_time (t : TpFile) : Int :=
  if t.size = EMPATHY_TP_FILE_UNKNOWN_SIZE then -1
  else if t.transferred_bytes = t.size then 0
  else t.remaining_time

/-- The function `empathy_tp_file_get_speed`. -/
def empathy_tp_file_get_speed (t : TpFile) : ℚ :=
  if t.transferred_bytes = t.size then 0 else t.speed

/-- Deliver a sequence of byte counts, each with the time of its arrival and the value
an undefined conversion would yield, to `tp_file_transferred_bytes_changed_cb`. -/
def push_all : List (Nat × Int × Int) → TpFile → TpFile
  | [], t => t
  | (count, now, undef) :: rest, t =>
    push_all rest (tp_file_transferred_bytes_changed_cb count now undef t)

/-- How many times the notification of `ready` was emitted. -/
def TpFile.ready_notified (t : TpFile) : Nat :=
  t.signals.count Signal.notify_ready

/-- How many times the `refresh` signal was emitted. -/
def TpFile.refreshes (t : TpFile) : Nat :=
  t.signals.count Signal.refresh

/-- Invariant of all runs of the copier, failed completions included: the cursors stay
inside the buffer array, a read in flight targets a slot that is not full, a write in
flight comes from a slot that is full, and no slot counts more bytes than its buffer
holds. -/
structure Exclusive (p : Pump) : Prop where
  single : Single p
  cr_lt : p.copy.curr_read < N_BUFFERS
  cw_lt : p.copy.curr_write < N_BUFFERS
  reading_empty : p.reads = 1 → p.copy.is_full.get p.copy.curr_read = false
  writing_full : p.writes = 1 → p.copy.is_full.get p.copy.curr_write = true
  count0 : p.copy.count.s0 ≤ p.copy.buff.s0.length
  count1 : p.copy.count.s1 ≤ p.copy.buff.s1.length

/-- Number of bytes that are in the sink, in a full slot, or still to be produced by the
source. -/
def Pump.held (p : Pump) : Nat :=
  p.sink.length + (if p.copy.is_full.s0 then p.copy.count.s0 else 0)
    + (if p.copy.is_full.s1 then p.copy.count.s1 else 0) + p.source.flatten.length

/-- The part of `tp_file_finalize` that concerns the stall timer. -/
def tp_file_finalize (t : TpFile) : TpFile :=
  if t.stalled_id ≠ 0 then g_source_remove t.stalled_id t else t

/-- The byte count an event delivers from the channel, if it delivers one: the
`TransferredBytes` property of a successful `GetAll` reply or the argument of the
`TransferredBytesChanged` signal. -/
def TpEvent.count : TpEvent → Option Nat
  | TpEvent.transferred_bytes_changed count _ _ => some count
  | TpEvent.get_all false _ _ transferred_bytes => some transferred_bytes
  | _ => none

/-- The byte counts delivered by the events never decrease, starting from `lo`, and fit
in a `guint64`. -/
def monotone_counts : Nat → List TpEvent → Bool
  | _, [] => true
  | lo, e :: es =>
    match e.count with
    | some c => decide (lo ≤ c) && decide (c ≤ G_MAXUINT64) && monotone_counts c es
    | none => monotone_counts lo es

/-! ## The table of transfers -/

/-- A live `EmpathyTpFile` object: its address, the channel passed as data of the weak
reference taken by `empathy_tp_file_new`, and its reference count. -/
structure FileObject where
  id : Nat
  channel : Nat
  ref_count : Nat
deriving DecidableEq, Repr

/-- Modelled from the spec: `empathy_proxy_hash` and `empathy_proxy_equal`, the hash and
the equality of the keys of `ft_table`, are defined outside this file; the spec says
that identity equality is by channel handle, not object reference. A channel is
represented by its identity, a number, and two keys are equal when the identities
are. -/
def empathy_proxy_equal (a b : Nat) : Bool :=
  a == b

/-- The static `ft_table` (`none` is `NULL`) with entries channel ↦ object, and the
objects alive. -/
structure Registry where
  ft_table : Option (List (Nat × Nat))
  objects : List FileObject
  next_object : Nat
  created : Nat
deriving DecidableEq, Repr

/-- The state before the first call of `empathy_tp_file_new`. -/
def registry_zero : Registry :=
  { ft_table := none, objects := [], next_object := 1, created := 0 }

/-- GLib: the value stored under a key, if any. -/
def g_hash_table_lookup (table : List (Nat × Nat)) (key : Nat) : Option Nat :=
  (table.find? (fun kv => empathy_proxy_equal kv.1 key)).map (fun kv => kv.2)

/-- GLib: remove the entry of a key; nothing happens when the key has no entry. -/
def g_hash_table_remove (table : List (Nat × Nat)) (key : Nat) : List (Nat × Nat) :=
  table.filter (fun kv => !empathy_proxy_equal kv.1 key)

/-- GLib: store a value under a key, replacing the entry the key had. -/
def g_hash_table_insert (table : List (Nat × Nat)) (key value : Nat) : List (Nat × Nat) :=
  g_hash_table_remove table key ++ [(key, value)]

/-- GObject: take one more reference to an object. -/
def g_object_ref (obj : Nat) (r : Registry) : Registry :=
  let objects := r.objects.map
    (fun o => if o.id = obj then { o with ref_count := o.ref_count + 1 } else o)
  { r with objects := objects }

/-- The function `tp_file_weak_notify_cb`. -/
def tp_file_weak_notify_cb (channel : Nat) (r : Registry) : Registry :=
  { r with ft_table := r.ft_table.map (fun table => g_hash_table_remove table channel) }

/-- GObject: drop one reference to an object; when it was the last one the object goes
away and its weak reference is notified. A handle that names no live object is left
alone. -/
def g_object_unref (obj : Nat) (r : Registry) : Registry :=
  match r.objects.find? (fun o => o.id == obj) with
  | none => r
  | some o =>
    if o.ref_count ≤ 1 then
      tp_file_weak_notify_cb o.channel
        { r with objects := r.objects.filter (fun x => x.id != obj) }
    else
      let objects := r.objects.map
        (fun x => if x.id = obj then { x with ref_count := x.ref_count - 1 } else x)
      { r with objects := objects }

/-- The function `empathy_tp_file_new`: the new state and the object returned. -/
def empathy_tp_file_new (channel : Nat) (r : Registry) : Registry × Nat :=
  match r.ft_table.bind (fun table => g_hash_table_lookup table channel) with
  | some tp_file => (g_object_ref tp_file r, tp_file)
  | none =>
    let tp_file := r.next_object
    ({ ft_table := some (g_hash_table_insert (r.ft_table.getD []) channel tp_file),
       objects := r.objects ++ [{ id := tp_file, channel := channel, ref_count := 1 }],
       next_object := r.next_object + 1,
       created := r.created + 1 }, tp_file)

/-- Calls made by the users of the table. -/
inductive RegistryOp where
  | new (channel : Nat)
  | unref (obj : Nat)
deriving DecidableEq, Repr

/-- Run a sequence of calls. -/
def registry_run : List RegistryOp → Registry → Registry
  | [], r => r
  | RegistryOp.new channel :: ops, r => registry_run ops (empathy_tp_file_new channel r).1
  | RegistryOp.unref obj :: ops, r => registry_run ops (g_object_unref obj r)

/-- The keys of the table. -/
def Registry.keys (r : Registry) : List Nat :=
  (r.ft_table.getD []).map (fun kv => kv.1)

/-! ## States used in the examples -/

/-- The copy of the three-byte source `[7, 8, 9]` once its first read has completed: the
three bytes are in slot 0, the read of slot 1 and the write of slot 0 are in flight. -/
def after_read_of_three : Pump :=
  { copy :=
      { in_ := true, out_ := true, buff := ⟨[7, 8, 9], []⟩, count := ⟨3, 0⟩,
        is_full := ⟨true, false⟩, curr_read := 1, curr_write := 0,
        is_reading := true, is_writing := true, n_closed := 0, ref_count := 1 },
    cancelled := false, source := [], sink := [], reads := 1, writes := 1,
    in_closing := 0, out_closing := 0, in_closes := 0, out_closes := 0,
    released := 0, warnings := 0 }

/-- The state `after_read_of_three` once the write of slot 0 has completed with one byte
written: slot 0 is empty again and the write cursor has moved on. -/
def after_short_write : Pump :=
  { copy :=
      { in_ := true, out_ := true, buff := ⟨[7, 8, 9], []⟩, count := ⟨3, 0⟩,
        is_full := ⟨false, false⟩, curr_read := 1, curr_write := 1,
        is_reading := true, is_writing := false, n_closed := 0, ref_count := 1 },
    cancelled := false, source := [], sink := [7], reads := 1, writes := 0,
    in_closing := 0, out_closing := 0, in_closes := 0, out_closes := 0,
    released := 0, warnings := 0 }

/-- The transfer of a file of 1000 bytes whose channel became Open at time 0, with a
socket address stored and no byte transferred yet. -/
def started_transfer : TpFile :=
  handle_all [TpEvent.get_all false 1000 1 0, TpEvent.offer true true,
      TpEvent.method_reply false (GValue.uchar_array [47]) ⟨true, true, 0⟩,
      TpEvent.state_changed TP_FILE_TRANSFER_STATE_OPEN 0 ⟨true, true, 0⟩]
    tp_file_constructor

/-! ## Properties of the stream copier -/

theorem good_copy_stream (chunks : List (List Nat)) (h : ∀ c ∈ chunks, 0 < c.length) :
    Good chunks.flatten (copy_stream chunks) := by
  constructor <;> simp [copy_stream, schedule_next, Slots.get, CopyData.queued]
  exact h

theorem good_step_read (b : List Nat) (p q : Pump) (h : Good b p)
    (hs : step Event.read_done p = some q) : Good b q ∧ q.todo + 1 = p.todo := by
  rcases p with ⟨⟨in_, out_, ⟨b0, b1⟩, ⟨c0, c1⟩, ⟨f0, f1⟩, cr, cw, rd, wr, nc, rc⟩,
    canc, src, snk, reads, writes, ic, oc, ics, ocs, rel, wrn⟩
  obtain ⟨h1, h2, h3, h4, h5, h6, h7, h8, h9, h10, h11, h12, h13, h14⟩ := h
  simp only at h1 h2 h3 h4 h5 h6 h7 h8 h9 h10 h11 h12 h13 h14
  simp only [step] at hs
  split at hs
  · simp at hs
  rename_i hr
  have hrd : rd = true := by
    cases rd
    · simp at h4; omega
    · rfl
  subst hrd
  simp at h4
  subst h4
  cases in_
  · simp at h6
  simp at h6 h9
  obtain ⟨h9a, h9b, h9c, h9d, h9e⟩ := h9
  subst h9a h9b h9c
  simp at h11
  obtain ⟨h11a, h11b⟩ := h11
  subst h11a h11b
  clear h10 h12
  interval_cases cr <;> interval_cases cw <;> cases f0 <;> cases f1 <;>
    simp [Slots.get] at h3 h6 h7 h8 <;> cases wr <;> simp at h5 h7 h8 <;> subst h5 <;>
    cases src <;> simp at hs <;> subst hs
  all_goals (try (have hc := h13 _ (List.mem_cons_self _ _)))
  all_goals (try (have hc2 : ¬ ((List.length ‹List ℕ› : Int) = 0) := by omega))
  all_goals (try (have hc3 : ¬ ((List.length ‹List ℕ› : Int) < 0) := by omega))
  all_goals (try (have hc4 : ¬ (List.length ‹List ℕ› = 0) := by omega))
  all_goals
    refine ⟨?_, ?_⟩
  all_goals (try constructor)
  all_goals (simp [read_done_cb, schedule_next, Slots.get, Slots.set, N_BUFFERS, CopyData.queued, Pump.todo, *] at *)
  all_goals first | exact h13 | omega

theorem good_step_write (b : List Nat) (p q : Pump) (h : Good b p)
    (hs : step Event.write_all p = some q) : Good b q ∧ q.todo + 1 = p.todo := by
  rcases p with ⟨⟨in_, out_, ⟨b0, b1⟩, ⟨c0, c1⟩, ⟨f0, f1⟩, cr, cw, rd, wr, nc, rc⟩,
    canc, src, snk, reads, writes, ic, oc, ics, ocs, rel, wrn⟩
  obtain ⟨h1, h2, h3, h4, h5, h6, h7, h8, h9, h10, h11, h12, h13, h14⟩ := h
  simp only at h1 h2 h3 h4 h5 h6 h7 h8 h9 h10 h11 h12 h13 h14
  simp only [step] at hs
  split at hs
  · simp at hs
  rename_i hr
  have hwr : wr = true := by
    cases wr
    · simp at h5; omega
    · rfl
  subst hwr
  simp at h5
  subst h5
  simp at hs
  subst hs
  interval_cases cr <;> interval_cases cw <;> cases f0 <;> cases f1 <;>
    simp [Slots.get] at h3 h6 h7 h8 h10 <;> cases rd <;> simp at h4 <;> subst h4 <;>
    cases in_ <;> simp at h6 h9 h10 <;> cases out_ <;> simp at h7 h9 h11 h12
  all_goals (try (have hp0 : ¬ ((c0 : Int) ≤ 0) := by omega))
  all_goals (try (have hp1 : ¬ ((c1 : Int) ≤ 0) := by omega))
  all_goals (try (have hq0 : ¬ (c0 = 0) := by omega))
  all_goals (try (have hq1 : ¬ (c1 = 0) := by omega))
  all_goals
    refine ⟨?_, ?_⟩
  all_goals (try constructor)
  all_goals (simp [write_done_cb, sink_after, schedule_next, Slots.get, Slots.set, N_BUFFERS, CopyData.queued, Pump.todo, *] at *)
  all_goals exact h13

theorem good_step_close_in (b : List Nat) (p q : Pump) (h : Good b p)
    (hs : step Event.close_done_in p = some q) : Good b q ∧ q.todo + 1 = p.todo := by
  rcases p with ⟨⟨in_, out_, ⟨b0, b1⟩, ⟨c0, c1⟩, ⟨f0, f1⟩, cr, cw, rd, wr, nc, rc⟩,
    canc, src, snk, reads, writes, ic, oc, ics, ocs, rel, wrn⟩
  obtain ⟨h1, h2, h3, h4, h5, h6, h7, h8, h9, h10, h11, h12, h13, h14⟩ := h
  simp only at h1 h2 h3 h4 h5 h6 h7 h8 h9 h10 h11 h12 h13 h14
  simp only [step] at hs
  split at hs
  · simp at hs
  rename_i hr
  simp at hs
  subst hs
  cases in_
  · simp at h6 h9 h10
    obtain ⟨h10a, h10b, h10c, h10d, h10e, h10f⟩ := h10
    refine ⟨?_, ?_⟩
    · constructor <;>
        simp only [close_done, copy_data_unref] <;> split_ifs <;>
        simp [CopyData.queued, *] at * <;> assumption
    · simp only [close_done, copy_data_unref]
      split_ifs <;> simp [Pump.todo] <;> omega
  · simp at h9
    omega

theorem good_step_close_out (b : List Nat) (p q : Pump) (h : Good b p)
    (hs : step Event.close_done_out p = some q) : Good b q ∧ q.todo + 1 = p.todo := by
  rcases p with ⟨⟨in_, out_, ⟨b0, b1⟩, ⟨c0, c1⟩, ⟨f0, f1⟩, cr, cw, rd, wr, nc, rc⟩,
    canc, src, snk, reads, writes, ic, oc, ics, ocs, rel, wrn⟩
  obtain ⟨h1, h2, h3, h4, h5, h6, h7, h8, h9, h10, h11, h12, h13, h14⟩ := h
  simp only at h1 h2 h3 h4 h5 h6 h7 h8 h9 h10 h11 h12 h13 h14
  simp only [step] at hs
  split at hs
  · simp at hs
  rename_i hr
  simp at hs
  subst hs
  cases out_
  · simp at h7 h11 h12
    obtain ⟨h12a, h12b⟩ := h12
    refine ⟨?_, ?_⟩
    · constructor <;>
        simp only [close_done, copy_data_unref] <;> split_ifs <;>
        simp [CopyData.queued, *] at * <;> assumption
    · simp only [close_done, copy_data_unref]
      split_ifs <;> simp [Pump.todo] <;> omega
  · simp at h11
    omega

theorem good_step (b : List Nat) (e : Event) (p q : Pump) (h : Good b p) (he : e.ok = true)
    (hs : step e p = some q) : Good b q ∧ q.todo + 1 = p.todo := by
  cases e with
  | read_done => exact good_step_read b p q h hs
  | write_all => exact good_step_write b p q h hs
  | close_done_in => exact good_step_close_in b p q h hs
  | close_done_out => exact good_step_close_out b p q h hs
  | read_fail e => simp [Event.ok] at he
  | write_done n e => simp [Event.ok] at he

theorem good_idle (b : List Nat) (p : Pump) (h : Good b p) (hi : p.idle = true) :
    p.sink = b ∧ p.in_closes = 1 ∧ p.out_closes = 1 := by
  rcases p with ⟨⟨in_, out_, ⟨b0, b1⟩, ⟨c0, c1⟩, ⟨f0, f1⟩, cr, cw, rd, wr, nc, rc⟩,
    canc, src, snk, reads, writes, ic, oc, ics, ocs, rel, wrn⟩
  obtain ⟨h1, h2, h3, h4, h5, h6, h7, h8, h9, h10, h11, h12, h13, h14⟩ := h
  simp only at h1 h2 h3 h4 h5 h6 h7 h8 h9 h10 h11 h12 h13 h14
  simp [Pump.idle] at hi
  obtain ⟨⟨⟨hi1, hi2⟩, hi3⟩, hi4⟩ := hi
  subst hi1 hi2 hi3 hi4
  interval_cases cr <;> interval_cases cw <;> cases f0 <;> cases f1 <;>
    simp [Slots.get] at h3 h6 h7 h8 h10 <;> cases rd <;> simp at h4 <;>
    cases wr <;> simp at h5 <;>
    cases in_ <;> simp at h6 h9 h10 <;> cases out_ <;> simp at h7 h9 h11 h12 <;>
    simp [CopyData.queued, Slots.get, *] at *

theorem good_progress (b : List Nat) (p : Pump) (h : Good b p) (hi : p.idle = false) :
    ∃ e : Event, e.ok = true ∧ (step e p).isSome = true := by
  by_cases hr : p.reads = 0
  · by_cases hw : p.writes = 0
    · by_cases hc : p.in_closing = 0
      · by_cases ho : p.out_closing = 0
        · simp [Pump.idle, hr, hw, hc, ho] at hi
        · exact ⟨Event.close_done_out, rfl, by simp [step, ho]⟩
      · exact ⟨Event.close_done_in, rfl, by simp [step, hc]⟩
    · exact ⟨Event.write_all, rfl, by simp [step, hw]⟩
  · refine ⟨Event.read_done, rfl, ?_⟩
    simp only [step, hr, if_false]
    cases p.source <;> rfl

theorem run_invariant (I : Pump → Prop) (P : Event → Prop)
    (hstep : ∀ e p q, P e → I p → step e p = some q → I q) :
    ∀ es p q, (∀ e ∈ es, P e) → I p → run es p = some q → I q := by
  intro es
  induction es with
  | nil =>
    intro p q _ hp hr
    simp [run] at hr
    subst hr
    exact hp
  | cons e es ih =>
    intro p q hP hp hr
    simp only [run] at hr
    cases hs : step e p with
    | none => simp [hs] at hr
    | some p1 =>
      simp [hs] at hr
      exact ih p1 q (fun e' he' => hP e' (List.mem_cons_of_mem _ he'))
        (hstep e p p1 (hP e (List.mem_cons_self _ _)) hp hs) hr

theorem leaked_unref (p : Pump) (h : Leaked p) : Leaked (copy_data_unref p) := by
  obtain ⟨h1, h2⟩ := h
  unfold copy_data_unref Leaked
  rcases h2 with ⟨h2, h3⟩ | ⟨h2, h3⟩
  · simp [h1, h2, h3]
  · have : ¬ (p.copy.ref_count - 1 = 0) := by omega
    simp [h1, h3, this]
    omega

theorem leaked_schedule_next (p : Pump) (h : Leaked p) : Leaked (schedule_next p) := by
  unfold schedule_next Leaked at *
  simp only
  split_ifs <;> simpa using h

theorem leaked_io_error (e : GError) (p : Pump) (h : Leaked p) : Leaked (io_error e p) := by
  unfold io_error
  apply leaked_unref
  unfold Leaked at *
  simp only
  split_ifs <;> simpa using h

theorem leaked_read_done_cb (n : Int) (e : GError) (p : Pump) (h : Leaked p) :
    Leaked (read_done_cb n e p) := by
  unfold read_done_cb
  simp only
  split_ifs
  · apply leaked_schedule_next
    simpa [Leaked] using h
  · exact leaked_io_error e p h
  · apply leaked_schedule_next
    simpa [Leaked] using h

theorem leaked_write_done_cb (n : Int) (e : GError) (p : Pump) (h : Leaked p) :
    Leaked (write_done_cb n e p) := by
  unfold write_done_cb
  split_ifs
  · exact leaked_io_error e p h
  · apply leaked_schedule_next
    simpa [Leaked] using h

theorem leaked_step (e : Event) (p q : Pump) (h : Leaked p) (hs : step e p = some q) :
    Leaked q := by
  cases e <;> simp only [step] at hs
  · split at hs
    · simp at hs
    · split at hs <;> simp at hs <;> subst hs <;> apply leaked_read_done_cb <;>
        simpa [Leaked] using h
  · split at hs
    · simp at hs
    · simp at hs
      subst hs
      apply leaked_read_done_cb
      simpa [Leaked] using h
  · split at hs
    · simp at hs
    · simp at hs
      subst hs
      apply leaked_write_done_cb
      simpa [Leaked] using h
  · split at hs
    · simp at hs
    · split at hs
      · simp at hs
      · simp at hs
        subst hs
        apply leaked_write_done_cb
        simpa [Leaked] using h
  · split at hs
    · simp at hs
    · simp at hs
      subst hs
      apply leaked_unref
      simpa [Leaked] using h
  · split at hs
    · simp at hs
    · simp at hs
      subst hs
      apply leaked_unref
      simpa [Leaked] using h

theorem leaked_copy_stream (chunks : List (List Nat)) : Leaked (copy_stream chunks) := by
  simp [copy_stream, schedule_next, Slots.get, Leaked]

theorem single_schedule_next (p : Pump) (h : Single p) : Single (schedule_next p) := by
  rcases p with ⟨⟨in_, out_, ⟨b0, b1⟩, ⟨c0, c1⟩, ⟨f0, f1⟩, cr, cw, rd, wr, nc, rc⟩,
    canc, src, snk, reads, writes, ic, oc, ics, ocs, rel, wrn⟩
  unfold Single at h
  simp only at h
  obtain ⟨h1, h2, h3, h4⟩ := h
  have hr : rd = false → reads = 0 := by
    intro hrd
    subst hrd
    simp at h3
    omega
  have hw : wr = false → writes = 0 := by
    intro hwr
    subst hwr
    simp at h4
    omega
  unfold schedule_next Single
  simp only
  split_ifs <;> simp_all

theorem single_io_error (e : GError) (p : Pump) (h : Single p) : Single (io_error e p) := by
  unfold io_error copy_data_unref Single at *
  simp only
  split_ifs <;> simpa using h

theorem single_read_done_cb (n : Int) (e : GError) (p : Pump) (h1 : p.reads = 0)
    (h2 : p.writes ≤ 1) (h4 : p.writes = 1 → p.copy.is_writing = true) :
    Single (read_done_cb n e p) := by
  unfold read_done_cb
  simp only
  split_ifs
  · apply single_schedule_next
    simp [Single, h1]
    exact ⟨h2, h4⟩
  · apply single_io_error
    simp [Single, h1]
    exact ⟨h2, h4⟩
  · apply single_schedule_next
    simp [Single, h1]
    exact ⟨h2, h4⟩

theorem single_write_done_cb (n : Int) (e : GError) (p : Pump) (h1 : p.writes = 0)
    (h2 : p.reads ≤ 1) (h3 : p.reads = 1 → p.copy.is_reading = true) :
    Single (write_done_cb n e p) := by
  unfold write_done_cb
  split_ifs
  · apply single_io_error
    simp [Single, h1]
    exact ⟨h2, h3⟩
  · apply single_schedule_next
    simp [Single, h1]
    exact ⟨h2, h3⟩

theorem single_unref (p : Pump) (h : Single p) : Single (copy_data_unref p) := by
  unfold copy_data_unref Single at *
  simp only
  split_ifs <;> simpa using h

theorem single_step (e : Event) (p q : Pump) (h : Single p) (hs : step e p = some q) :
    Single q := by
  obtain ⟨h1, h2, h3, h4⟩ := h
  cases e <;> simp only [step] at hs
  · split at hs
    · simp at hs
    · split at hs <;> simp at hs <;> subst hs <;> apply single_read_done_cb <;>
        first
        | (simp only; omega)
        | exact h2
        | exact h4
  · split at hs
    · simp at hs
    · simp at hs
      subst hs
      apply single_read_done_cb
      · simp only
        omega
      · exact h2
      · exact h4
  · split at hs
    · simp at hs
    · simp at hs
      subst hs
      apply single_write_done_cb
      · simp only
        omega
      · exact h1
      · exact h3
  · split at hs
    · simp at hs
    · split at hs
      · simp at hs
      · simp at hs
        subst hs
        apply single_write_done_cb
        · simp only
          omega
        · exact h1
        · exact h3
  · split at hs
    · simp at hs
    · simp at hs
      subst hs
      apply single_unref
      exact ⟨h1, h2, h3, h4⟩
  · split at hs
    · simp at hs
    · simp at hs
      subst hs
      apply single_unref
      exact ⟨h1, h2, h3, h4⟩

theorem single_copy_stream (chunks : List (List Nat)) : Single (copy_stream chunks) := by
  simp [copy_stream, schedule_next, Slots.get, Single]

theorem exact_copy_stream (chunks : List (List Nat)) : Exact (copy_stream chunks) := by
  constructor <;> simp [copy_stream, schedule_next, Slots.get]

theorem exact_unref (p : Pump) (h : Exact p) : Exact (copy_data_unref p) := by
  obtain ⟨k1, k2, h1, h2, h3, h4, h5, h6, h7, h8⟩ := h
  unfold copy_data_unref
  simp only
  by_cases c1 : p.copy.ref_count - 1 = 0
  · by_cases c2 : p.copy.n_closed + 1 < 2
    · rw [if_pos c1, if_pos c2]
      exact ⟨k1, k2, h1, h2, h3, h4, h5, h6, h7, h8⟩
    · rw [if_pos c1, if_neg c2]
      exact ⟨k1, k2, h1, h2, h3, h4, h5, h6, h7, h8⟩
  · rw [if_neg c1]
    exact ⟨k1, k2, h1, h2, h3, h4, h5, h6, h7, h8⟩


theorem exact_schedule_next (p : Pump) (h : Exact p) : Exact (schedule_next p) := by
  obtain ⟨k1, k2, h1, h2, h3, h4, h5, h6, h7, h8⟩ := h
  have hr : p.copy.is_reading = false → p.reads = 0 := by
    intro hrd
    simpa [hrd] using h1
  have hw : p.copy.is_writing = false → p.writes = 0 := by
    intro hwr
    simpa [hwr] using h2
  unfold schedule_next
  simp only
  split_ifs with c1 c2 c3 c4 c5 c6 c7 <;> constructor <;> (try simp only) <;> simp_all <;> omega

theorem exact_out_open (p : Pump) (h : Exact p) (hin : p.copy.in_ = true) :
    p.copy.out_ = true := by
  obtain ⟨k1, k2, h1, h2, h3, h4, h5, h6, h7, h8⟩ := h
  rcases p with ⟨⟨in_, out_, ⟨b0, b1⟩, ⟨c0, c1⟩, ⟨f0, f1⟩, cr, cw, rd, wr, nc, rc⟩,
    canc, src, snk, reads, writes, ic, oc, ics, ocs, rel, wrn⟩
  simp only at *
  cases out_
  · simp at h6
    interval_cases cw <;> simp_all [Slots.get]
  · rfl

theorem exact_read_done_cb (n : Nat) (p : Pump) (k1 : p.copy.curr_read < 2)
    (k2 : p.copy.curr_write < 2) (h1 : p.reads = 0)
    (h2 : p.writes = if p.copy.is_writing then 1 else 0)
    (hin : p.copy.in_ = true) (hout : p.copy.out_ = true)
    (h4 : p.copy.is_full.s0 = true → p.copy.count.s0 = 0 → p.copy.in_ = false)
    (h5 : p.copy.is_full.s1 = true → p.copy.count.s1 = 0 → p.copy.in_ = false)
    (h7 : p.copy.is_writing = true → p.copy.is_full.get p.copy.curr_write = true ∧
      0 < p.copy.count.get p.copy.curr_write)
    (h8 : p.copy.is_full.get p.copy.curr_read = false) :
    Exact (read_done_cb n GError.none p) := by
  rcases p with ⟨⟨in_, out_, ⟨b0, b1⟩, ⟨c0, c1⟩, ⟨f0, f1⟩, cr, cw, rd, wr, nc, rc⟩,
    canc, src, snk, reads, writes, ic, oc, ics, ocs, rel, wrn⟩
  simp only at *
  subst hin hout h1
  have hn : ¬ ((n : Int) < 0) := by omega
  unfold read_done_cb
  simp only [hn, if_false]
  split_ifs with c <;> apply exact_schedule_next <;> constructor <;>
    interval_cases cr <;> interval_cases cw <;> simp_all [Slots.get, Slots.set, N_BUFFERS]

theorem exact_write_done_cb (n : Int) (hn : 0 < n) (e : GError) (p : Pump)
    (k1 : p.copy.curr_read < 2)
    (k2 : p.copy.curr_write < 2) (h1 : p.reads = if p.copy.is_reading then 1 else 0)
    (h2 : p.writes = 0)
    (h3 : p.copy.is_reading = true → p.copy.in_ = true) (hout : p.copy.out_ = true)
    (h4 : p.copy.is_full.s0 = true → p.copy.count.s0 = 0 → p.copy.in_ = false)
    (h5 : p.copy.is_full.s1 = true → p.copy.count.s1 = 0 → p.copy.in_ = false)
    (h8 : p.copy.is_reading = true → p.copy.is_full.get p.copy.curr_read = false) :
    Exact (write_done_cb n e p) := by
  rcases p with ⟨⟨in_, out_, ⟨b0, b1⟩, ⟨c0, c1⟩, ⟨f0, f1⟩, cr, cw, rd, wr, nc, rc⟩,
    canc, src, snk, reads, writes, ic, oc, ics, ocs, rel, wrn⟩
  simp only at *
  subst hout h2
  have hn : ¬ (n ≤ 0) := by omega
  unfold write_done_cb
  simp only [hn, if_false]
  apply exact_schedule_next
  constructor <;> interval_cases cw <;> interval_cases cr <;>
    simp_all [Slots.get, Slots.set, N_BUFFERS]

theorem exact_step (e : Event) (p q : Pump) (he : e.succeeded = true) (h : Exact p)
    (hs : step e p = some q) : Exact q := by
  have ho := exact_out_open p h
  obtain ⟨k1, k2, h1, h2, h3, h4, h5, h6, h7, h8⟩ := h
  cases e <;> simp only [step] at hs
  · split at hs
    · simp at hs
    rename_i hr
    have hrd : p.copy.is_reading = true := by
      by_contra hc
      simp [hc] at h1
      exact hr h1
    have h1' : p.reads - 1 = 0 := by
      simp [hrd] at h1
      omega
    split at hs <;> simp at hs <;> subst hs
    · exact exact_read_done_cb 0 _ k1 k2 h1' h2 (h3 hrd) (ho (h3 hrd)) h4 h5 h7 (h8 hrd)
    · exact exact_read_done_cb _ _ k1 k2 h1' h2 (h3 hrd) (ho (h3 hrd)) h4 h5 h7 (h8 hrd)
  · simp [Event.succeeded] at he
  · split at hs
    · simp at hs
    rename_i hr
    have hwr : p.copy.is_writing = true := by
      by_contra hc
      simp [hc] at h2
      exact hr h2
    have h2' : p.writes - 1 = 0 := by
      simp [hwr] at h2
      omega
    have hout : p.copy.out_ = true := by
      by_contra hc
      simp at hc
      have := (h6 hc).2.2
      simp [hwr] at this
    simp at hs
    subst hs
    exact exact_write_done_cb _ (by have := (h7 hwr).2; omega) _ _ k1 k2 h1 h2' h3 hout h4 h5 h8
  · split at hs
    · simp at hs
    rename_i hr
    have hwr : p.copy.is_writing = true := by
      by_contra hc
      simp [hc] at h2
      exact hr h2
    have h2' : p.writes - 1 = 0 := by
      simp [hwr] at h2
      omega
    have hout : p.copy.out_ = true := by
      by_contra hc
      simp at hc
      have := (h6 hc).2.2
      simp [hwr] at this
    split at hs
    · simp at hs
    simp at hs
    subst hs
    simp [Event.succeeded] at he
    exact exact_write_done_cb _ he _ _ k1 k2 h1 h2' h3 hout h4 h5 h8
  · split at hs
    · simp at hs
    · simp at hs
      subst hs
      apply exact_unref
      exact ⟨k1, k2, h1, h2, h3, h4, h5, h6, h7, h8⟩
  · split at hs
    · simp at hs
    · simp at hs
      subst hs
      apply exact_unref
      exact ⟨k1, k2, h1, h2, h3, h4, h5, h6, h7, h8⟩

theorem counted_schedule_next (p : Pump) (h : Counted p) : Counted (schedule_next p) := by
  unfold schedule_next Counted at *
  simp only
  split_ifs <;> (try simp only []) <;> push_cast <;> omega

theorem counted_unref (p : Pump) :
    (copy_data_unref p).copy.ref_count = p.copy.ref_count - 1 ∧
    (copy_data_unref p).in_closes = p.in_closes ∧
    (copy_data_unref p).out_closes = p.out_closes ∧
    (copy_data_unref p).in_closing = p.in_closing ∧
    (copy_data_unref p).out_closing = p.out_closing := by
  unfold copy_data_unref
  simp only
  split_ifs <;> simp

theorem good_write_count (b : List Nat) (p : Pump) (h : Good b p) (hw : p.writes ≠ 0) :
    0 < p.copy.count.get p.copy.curr_write := by
  have hwr : p.copy.is_writing = true := by
    by_contra hc
    have := h.writes_eq
    simp [hc] at this
    exact hw this
  have hf : p.copy.is_full.get p.copy.curr_write = true := by
    by_contra hc
    have := h.not_writing (by simpa using hc)
    simp [hwr] at this
  rcases h.writing hf with ⟨_, h2, _⟩ | ⟨h1, _, _⟩
  · exact h2
  · simp [hwr] at h1

theorem counted_step (b : List Nat) (e : Event) (p q : Pump) (he : e.ok = true)
    (hg : Good b p) (h : Counted p) (hs : step e p = some q) : Counted q := by
  cases e <;> simp only [step] at hs
  · split at hs
    · simp at hs
    · split at hs <;> simp at hs <;> subst hs <;> unfold read_done_cb <;> simp only <;>
        split_ifs <;>
        first
        | (apply counted_schedule_next
           unfold Counted at *
           simp only []
           push_cast
           omega)
        | omega
  · simp [Event.ok] at he
  · split at hs
    · simp at hs
    · simp at hs
      rename_i hw
      subst hs
      have hpos := good_write_count b p hg hw
      have hn : ¬ ((p.copy.count.get p.copy.curr_write : Int) ≤ 0) := by omega
      unfold write_done_cb
      simp only [hn, if_false]
      apply counted_schedule_next
      exact h
  · simp [Event.ok] at he
  · split at hs
    · simp at hs
    · rename_i hc
      simp at hs
      subst hs
      obtain ⟨u1, u2, u3, u4, u5⟩ := counted_unref { p with in_closing := p.in_closing - 1 }
      unfold Counted at *
      unfold close_done
      rw [u1, u2, u3, u4, u5]
      simp only []
      omega
  · split at hs
    · simp at hs
    · rename_i hc
      simp at hs
      subst hs
      obtain ⟨u1, u2, u3, u4, u5⟩ := counted_unref { p with out_closing := p.out_closing - 1 }
      unfold Counted at *
      unfold close_done
      rw [u1, u2, u3, u4, u5]
      simp only []
      omega

theorem counted_copy_stream (chunks : List (List Nat)) : Counted (copy_stream chunks) := by
  simp [copy_stream, schedule_next, Slots.get, Counted]

theorem counted_run (b : List Nat) : ∀ (es : List Event) (p q : Pump), Good b p → Counted p →
    (∀ e ∈ es, Event.ok e = true) → run es p = some q → Counted q := by
  intro es
  induction es with
  | nil =>
    intro p q _ hc _ hr
    simp [run] at hr
    subst hr
    exact hc
  | cons e es ih =>
    intro p q hp hc hok hr
    simp only [run] at hr
    cases hs : step e p with
    | none => simp [hs] at hr
    | some p1 =>
      simp [hs] at hr
      have he := hok e (List.mem_cons_self _ _)
      exact ih p1 q (good_step b e p p1 hp he hs).1 (counted_step b e p p1 he hp hc hs)
        (fun e' he' => hok e' (List.mem_cons_of_mem _ he')) hr

theorem good_run (b : List Nat) : ∀ (es : List Event) (p q : Pump), Good b p →
    (∀ e ∈ es, Event.ok e = true) → run es p = some q →
    Good b q ∧ q.todo + es.length = p.todo := by
  intro es
  induction es with
  | nil =>
    intro p q hp _ hr
    simp [run] at hr
    subst hr
    exact ⟨hp, rfl⟩
  | cons e es ih =>
    intro p q hp hok hr
    simp only [run] at hr
    cases hs : step e p with
    | none => simp [hs] at hr
    | some p1 =>
      simp [hs] at hr
      obtain ⟨g1, t1⟩ := good_step b e p p1 hp (hok e (List.mem_cons_self _ _)) hs
      obtain ⟨g2, t2⟩ := ih p1 q g1 (fun e' he' => hok e' (List.mem_cons_of_mem _ he')) hr
      refine ⟨g2, ?_⟩
      simp only [List.length_cons]
      omega

theorem good_finishes (b : List Nat) : ∀ (n : Nat) (p : Pump), Good b p → p.todo = n →
    ∃ es q, (∀ e ∈ es, Event.ok e = true) ∧ run es p = some q ∧ q.idle = true := by
  intro n
  induction n with
  | zero =>
    intro p hp ht
    cases hi : p.idle with
    | true => exact ⟨[], p, by simp, rfl, hi⟩
    | false =>
      obtain ⟨e, he, hs⟩ := good_progress b p hp hi
      obtain ⟨p1, hp1⟩ := Option.isSome_iff_exists.mp hs
      have := (good_step b e p p1 hp he hp1).2
      omega
  | succ n ih =>
    intro p hp ht
    cases hi : p.idle with
    | true => exact ⟨[], p, by simp, rfl, hi⟩
    | false =>
      obtain ⟨e, he, hs⟩ := good_progress b p hp hi
      obtain ⟨p1, hp1⟩ := Option.isSome_iff_exists.mp hs
      obtain ⟨g1, t1⟩ := good_step b e p p1 hp he hp1
      obtain ⟨es, q, hes, hrun, hq⟩ := ih p1 g1 (by omega)
      refine ⟨e :: es, q, ?_, ?_, hq⟩
      · intro e' he'
        rcases List.mem_cons.mp he' with h | h
        · subst h
          exact he
        · exact hes e' h
      · simp [run, hp1, hrun]

theorem todo_copy_stream (chunks : List (List Nat)) :
    (copy_stream chunks).todo = 2 * chunks.length + 3 := by
  simp [copy_stream, schedule_next, Slots.get, Pump.todo]

/-- Claim C1: for a source delivering `chunks` (each of 1 to 4096 bytes) and then the end of
data, and a sink taking every write in full: every interleaving of completions is
finite, can be continued while an operation is outstanding, and once none is
outstanding the sink holds exactly the bytes of the source in order and one close was
requested on the source and one on the sink; such a final state is reached. -/
theorem copy_stream_delivers (chunks : List (List Nat))
    (hchunks : ∀ c ∈ chunks, 1 ≤ c.length ∧ c.length ≤ BUFFER_SIZE) :
    (∀ es q, (∀ e ∈ es, Event.ok e = true) → run es (copy_stream chunks) = some q →
      es.length ≤ 2 * chunks.length + 3 ∧
      (q.idle = false → ∃ e, Event.ok e = true ∧ (step e q).isSome = true) ∧
      (q.idle = true →
        q.sink = chunks.flatten ∧ q.in_closes = 1 ∧ q.out_closes = 1)) ∧
    (∃ es q, (∀ e ∈ es, Event.ok e = true) ∧ run es (copy_stream chunks) = some q ∧
      q.idle = true) := by
  have h0 : Good chunks.flatten (copy_stream chunks) :=
    good_copy_stream chunks (fun c hc => (hchunks c hc).1)
  refine ⟨?_, good_finishes _ _ _ h0 rfl⟩
  intro es q hok hrun
  obtain ⟨g, t⟩ := good_run _ es _ q h0 hok hrun
  rw [todo_copy_stream] at t
  exact ⟨by omega, good_progress _ q g, good_idle _ q g⟩

theorem copy_stream_delivers_witness :
    (∀ c ∈ [[1, 2], [3]], 1 ≤ c.length ∧ c.length ≤ BUFFER_SIZE) ∧
    ((∀ es q, (∀ e ∈ es, Event.ok e = true) → run es (copy_stream [[1, 2], [3]]) = some q →
      es.length ≤ 2 * [[1, 2], [3]].length + 3 ∧
      (q.idle = false → ∃ e, Event.ok e = true ∧ (step e q).isSome = true) ∧
      (q.idle = true →
        q.sink = [[1, 2], [3]].flatten ∧ q.in_closes = 1 ∧ q.out_closes = 1)) ∧
    (∃ es q, (∀ e ∈ es, Event.ok e = true) ∧ run es (copy_stream [[1, 2], [3]]) = some q ∧
      q.idle = true)) :=
  ⟨by decide, copy_stream_delivers [[1, 2], [3]] (by decide)⟩

theorem leaked_run (chunks : List (List Nat)) (es : List Event) (q : Pump)
    (h : run es (copy_stream chunks) = some q) : Leaked q :=
  run_invariant Leaked (fun _ => True) (fun e p q _ hp hs => leaked_step e p q hp hs)
    es (copy_stream chunks) q (fun _ _ => trivial) (leaked_copy_stream chunks) h

theorem single_run (chunks : List (List Nat)) (es : List Event) (q : Pump)
    (h : run es (copy_stream chunks) = some q) : Single q :=
  run_invariant Single (fun _ => True) (fun e p q _ hp hs => single_step e p q hp hs)
    es (copy_stream chunks) q (fun _ _ => trivial) (single_copy_stream chunks) h

theorem exact_run (chunks : List (List Nat)) (es : List Event) (q : Pump)
    (hes : ∀ e ∈ es, Event.succeeded e = true)
    (h : run es (copy_stream chunks) = some q) : Exact q :=
  run_invariant Exact (fun e => Event.succeeded e = true)
    (fun e p q he hp hs => exact_step e p q he hp hs)
    es (copy_stream chunks) q hes (exact_copy_stream chunks) h

/-- In every run, with or without failures, the freeing branch of `copy_data_unref`
has not run and at most one stream has been counted as closed. -/
theorem pump_never_released (chunks : List (List Nat)) (es : List Event) (q : Pump)
    (h : run es (copy_stream chunks) = some q) :
    q.released = 0 ∧ q.copy.n_closed ≤ 1 ∧ q.copy.ref_count ≤ 1 := by
  obtain ⟨h1, h2⟩ := leaked_run chunks es q h
  refine ⟨h1, ?_, ?_⟩ <;> rcases h2 with ⟨a, b⟩ | ⟨a, b⟩ <;> omega

/-- Every run without failures that comes to rest ends with a reference count of `-1`,
one stream counted as closed, and nothing freed. -/
theorem natural_completion_ref_count (chunks : List (List Nat))
    (hchunks : ∀ c ∈ chunks, 0 < c.length) (es : List Event) (q : Pump)
    (hok : ∀ e ∈ es, Event.ok e = true) (h : run es (copy_stream chunks) = some q)
    (hi : q.idle = true) :
    q.copy.ref_count = -1 ∧ q.copy.n_closed = 1 ∧ q.released = 0 := by
  have g0 := good_copy_stream chunks hchunks
  obtain ⟨g, _⟩ := good_run _ es _ q g0 hok h
  have c := counted_run _ es _ q g0 (counted_copy_stream chunks) hok h
  obtain ⟨_, i1, i2⟩ := good_idle _ q g hi
  obtain ⟨l1, l2⟩ := leaked_run chunks es q h
  simp [Pump.idle] at hi
  obtain ⟨⟨⟨_, _⟩, hi3⟩, hi4⟩ := hi
  unfold Counted at c
  rw [i1, i2, hi3, hi4] at c
  have hr : q.copy.ref_count = -1 := by
    push_cast at c
    omega
  refine ⟨hr, ?_, l1⟩
  rcases l2 with ⟨a, _⟩ | ⟨_, b⟩
  · omega
  · exact b

/-- Claim C2 fails on the code: after a natural completion of the copy of an empty
source (the read returns zero bytes, then both `close_done` callbacks run) the
reference count is `-1`; it is `-1` as well when a read and a write that were in flight
both complete with a cancellation error. -/
theorem ref_count_goes_negative :
    (run [Event.read_done, Event.close_done_in, Event.close_done_out]
      (copy_stream [])).map (fun q => (q.idle, q.copy.ref_count)) = some (true, -1) ∧
    (run [Event.read_done, Event.read_fail GError.cancelled,
        Event.write_done (-1) GError.cancelled]
      (copy_stream [[7]])).map (fun q => (q.idle, q.copy.ref_count)) = some (true, -1) := by
  decide

/-- Claim C3 fails on the code: in the natural completion of the copy of a one-byte
source, after the second `close_done` the freeing branch of `copy_data_unref` has not
run and only one stream has been counted as closed. -/
theorem release_branch_not_run :
    (run [Event.read_done, Event.read_done, Event.write_all, Event.close_done_in,
        Event.close_done_out]
      (copy_stream [[7]])).map
        (fun q => (q.idle, q.sink, q.in_closes, q.out_closes, q.copy.n_closed, q.released)) =
      some (true, [7], 1, 1, 1, 0) := by
  decide

/-- Claim C4, as stated, fails: after a read has failed no read is in flight, yet
`is_reading` is still set. -/
theorem is_reading_stays_set :
    (run [Event.read_fail GError.other] (copy_stream [[7]])).map
      (fun q => (q.reads, q.copy.is_reading)) = some (0, true) := by
  decide

/-- Claim C4, amended: in every state reached from `copy_stream` by any sequence of
completions, failed ones included, at most one read and at most one write are in
flight, the flag of an operation in flight is set, and `schedule_next` starts no read
while `is_reading` is set and no write while `is_writing` is set; when every completion
so far succeeded, each flag is set exactly while its operation is in flight. -/
theorem one_read_one_write (chunks : List (List Nat)) (es : List Event) (q : Pump)
    (h : run es (copy_stream chunks) = some q) :
    q.reads ≤ 1 ∧ q.writes ≤ 1 ∧
    (q.reads = 1 → q.copy.is_reading = true) ∧
    (q.writes = 1 → q.copy.is_writing = true) ∧
    (q.copy.is_reading = true → (schedule_next q).reads = q.reads) ∧
    (q.copy.is_writing = true → (schedule_next q).writes = q.writes) ∧
    ((∀ e ∈ es, Event.succeeded e = true) →
      (q.copy.is_reading = true ↔ q.reads = 1) ∧
      (q.copy.is_writing = true ↔ q.writes = 1)) := by
  obtain ⟨s1, s2, s3, s4⟩ := single_run chunks es q h
  refine ⟨s1, s2, s3, s4, ?_, ?_, ?_⟩
  · intro hr
    unfold schedule_next
    simp only [hr]
    split_ifs <;> simp_all
  · intro hw
    unfold schedule_next
    simp only [hw]
    split_ifs <;> simp_all
  · intro hes
    have x := exact_run chunks es q hes h
    have x1 := x.reads_eq
    have x2 := x.writes_eq
    constructor
    · constructor
      · intro hr
        simpa [hr] using x1
      · intro hr
        by_contra hc
        simp [hc] at x1
        omega
    · constructor
      · intro hw
        simpa [hw] using x2
      · intro hw
        by_contra hc
        simp [hc] at x2
        omega

theorem one_read_one_write_witness :
    run [Event.read_done] (copy_stream [[7]]) = some after_first_read ∧
    (after_first_read.reads ≤ 1 ∧ after_first_read.writes ≤ 1 ∧
    (after_first_read.reads = 1 → after_first_read.copy.is_reading = true) ∧
    (after_first_read.writes = 1 → after_first_read.copy.is_writing = true) ∧
    (after_first_read.copy.is_reading = true →
      (schedule_next after_first_read).reads = after_first_read.reads) ∧
    (after_first_read.copy.is_writing = true →
      (schedule_next after_first_read).writes = after_first_read.writes) ∧
    ((∀ e ∈ [Event.read_done], Event.succeeded e = true) →
      (after_first_read.copy.is_reading = true ↔ after_first_read.reads = 1) ∧
      (after_first_read.copy.is_writing = true ↔ after_first_read.writes = 1))) :=
  ⟨by decide, one_read_one_write [[7]] [Event.read_done] after_first_read (by decide)⟩


/-! ## Properties of the transfer object -/

theorem invalidated_finished (t : TpFile)
    (h : t.state = TP_FILE_TRANSFER_STATE_COMPLETED ∨
      t.state = TP_FILE_TRANSFER_STATE_CANCELLED) :
    tp_file_invalidated_cb t = t := by
  have : ¬ (t.state ≠ TP_FILE_TRANSFER_STATE_COMPLETED ∧
      t.state ≠ TP_FILE_TRANSFER_STATE_CANCELLED) := by
    rcases h with h | h <;> simp [h]
  simp [tp_file_invalidated_cb, this]

theorem start_transfer_state (env : StartEnv) (t : TpFile) :
    (tp_file_start_transfer env t).state = t.state ∧
    (tp_file_start_transfer env t).state_change_reason = t.state_change_reason ∧
    (tp_file_start_transfer env t).signals = t.signals ∧
    (tp_file_start_transfer env t).start_log = t.start_log ++ [t.state] ∧
    (tp_file_start_transfer env t).socket_address = t.socket_address := by
  unfold tp_file_start_transfer
  simp only [g_timeout_add_seconds, empathy_tp_file_cancel]
  split_ifs <;> simp

theorem state_changed_state (t : TpFile) (state reason : Nat) (env : StartEnv)
    (h : state ≠ t.state) :
    (tp_file_state_changed_cb state reason env t).state = state ∧
    (tp_file_state_changed_cb state reason env t).state_change_reason = reason := by
  unfold tp_file_state_changed_cb
  simp [h]

/-- Claim C5: `tp_file_invalidated_cb` moves a transfer that is neither Completed nor
Cancelled to Cancelled with reason local-error, and leaves a Completed or Cancelled
transfer exactly as it was. -/
theorem invalidated_cancels_unless_finished (t : TpFile) :
    (t.state ≠ TP_FILE_TRANSFER_STATE_COMPLETED ∧ t.state ≠ TP_FILE_TRANSFER_STATE_CANCELLED →
      (tp_file_invalidated_cb t).state = TP_FILE_TRANSFER_STATE_CANCELLED ∧
      (tp_file_invalidated_cb t).state_change_reason =
        TP_FILE_TRANSFER_STATE_CHANGE_REASON_LOCAL_ERROR) ∧
    (t.state = TP_FILE_TRANSFER_STATE_COMPLETED ∨ t.state = TP_FILE_TRANSFER_STATE_CANCELLED →
      tp_file_invalidated_cb t = t) := by
  constructor
  · intro h
    simp [tp_file_invalidated_cb, h]
  · exact invalidated_finished t

theorem invalidated_cancels_unless_finished_witness :
    (tp_file_constructor.state ≠ TP_FILE_TRANSFER_STATE_COMPLETED ∧
      tp_file_constructor.state ≠ TP_FILE_TRANSFER_STATE_CANCELLED) ∧
    ((tp_file_invalidated_cb tp_file_constructor).state = TP_FILE_TRANSFER_STATE_CANCELLED ∧
      (tp_file_invalidated_cb tp_file_constructor).state_change_reason =
        TP_FILE_TRANSFER_STATE_CHANGE_REASON_LOCAL_ERROR) ∧
    tp_file_invalidated_cb
        (tp_file_set_property (Property.state TP_FILE_TRANSFER_STATE_COMPLETED)
          tp_file_constructor) =
      tp_file_set_property (Property.state TP_FILE_TRANSFER_STATE_COMPLETED)
        tp_file_constructor :=
  ⟨by decide,
   (invalidated_cancels_unless_finished tp_file_constructor).1 (by decide),
   (invalidated_cancels_unless_finished
      (tp_file_set_property (Property.state TP_FILE_TRANSFER_STATE_COMPLETED)
        tp_file_constructor)).2 (Or.inl rfl)⟩

/-- Claim C6: `tp_file_state_changed_cb` called with the state the transfer already has
returns the transfer unchanged, whatever the reason (so nothing is started and nothing
is emitted), and delivering a notification a second time changes nothing. -/
theorem state_changed_same_state (t : TpFile) (reason : Nat) (env : StartEnv) :
    tp_file_state_changed_cb t.state reason env t = t ∧
    ∀ (state : Nat) (env2 : StartEnv),
      tp_file_state_changed_cb state reason env2 (tp_file_state_changed_cb state reason env t) =
        tp_file_state_changed_cb state reason env t := by
  constructor
  · simp [tp_file_state_changed_cb]
  · intro state env2
    by_cases h : state = t.state
    · subst h
      simp [tp_file_state_changed_cb]
    · have h2 : (tp_file_state_changed_cb state reason env t).state = state := by
        simp [tp_file_state_changed_cb, h]
      generalize tp_file_state_changed_cb state reason env t = u at h2
      subst h2
      simp [tp_file_state_changed_cb]

/-- Claim C9, as stated, fails: a transfer whose state is Completed is moved to Open by
a state-changed notification. -/
theorem completed_state_is_left :
    (handle_all [TpEvent.state_changed TP_FILE_TRANSFER_STATE_COMPLETED 0 ⟨true, true, 0⟩]
      tp_file_constructor).state = TP_FILE_TRANSFER_STATE_COMPLETED ∧
    (handle_all [TpEvent.state_changed TP_FILE_TRANSFER_STATE_COMPLETED 0 ⟨true, true, 0⟩,
        TpEvent.state_changed TP_FILE_TRANSFER_STATE_OPEN 0 ⟨true, true, 0⟩]
      tp_file_constructor).state = TP_FILE_TRANSFER_STATE_OPEN ∧
    TpEvent.channel_event
      (TpEvent.state_changed TP_FILE_TRANSFER_STATE_OPEN 0 ⟨true, true, 0⟩) = true := by
  decide

theorem handle_keeps_state (t : TpFile) (e : TpEvent) (hch : e.channel_event = true)
    (hfin : t.state = TP_FILE_TRANSFER_STATE_COMPLETED ∨
      t.state = TP_FILE_TRANSFER_STATE_CANCELLED)
    (hsame : ∀ s r env, e = TpEvent.state_changed s r env → s = t.state) :
    (handle e t).state = t.state ∧
      (handle e t).state_change_reason = t.state_change_reason := by
  cases e with
  | invalidated =>
    have := invalidated_finished t hfin
    simp [handle, this]
  | state_changed s r env =>
    have := hsame s r env rfl
    subst this
    simp [handle, tp_file_state_changed_cb]
  | transferred_bytes_changed count now undef =>
    simp only [handle, tp_file_transferred_bytes_changed_cb, g_timeout_add_seconds,
      g_source_remove]
    split_ifs <;> simp
  | method_reply error address env =>
    simp only [handle, tp_file_method_cb]
    cases address <;> simp only [] <;> split_ifs <;>
      simp [empathy_tp_file_cancel, (start_transfer_state env _).1,
        (start_transfer_state env _).2.1]
  | cancel => simp [handle, empathy_tp_file_cancel]
  | got_contact _ => simp [TpEvent.channel_event] at hch
  | get_all _ _ _ _ => simp [TpEvent.channel_event] at hch
  | get_requested _ _ => simp [TpEvent.channel_event] at hch
  | accept _ _ => simp [TpEvent.channel_event] at hch
  | offer _ _ => simp [TpEvent.channel_event] at hch
  | stalled _ => simp [TpEvent.channel_event] at hch
  | set_property _ => simp [TpEvent.channel_event] at hch

/-- Claim C9, amended: once the state is Completed or Cancelled, no sequence of
byte-count updates, socket-address replies, invalidations, cancel requests and
state-changed notifications repeating that state changes the state or the reason; a
state-changed notification carrying a different state is committed as it is. -/
theorem finished_state_kept (t : TpFile) (es : List TpEvent)
    (hfin : t.state = TP_FILE_TRANSFER_STATE_COMPLETED ∨
      t.state = TP_FILE_TRANSFER_STATE_CANCELLED)
    (hch : ∀ e ∈ es, TpEvent.channel_event e = true)
    (hsame : ∀ s r env, TpEvent.state_changed s r env ∈ es → s = t.state) :
    ((handle_all es t).state = t.state ∧
      (handle_all es t).state_change_reason = t.state_change_reason) ∧
    ∀ s r env, s ≠ t.state → (handle (TpEvent.state_changed s r env) t).state = s := by
  constructor
  · induction es generalizing t with
    | nil => simp [handle_all]
    | cons e es ih =>
      obtain ⟨k1, k2⟩ := handle_keeps_state t e (hch e (List.mem_cons_self _ _)) hfin
        (fun s r env he => hsame s r env (by rw [he]; exact List.mem_cons_self _ _))
      have := ih (handle e t) (by rw [k1]; exact hfin)
        (fun e' he' => hch e' (List.mem_cons_of_mem _ he'))
        (fun s r env he => by rw [k1]; exact hsame s r env (List.mem_cons_of_mem _ he))
      simp only [handle_all]
      rw [this.1, this.2, k1, k2]
      exact ⟨rfl, rfl⟩
  · intro s r env hs
    exact (state_changed_state t s r env hs).1

theorem finished_state_kept_witness :
    ((tp_file_set_property (Property.state TP_FILE_TRANSFER_STATE_COMPLETED)
        tp_file_constructor).state = TP_FILE_TRANSFER_STATE_COMPLETED ∨
      (tp_file_set_property (Property.state TP_FILE_TRANSFER_STATE_COMPLETED)
        tp_file_constructor).state = TP_FILE_TRANSFER_STATE_CANCELLED) ∧
    (((handle_all [TpEvent.invalidated, TpEvent.transferred_bytes_changed 10 3 0,
          TpEvent.state_changed TP_FILE_TRANSFER_STATE_COMPLETED 2 ⟨true, true, 4⟩,
          TpEvent.cancel]
        (tp_file_set_property (Property.state TP_FILE_TRANSFER_STATE_COMPLETED)
          tp_file_constructor)).state =
        (tp_file_set_property (Property.state TP_FILE_TRANSFER_STATE_COMPLETED)
          tp_file_constructor).state ∧
      (handle_all [TpEvent.invalidated, TpEvent.transferred_bytes_changed 10 3 0,
          TpEvent.state_changed TP_FILE_TRANSFER_STATE_COMPLETED 2 ⟨true, true, 4⟩,
          TpEvent.cancel]
        (tp_file_set_property (Property.state TP_FILE_TRANSFER_STATE_COMPLETED)
          tp_file_constructor)).state_change_reason =
        (tp_file_set_property (Property.state TP_FILE_TRANSFER_STATE_COMPLETED)
          tp_file_constructor).state_change_reason) ∧
      ∀ s r env,
        s ≠ (tp_file_set_property (Property.state TP_FILE_TRANSFER_STATE_COMPLETED)
          tp_file_constructor).state →
        (handle (TpEvent.state_changed s r env)
          (tp_file_set_property (Property.state TP_FILE_TRANSFER_STATE_COMPLETED)
            tp_file_constructor)).state = s) :=
  ⟨Or.inl rfl,
   finished_state_kept
    (tp_file_set_property (Property.state TP_FILE_TRANSFER_STATE_COMPLETED)
      tp_file_constructor)
    [TpEvent.invalidated, TpEvent.transferred_bytes_changed 10 3 0,
      TpEvent.state_changed TP_FILE_TRANSFER_STATE_COMPLETED 2 ⟨true, true, 4⟩,
      TpEvent.cancel]
    (Or.inl rfl) (by decide)
    (by
      intro s r env h
      simp at h
      exact h.1)⟩

/-- Claim C10 fails on the code: the transfer that `tp_file_constructor` returns has
state `G_MAXUINT`, the default of the `state` property, and not
`TP_FILE_TRANSFER_STATE_NONE`; its state-change reason is none. As a result
`tp_file_check_if_ready` declares it ready as soon as the contact arrives. -/
theorem constructed_state_is_maxuint :
    tp_file_constructor.state = G_MAXUINT ∧
    tp_file_constructor.state ≠ TP_FILE_TRANSFER_STATE_NONE ∧
    tp_file_constructor.state_change_reason = TP_FILE_TRANSFER_STATE_CHANGE_REASON_NONE ∧
    (tp_file_got_contact_cb false tp_file_constructor).ready = true := by
  decide

/-! ## Readiness, progress estimation and queries -/

theorem handle_all_append (es es2 : List TpEvent) (t : TpFile) :
    handle_all (es ++ es2) t = handle_all es2 (handle_all es t) := by
  induction es generalizing t with
  | nil => rfl
  | cons e es ih => simp [handle_all, ih]

theorem check_if_ready_ready (t : TpFile) :
    (t.ready = true → (tp_file_check_if_ready t).ready = true) ∧
    (tp_file_check_if_ready t).ready_notified =
      t.ready_notified +
        (if (tp_file_check_if_ready t).ready = true ∧ t.ready = false then 1 else 0) := by
  unfold tp_file_check_if_ready TpFile.ready_notified
  split_ifs with h1 h2 <;> simp_all

theorem start_transfer_ready (env : StartEnv) (t : TpFile) :
    (tp_file_start_transfer env t).ready = t.ready ∧
    (tp_file_start_transfer env t).contact = t.contact ∧
    (tp_file_start_transfer env t).signals = t.signals := by
  unfold tp_file_start_transfer
  simp only [g_timeout_add_seconds, empathy_tp_file_cancel]
  split_ifs <;> simp

theorem method_cb_ready (error : Bool) (address : GValue) (env : StartEnv) (t : TpFile) :
    (tp_file_method_cb error address env t).ready = t.ready ∧
    (tp_file_method_cb error address env t).contact = t.contact ∧
    (tp_file_method_cb error address env t).signals = t.signals := by
  unfold tp_file_method_cb
  cases error
  · cases address
    · simp only [Bool.false_eq_true, if_false]
      split_ifs
      · exact start_transfer_ready env _
      · exact ⟨rfl, rfl, rfl⟩
    · simp only [Bool.false_eq_true, if_false]
      split_ifs
      · exact start_transfer_ready env _
      · exact ⟨rfl, rfl, rfl⟩
    · exact ⟨rfl, rfl, rfl⟩
  · exact ⟨rfl, rfl, rfl⟩

theorem ready_step (e : TpEvent) (t : TpFile) :
    (t.ready = true → (handle e t).ready = true) ∧
    (handle e t).ready_notified =
      t.ready_notified + (if (handle e t).ready = true ∧ t.ready = false then 1 else 0) := by
  cases e with
  | invalidated =>
    simp only [handle, tp_file_invalidated_cb, TpFile.ready_notified]
    split_ifs <;> simp_all
  | state_changed s r env =>
    obtain ⟨a, b, c⟩ := start_transfer_ready env t
    simp only [handle, tp_file_state_changed_cb, TpFile.ready_notified]
    split_ifs <;> simp_all
  | transferred_bytes_changed count now undef =>
    simp only [handle, tp_file_transferred_bytes_changed_cb, g_timeout_add_seconds,
      g_source_remove, TpFile.ready_notified]
    split_ifs <;> simp_all
  | got_contact error =>
    simp only [handle, tp_file_got_contact_cb]
    cases error
    · simpa using check_if_ready_ready { t with contact := true }
    · simp [empathy_tp_file_cancel, TpFile.ready_notified]
  | get_all error size state tb =>
    simp only [handle, tp_file_get_all_cb]
    cases error
    · have h := check_if_ready_ready
        { t with size := size, state := state, transferred_bytes := tb,
                 signals := t.signals ++
                   [Signal.notify_size, Signal.notify_state, Signal.notify_transferred_bytes,
                    Signal.notify_filename, Signal.notify_content_hash,
                    Signal.notify_content_hash_type, Signal.notify_content_type] }
      simpa [TpFile.ready_notified] using h
    · simp [TpFile.ready_notified]
  | get_requested error requested =>
    simp only [handle, tp_file_get_requested_cb]
    cases error
    · have h := check_if_ready_ready
        { t with incoming := !requested, signals := t.signals ++ [Signal.notify_incoming] }
      simpa [TpFile.ready_notified] using h
    · simp [TpFile.ready_notified]
  | method_reply error address env =>
    obtain ⟨a, b, c⟩ := method_cb_ready error address env t
    simp [handle, TpFile.ready_notified, a, c]
  | accept file_ok error_out =>
    simp only [handle, empathy_tp_file_accept, TpFile.ready_notified]
    split_ifs <;> simp_all
  | offer file_ok error_out => simp [handle, empathy_tp_file_offer, TpFile.ready_notified]
  | cancel => simp [handle, empathy_tp_file_cancel, TpFile.ready_notified]
  | stalled id =>
    simp only [handle, tp_file_stalled_cb, g_source_remove, TpFile.ready_notified]
    split_ifs <;> simp_all
  | set_property prop =>
    cases prop <;> simp [handle, tp_file_set_property, TpFile.ready_notified]

theorem ready_run (es : List TpEvent) (t : TpFile)
    (h : t.ready_notified = if t.ready = true then 1 else 0) :
    (t.ready = true → (handle_all es t).ready = true) ∧
    (handle_all es t).ready_notified = if (handle_all es t).ready = true then 1 else 0 := by
  induction es generalizing t with
  | nil => exact ⟨fun h => h, h⟩
  | cons e es ih =>
    obtain ⟨s1, s2⟩ := ready_step e t
    have h2 : (handle e t).ready_notified = if (handle e t).ready = true then 1 else 0 := by
      rw [s2, h]
      cases hr : t.ready <;> cases hr2 : (handle e t).ready <;> simp_all
    obtain ⟨i1, i2⟩ := ih (handle e t) h2
    exact ⟨fun hr => i1 (s1 hr), i2⟩

/-- Claim C11: along every sequence of events applied to a newly constructed transfer
the notification of `ready` has been emitted once if `ready` is set and never otherwise,
so at most once; and once `ready` is set it stays set whatever events follow. -/
theorem ready_set_once (es es2 : List TpEvent) :
    (handle_all es tp_file_constructor).ready_notified =
      (if (handle_all es tp_file_constructor).ready = true then 1 else 0) ∧
    (handle_all es tp_file_constructor).ready_notified ≤ 1 ∧
    ((handle_all es tp_file_constructor).ready = true →
      (handle_all (es ++ es2) tp_file_constructor).ready = true ∧
      (handle_all (es ++ es2) tp_file_constructor).ready_notified = 1) := by
  have h0 : tp_file_constructor.ready_notified =
      if tp_file_constructor.ready = true then 1 else 0 := by decide
  obtain ⟨_, a2⟩ := ready_run es tp_file_constructor h0
  obtain ⟨b1, b2⟩ := ready_run es2 (handle_all es tp_file_constructor) a2
  refine ⟨a2, ?_, ?_⟩
  · rw [a2]
    split_ifs <;> omega
  · intro hr
    rw [handle_all_append]
    refine ⟨b1 hr, ?_⟩
    rw [b2, if_pos (b1 hr)]

theorem ready_set_once_witness :
    (handle_all [TpEvent.get_all false 1000 1 0, TpEvent.got_contact false]
      tp_file_constructor).ready = true ∧
    (handle_all ([TpEvent.get_all false 1000 1 0, TpEvent.got_contact false] ++
        [TpEvent.get_requested false true, TpEvent.invalidated,
          TpEvent.set_property (Property.state 0)])
      tp_file_constructor).ready = true ∧
    (handle_all ([TpEvent.get_all false 1000 1 0, TpEvent.got_contact false] ++
        [TpEvent.get_requested false true, TpEvent.invalidated,
          TpEvent.set_property (Property.state 0)])
      tp_file_constructor).ready_notified = 1 :=
  ⟨by decide,
   (ready_set_once [TpEvent.get_all false 1000 1 0, TpEvent.got_contact false]
      [TpEvent.get_requested false true, TpEvent.invalidated,
        TpEvent.set_property (Property.state 0)]).2.2 (by decide)⟩

/-- Claim C12 fails on the code: the contact is resolved while the state is None, then a
state-changed notification (or an invalidation) gives a state different from None; the
contact is resolved and the state is not None, yet `ready` is still unset, because
neither `tp_file_state_changed_cb` nor `tp_file_invalidated_cb` calls
`tp_file_check_if_ready`. -/
theorem not_ready_after_state_change :
    (handle_all [TpEvent.get_all false 1000 TP_FILE_TRANSFER_STATE_NONE 0,
        TpEvent.got_contact false] tp_file_constructor).ready = false ∧
    (handle_all [TpEvent.get_all false 1000 TP_FILE_TRANSFER_STATE_NONE 0,
        TpEvent.got_contact false, TpEvent.state_changed 1 0 ⟨true, true, 0⟩]
      tp_file_constructor).contact = true ∧
    (handle_all [TpEvent.get_all false 1000 TP_FILE_TRANSFER_STATE_NONE 0,
        TpEvent.got_contact false, TpEvent.state_changed 1 0 ⟨true, true, 0⟩]
      tp_file_constructor).state = 1 ∧
    (handle_all [TpEvent.get_all false 1000 TP_FILE_TRANSFER_STATE_NONE 0,
        TpEvent.got_contact false, TpEvent.state_changed 1 0 ⟨true, true, 0⟩]
      tp_file_constructor).ready = false ∧
    (handle_all [TpEvent.get_all false 1000 TP_FILE_TRANSFER_STATE_NONE 0,
        TpEvent.got_contact false, TpEvent.invalidated]
      tp_file_constructor).state = TP_FILE_TRANSFER_STATE_CANCELLED ∧
    (handle_all [TpEvent.get_all false 1000 TP_FILE_TRANSFER_STATE_NONE 0,
        TpEvent.got_contact false, TpEvent.invalidated]
      tp_file_constructor).ready = false := by
  decide

/-- Claim C13, as stated, fails: the Requested fetch ends with an error, the GetAll
reply and the contact then arrive, and the transfer is ready. -/
theorem ready_after_requested_error :
    (handle_all [TpEvent.get_requested true false] tp_file_constructor).close_calls = 1 ∧
    (handle_all [TpEvent.get_requested true false, TpEvent.get_all false 1000 1 0,
        TpEvent.got_contact false] tp_file_constructor).ready = true := by
  decide

theorem contact_step (e : TpEvent) (t : TpFile) (he : e ≠ TpEvent.got_contact false)
    (hc : t.contact = false) (hr : t.ready = false) :
    (handle e t).contact = false ∧ (handle e t).ready = false := by
  have chk : ∀ u : TpFile, u.contact = false → u.ready = false →
      (tp_file_check_if_ready u).contact = false ∧ (tp_file_check_if_ready u).ready = false := by
    intro u h1 h2
    simp [tp_file_check_if_ready, h1, h2]
  cases e with
  | invalidated =>
    simp only [handle, tp_file_invalidated_cb]
    split_ifs <;> simp_all
  | state_changed s r env =>
    obtain ⟨a, b, c⟩ := start_transfer_ready env t
    simp only [handle, tp_file_state_changed_cb]
    split_ifs <;> simp_all
  | transferred_bytes_changed count now undef =>
    simp only [handle, tp_file_transferred_bytes_changed_cb, g_timeout_add_seconds,
      g_source_remove]
    split_ifs <;> simp_all
  | got_contact error =>
    cases error
    · exact absurd rfl he
    · simp [handle, tp_file_got_contact_cb, empathy_tp_file_cancel, hc, hr]
  | get_all error size state tb =>
    simp only [handle, tp_file_get_all_cb]
    cases error
    · exact chk _ hc hr
    · simp [hc, hr]
  | get_requested error requested =>
    simp only [handle, tp_file_get_requested_cb]
    cases error
    · exact chk _ hc hr
    · simp [hc, hr]
  | method_reply error address env =>
    obtain ⟨a, b, c⟩ := method_cb_ready error address env t
    simp [handle, a, b, hc, hr]
  | accept file_ok error_out =>
    simp only [handle, empathy_tp_file_accept]
    split_ifs <;> simp_all
  | offer file_ok error_out => simp [handle, empathy_tp_file_offer, hc, hr]
  | cancel => simp [handle, empathy_tp_file_cancel, hc, hr]
  | stalled id =>
    simp only [handle, tp_file_stalled_cb, g_source_remove]
    split_ifs <;> simp_all
  | set_property prop =>
    cases prop <;> simp [handle, tp_file_set_property, hc, hr]

theorem contact_run (es : List TpEvent) (t : TpFile)
    (hes : ∀ e ∈ es, e ≠ TpEvent.got_contact false)
    (hc : t.contact = false) (hr : t.ready = false) :
    (handle_all es t).contact = false ∧ (handle_all es t).ready = false := by
  induction es generalizing t with
  | nil => exact ⟨hc, hr⟩
  | cons e es ih =>
    obtain ⟨a, b⟩ := contact_step e t (hes e (List.mem_cons_self _ _)) hc hr
    exact ih (handle e t) (fun e' he' => hes e' (List.mem_cons_of_mem _ he')) a b

/-- Claim C13, amended: a GetAll, Requested or contact reply that carries an error asks
the channel to close and leaves `ready` as it was; once the contact resolution has
failed on a transfer that is not ready, the transfer stays not ready through every
sequence of events without a successful contact reply; an error of the Requested or
GetAll fetch does not prevent readiness: the transfer becomes ready when the contact is
resolved while the state is not None. -/
theorem setup_error_closes (t : TpFile) (es : List TpEvent) (size state bytes : Nat)
    (requested : Bool) :
    ((tp_file_get_all_cb true size state bytes t).close_calls = t.close_calls + 1 ∧
      (tp_file_get_all_cb true size state bytes t).ready = t.ready) ∧
    ((tp_file_get_requested_cb true requested t).close_calls = t.close_calls + 1 ∧
      (tp_file_get_requested_cb true requested t).ready = t.ready) ∧
    ((tp_file_got_contact_cb true t).close_calls = t.close_calls + 1 ∧
      (tp_file_got_contact_cb true t).ready = t.ready) ∧
    (t.contact = false → t.ready = false →
      (∀ e ∈ es, e ≠ TpEvent.got_contact false) →
      (handle_all es (tp_file_got_contact_cb true t)).ready = false) ∧
    (t.state ≠ TP_FILE_TRANSFER_STATE_NONE →
      (tp_file_got_contact_cb false (tp_file_get_requested_cb true requested t)).ready = true ∧
      (tp_file_got_contact_cb false
        (tp_file_get_all_cb true size state bytes t)).ready = true) := by
  refine ⟨⟨rfl, rfl⟩, ⟨rfl, rfl⟩, ⟨rfl, rfl⟩, ?_, ?_⟩
  · intro hc hr hes
    exact (contact_run es (tp_file_got_contact_cb true t) hes hc hr).2
  · intro hs
    constructor <;>
      simp only [tp_file_got_contact_cb, tp_file_get_requested_cb, tp_file_get_all_cb,
        tp_file_check_if_ready] <;>
      cases hr : t.ready <;> simp [hs, hr]

theorem setup_error_closes_witness :
    (tp_file_constructor.contact = false ∧ tp_file_constructor.ready = false ∧
      tp_file_constructor.state ≠ TP_FILE_TRANSFER_STATE_NONE) ∧
    (handle_all [TpEvent.get_all false 1000 1 0, TpEvent.get_requested false true,
        TpEvent.state_changed 3 0 ⟨true, true, 0⟩]
      (tp_file_got_contact_cb true tp_file_constructor)).ready = false ∧
    (tp_file_got_contact_cb false
      (tp_file_get_requested_cb true false tp_file_constructor)).ready = true :=
  ⟨by decide,
   (setup_error_closes tp_file_constructor
      [TpEvent.get_all false 1000 1 0, TpEvent.get_requested false true,
        TpEvent.state_changed 3 0 ⟨true, true, 0⟩] 0 0 0 false).2.2.2.1
      (by decide) (by decide) (by decide),
   ((setup_error_closes tp_file_constructor [] 0 0 0 false).2.2.2.2 (by decide)).1⟩

theorem push_all_append (ps qs : List (Nat × Int × Int)) (t : TpFile) :
    push_all (ps ++ qs) t = push_all qs (push_all ps t) := by
  induction ps generalizing t with
  | nil => rfl
  | cons p ps ih =>
    obtain ⟨c, n, u⟩ := p
    simp [push_all, ih]

theorem bytes_changed_count (count : Nat) (now undef : Int) (t : TpFile) :
    (tp_file_transferred_bytes_changed_cb count now undef t).transferred_bytes = count := by
  unfold tp_file_transferred_bytes_changed_cb
  simp only [g_timeout_add_seconds, g_source_remove]
  split_ifs <;> simp_all

/-- Claim C14: after any sequence of byte counts delivered to
`tp_file_transferred_bytes_changed_cb` (non-decreasing or not) `transferred_bytes` is
the last count delivered, and a count equal to the current `transferred_bytes` leaves
the transfer exactly as it was: no field, no timer, no emission. -/
theorem transferred_bytes_is_last_pushed (t : TpFile) (pushes : List (Nat × Int × Int))
    (count : Nat) (now undef : Int) :
    (push_all (pushes ++ [(count, now, undef)]) t).transferred_bytes = count ∧
    tp_file_transferred_bytes_changed_cb t.transferred_bytes now undef t = t := by
  constructor
  · rw [push_all_append]
    simp only [push_all]
    exact bytes_changed_count count now undef _
  · simp [tp_file_transferred_bytes_changed_cb]


theorem round_half_even_floor (x : ℚ) :
    ⌊x⌋ ≤ round_half_even x ∧ round_half_even x ≤ ⌊x⌋ + 1 := by
  unfold round_half_even
  split_ifs <;> omega

theorem round_half_even_near (x : ℚ) (m : Int) (h : |x - m| < 1 / 2) :
    round_half_even x = m := by
  rw [abs_lt] at h
  obtain ⟨h1, h2⟩ := h
  unfold round_half_even
  by_cases hm : (m : ℚ) ≤ x
  · have hf : ⌊x⌋ = m := by
      rw [Int.floor_eq_iff]
      constructor <;> linarith
    rw [hf, if_pos (by linarith)]
  · push_neg at hm
    have hf : ⌊x⌋ = m - 1 := by
      rw [Int.floor_eq_iff]
      push_cast
      constructor <;> linarith
    rw [hf]
    push_cast
    rw [if_neg (by linarith), if_pos (by linarith)]
    ring

theorem gdouble_log (q : ℚ) (e : Int) (h1 : (2 : ℚ) ^ (52 + e) ≤ q)
    (h2 : q < (2 : ℚ) ^ (53 + e)) : Int.log 2 q = 52 + e := by
  have hq : 0 < q := lt_of_lt_of_le (zpow_pos (by norm_num) _) h1
  have a := (Int.zpow_le_iff_le_log (b := 2) (by norm_num) hq).mp (by exact_mod_cast h1)
  have b := (Int.lt_zpow_iff_log_lt (b := 2) (by norm_num) hq).mp (by exact_mod_cast h2)
  omega

theorem gdouble_eq (q : ℚ) (m e : Int) (h1 : (2 : ℚ) ^ (52 + e) ≤ q)
    (h2 : q < (2 : ℚ) ^ (53 + e)) (h3 : |q / 2 ^ e - m| < 1 / 2) :
    gdouble q = m * 2 ^ e := by
  have hq : 0 < q := lt_of_lt_of_le (zpow_pos (by norm_num) _) h1
  unfold gdouble
  simp only [ne_of_gt hq, if_false, not_lt.mpr hq.le, abs_of_pos hq,
    gdouble_log q e h1 h2]
  have : (52 + e - 52 : Int) = e := by omega
  rw [this, round_half_even_near _ m h3]
  ring

theorem gdouble_pos (q : ℚ) (hq : 0 < q) : 0 < gdouble q := by
  have hl := Int.zpow_log_le_self (b := 2) (r := q) (by norm_num) hq
  have hp : (0 : ℚ) < 2 ^ (Int.log 2 q - 52) := zpow_pos (by norm_num) _
  have hx : (2 : ℚ) ^ (52 : Int) ≤ q / 2 ^ (Int.log 2 q - 52) := by
    rw [le_div_iff₀ hp, ← zpow_add₀ (by norm_num)]
    have : (52 : Int) + (Int.log 2 q - 52) = Int.log 2 q := by omega
    rw [this]
    exact_mod_cast hl
  have hf : (1 : Int) ≤ ⌊q / 2 ^ (Int.log 2 q - 52)⌋ := by
    rw [Int.le_floor]
    refine le_trans ?_ hx
    norm_num
  have hr := (round_half_even_floor (q / 2 ^ (Int.log 2 q - 52))).1
  have hm : (0 : ℚ) < (round_half_even (q / 2 ^ (Int.log 2 q - 52)) : ℚ) := by
    have : (0 : Int) < round_half_even (q / 2 ^ (Int.log 2 q - 52)) := by omega
    exact_mod_cast this
  unfold gdouble
  simp only [ne_of_gt hq, if_false, not_lt.mpr hq.le, abs_of_pos hq]
  positivity

theorem gdouble_nonneg (q : ℚ) (hq : 0 ≤ q) : 0 ≤ gdouble q := by
  rcases eq_or_lt_of_le hq with h | h
  · subst h
    simp [gdouble]
  · exact (gdouble_pos q h).le

theorem gdouble_nat (n : Nat) (h : n < 2 ^ 53) : gdouble (n : ℚ) = n := by
  rcases Nat.eq_zero_or_pos n with h0 | h0
  · subst h0
    simp [gdouble]
  have hk : Nat.log 2 n < 53 := Nat.log_lt_of_lt_pow (by omega) h
  have h1 : 2 ^ Nat.log 2 n ≤ n := Nat.pow_log_le_self 2 (by omega)
  have h2 : n < 2 ^ (Nat.log 2 n + 1) := Nat.lt_pow_succ_log_self (by norm_num) n
  have e1 : (52 : Int) + ((Nat.log 2 n : Int) - 52) = (Nat.log 2 n : Int) := by omega
  have e2 : (53 : Int) + ((Nat.log 2 n : Int) - 52) = ((Nat.log 2 n + 1 : Nat) : Int) := by
    push_cast
    omega
  have e3 : ((Nat.log 2 n : Int) - 52) = -((52 - Nat.log 2 n : Nat) : Int) := by
    omega
  have key := gdouble_eq (n : ℚ) ((n * 2 ^ (52 - Nat.log 2 n) : Nat) : Int)
    ((Nat.log 2 n : Int) - 52)
    (by
      rw [e1, zpow_natCast]
      exact_mod_cast h1)
    (by
      rw [e2, zpow_natCast]
      exact_mod_cast h2)
    (by
      rw [e3, zpow_neg, zpow_natCast, div_inv_eq_mul]
      push_cast
      simp)
  rw [key, e3, zpow_neg, zpow_natCast]
  push_cast
  field_simp

theorem tdiv_num_den (q : ℚ) (hq : 0 ≤ q) : Int.tdiv q.num q.den = ⌊q⌋ := by
  rw [Rat.floor_def]
  exact Int.tdiv_eq_ediv (Rat.num_nonneg.mpr hq) (Int.ofNat_nonneg _)

theorem double_to_gint_floor (undef : Int) (num : Nat) (speed : ℚ) (hs : 0 < speed) :
    double_to_gint undef num speed =
      if G_MININT ≤ ⌊gdouble (gdouble (num : ℚ) / speed)⌋ ∧
          ⌊gdouble (gdouble (num : ℚ) / speed)⌋ ≤ G_MAXINT then
        ⌊gdouble (gdouble (num : ℚ) / speed)⌋
      else undef := by
  have hq : 0 ≤ gdouble (gdouble (num : ℚ) / speed) :=
    gdouble_nonneg _ (div_nonneg (gdouble_nonneg _ (Nat.cast_nonneg _)) hs.le)
  unfold double_to_gint
  simp only [ne_of_gt hs, if_false, tdiv_num_den _ hq]

theorem bytes_changed_recompute (t : TpFile) (count : Nat) (now undef : Int)
    (hnew : t.transferred_bytes ≠ count) (hel : 1 ≤ now - t.last_update_time)
    (hknown : t.size < EMPATHY_TP_FILE_UNKNOWN_SIZE)
    (hlast : t.last_update_transferred_bytes ≤ count) (hsize : count ≤ t.size) :
    (tp_file_transferred_bytes_changed_cb count now undef t).speed =
      gdouble (gdouble ((count - t.last_update_transferred_bytes : Nat) : ℚ) /
        gdouble ((now - t.last_update_time : Int) : ℚ)) ∧
    (tp_file_transferred_bytes_changed_cb count now undef t).remaining_time =
      double_to_gint undef (t.size - count)
        (gdouble (gdouble ((count - t.last_update_transferred_bytes : Nat) : ℚ) /
          gdouble ((now - t.last_update_time : Int) : ℚ))) ∧
    (tp_file_transferred_bytes_changed_cb count now undef t).last_update_time = now ∧
    (tp_file_transferred_bytes_changed_cb count now undef t).last_update_transferred_bytes =
      count ∧
    (tp_file_transferred_bytes_changed_cb count now undef t).transferred_bytes = count ∧
    (tp_file_transferred_bytes_changed_cb count now undef t).signals =
      t.signals ++ [Signal.notify_transferred_bytes, Signal.refresh] := by
  have hk : t.size < 18446744073709551615 := hknown
  have w1 : (count + (G_MAXUINT64 + 1) - t.last_update_transferred_bytes % (G_MAXUINT64 + 1))
      % (G_MAXUINT64 + 1) = count - t.last_update_transferred_bytes := by
    unfold G_MAXUINT64
    omega
  have w2 : (t.size + (G_MAXUINT64 + 1) - count % (G_MAXUINT64 + 1)) % (G_MAXUINT64 + 1) =
      t.size - count := by
    unfold G_MAXUINT64
    omega
  have h2 : now - t.last_update_time ≥ 1 := hel
  unfold tp_file_transferred_bytes_changed_cb
  simp only [g_timeout_add_seconds, g_source_remove]
  by_cases h3 : t.stalled_id = 0 <;> simp [hnew, h2, h3, w1, w2]

theorem gdouble_examples :
    gdouble 1 = 1 ∧ gdouble 400 = 400 ∧ gdouble 600 = 600 ∧ gdouble (3 / 2) = 3 / 2 ∧
    gdouble 3 = 3 ∧ gdouble 7 = 7 ∧ gdouble 35 = 35 ∧
    gdouble (7 / 3) = 5254199565265579 / 2251799813685248 ∧
    gdouble (35 / (5254199565265579 / 2251799813685248)) =
      8444249301319679 / 562949953421312 ∧
    gdouble 999999999999 = 999999999999 := by
  refine ⟨?_, ?_, ?_, ?_, ?_, ?_, ?_, ?_, ?_, ?_⟩
  · simpa using gdouble_nat 1 (by norm_num)
  · simpa using gdouble_nat 400 (by norm_num)
  · simpa using gdouble_nat 600 (by norm_num)
  · have := gdouble_eq (3 / 2) 6755399441055744 (-52) (by norm_num) (by norm_num)
      (by rw [abs_lt]; constructor <;> norm_num)
    rw [this]
    norm_num
  · simpa using gdouble_nat 3 (by norm_num)
  · simpa using gdouble_nat 7 (by norm_num)
  · simpa using gdouble_nat 35 (by norm_num)
  · have := gdouble_eq (7 / 3) 5254199565265579 (-51) (by norm_num) (by norm_num)
      (by rw [abs_lt]; constructor <;> norm_num)
    rw [this]
    norm_num
  · have := gdouble_eq (35 / (5254199565265579 / 2251799813685248)) 8444249301319679 (-49)
      (by norm_num) (by norm_num) (by rw [abs_lt]; constructor <;> norm_num)
    rw [this]
    norm_num
  · simpa using gdouble_nat 999999999999 (by norm_num)

theorem recompute_400 :
    gdouble (gdouble ((400 - 0 : Nat) : ℚ) / gdouble ((1 - 0 : Int) : ℚ)) = 400 ∧
    ⌊gdouble (gdouble ((1000 - 400 : Nat) : ℚ) / 400)⌋ = 1 := by
  obtain ⟨g1, g400, g600, g32, -⟩ := gdouble_examples
  constructor
  · rw [show ((400 - 0 : Nat) : ℚ) = 400 by norm_num,
      show ((1 - 0 : Int) : ℚ) = 1 by norm_num, g400, g1, div_one, g400]
  · rw [show ((1000 - 400 : Nat) : ℚ) = 600 by norm_num, g600,
      show (600 : ℚ) / 400 = 3 / 2 by norm_num, g32, Int.floor_eq_iff]
    norm_num

/-- Claim C15, as stated, fails. First: with size 42, snapshot 0 bytes at time 0 and the
update 7 bytes at time 3, the speed stored is the `gdouble` nearest to 7/3, which is
5254199565265579/2251799813685248 (2.3333333333333335), and the `gdouble` quotient
35 / speed is 14.999999999999998, so `remaining_time` becomes 14, while
(size - bytes) / ((bytes - lastBytes) / elapsed) is 15. Second: with size
1000000000000, snapshot 0 bytes at time 0 and the update 1 byte at time 1, the speed is
1 and the quotient is 999999999999, which no `gint` holds; `remaining_time` receives
what the undefined conversion yields (here `G_MININT`). Third: with size 1000, after the
counts 100 at time 1 and 150 at time 1 the snapshot is 100 bytes at time 1; the new
count 100 at time 2 equals the snapshot, the speed is 0 and the quotient does not
exist; `remaining_time` again receives the undefined value. -/
theorem remaining_time_not_the_quotient :
    ((tp_file_transferred_bytes_changed_cb 7 3 G_MININT
        (tp_file_get_all_cb false 42 3 0 tp_file_constructor)).speed =
          5254199565265579 / 2251799813685248 ∧
      (tp_file_transferred_bytes_changed_cb 7 3 G_MININT
        (tp_file_get_all_cb false 42 3 0 tp_file_constructor)).remaining_time = 14 ∧
      ⌊(((42 - 7 : Nat) : ℚ) / (((7 - 0 : Nat) : ℚ) / ((3 - 0 : Int) : ℚ)))⌋ = 15) ∧
    ((tp_file_transferred_bytes_changed_cb 1 1 G_MININT
        (tp_file_get_all_cb false 1000000000000 3 0 tp_file_constructor)).speed = 1 ∧
      (tp_file_transferred_bytes_changed_cb 1 1 G_MININT
        (tp_file_get_all_cb false 1000000000000 3 0 tp_file_constructor)).remaining_time =
          G_MININT ∧
      ⌊(((1000000000000 - 1 : Nat) : ℚ) / 1)⌋ = 999999999999) ∧
    ((push_all [(100, 1, G_MININT), (150, 1, G_MININT)]
        (tp_file_get_all_cb false 1000 3 0 tp_file_constructor)).transferred_bytes = 150 ∧
      (push_all [(100, 1, G_MININT), (150, 1, G_MININT)]
        (tp_file_get_all_cb false 1000 3 0
          tp_file_constructor)).last_update_transferred_bytes = 100 ∧
      (push_all [(100, 1, G_MININT), (150, 1, G_MININT)]
        (tp_file_get_all_cb false 1000 3 0 tp_file_constructor)).last_update_time = 1 ∧
      (push_all [(100, 1, G_MININT), (150, 1, G_MININT), (100, 2, G_MININT)]
        (tp_file_get_all_cb false 1000 3 0 tp_file_constructor)).speed = 0 ∧
      (push_all [(100, 1, G_MININT), (150, 1, G_MININT), (100, 2, G_MININT)]
        (tp_file_get_all_cb false 1000 3 0 tp_file_constructor)).remaining_time =
          G_MININT) := by
  obtain ⟨g1, g400, g600, g32, g3, g7, g35, g73, gq, gbig⟩ := gdouble_examples
  have g0 : gdouble 0 = 0 := by simp [gdouble]
  have a1 : (tp_file_get_all_cb false 42 3 0 tp_file_constructor).size = 42 := by decide
  have a2 : (tp_file_get_all_cb false 42 3 0
      tp_file_constructor).last_update_transferred_bytes = 0 := by decide
  have a3 : (tp_file_get_all_cb false 42 3 0
      tp_file_constructor).last_update_time = 0 := by decide
  obtain ⟨ha, ha', -⟩ := bytes_changed_recompute
    (tp_file_get_all_cb false 42 3 0 tp_file_constructor) 7 3 G_MININT
    (by decide) (by decide) (by decide) (by decide) (by decide)
  rw [a1, a2, a3] at ha'
  rw [a2, a3] at ha
  norm_num at ha ha'
  rw [g7, g3, g73] at ha ha'
  have b1 : (tp_file_get_all_cb false 1000000000000 3 0 tp_file_constructor).size =
      1000000000000 := by decide
  have b2 : (tp_file_get_all_cb false 1000000000000 3 0
      tp_file_constructor).last_update_transferred_bytes = 0 := by decide
  have b3 : (tp_file_get_all_cb false 1000000000000 3 0
      tp_file_constructor).last_update_time = 0 := by decide
  obtain ⟨hb, hb', -⟩ := bytes_changed_recompute
    (tp_file_get_all_cb false 1000000000000 3 0 tp_file_constructor) 1 1 G_MININT
    (by decide) (by decide) (by decide) (by decide) (by decide)
  rw [b1, b2, b3] at hb'
  rw [b2, b3] at hb
  norm_num at hb hb'
  rw [g1] at hb hb'
  norm_num at hb hb'
  rw [g1] at hb hb'
  have c1 : (push_all [(100, 1, G_MININT), (150, 1, G_MININT)]
      (tp_file_get_all_cb false 1000 3 0 tp_file_constructor)).size = 1000 := by decide
  have c2 : (push_all [(100, 1, G_MININT), (150, 1, G_MININT)]
      (tp_file_get_all_cb false 1000 3 0
        tp_file_constructor)).last_update_transferred_bytes = 100 := by decide
  have c3 : (push_all [(100, 1, G_MININT), (150, 1, G_MININT)]
      (tp_file_get_all_cb false 1000 3 0 tp_file_constructor)).last_update_time = 1 := by
    decide
  obtain ⟨hc, hc', -⟩ := bytes_changed_recompute
    (push_all [(100, 1, G_MININT), (150, 1, G_MININT)]
      (tp_file_get_all_cb false 1000 3 0 tp_file_constructor)) 100 2 G_MININT
    (by decide) (by decide) (by decide) (by decide) (by decide)
  rw [c1, c2, c3] at hc'
  rw [c2, c3] at hc
  norm_num at hc hc'
  rw [g0] at hc hc'
  norm_num at hc hc'
  rw [g0] at hc hc'
  have e : push_all [(100, 1, G_MININT), (150, 1, G_MININT), (100, 2, G_MININT)]
      (tp_file_get_all_cb false 1000 3 0 tp_file_constructor) =
      tp_file_transferred_bytes_changed_cb 100 2 G_MININT
        (push_all [(100, 1, G_MININT), (150, 1, G_MININT)]
          (tp_file_get_all_cb false 1000 3 0 tp_file_constructor)) := rfl
  refine ⟨⟨ha, ?_, ?_⟩, ⟨hb, ?_, ?_⟩, by decide, c2, c3, ?_, ?_⟩
  · have hf : ⌊(8444249301319679 / 562949953421312 : ℚ)⌋ = 14 := by
      rw [Int.floor_eq_iff]
      norm_num
    have hq : gdouble (gdouble ((35 : Nat) : ℚ) / (5254199565265579 / 2251799813685248)) =
        8444249301319679 / 562949953421312 := by
      rw [show ((35 : Nat) : ℚ) = 35 by norm_num, g35, gq]
    rw [ha', double_to_gint_floor _ _ _ (by norm_num), hq, hf, if_pos (by decide)]
  · rw [Int.floor_eq_iff]
    norm_num
  · have hf : ⌊(999999999999 : ℚ)⌋ = 999999999999 := by
      rw [Int.floor_eq_iff]
      norm_num
    have hq : gdouble (gdouble ((999999999999 : Nat) : ℚ) / 1) = 999999999999 := by
      rw [show ((999999999999 : Nat) : ℚ) = 999999999999 by norm_num, gbig, div_one, gbig]
    rw [hb', double_to_gint_floor _ _ _ (by norm_num), hq, hf, if_neg (by decide)]
  · rw [Int.floor_eq_iff]
    norm_num
  · rw [e, hc]
  · rw [e, hc']
    simp [double_to_gint]

/-- Claim C15, amended: when a new byte count arrives at least one second after the
last recomputation, with the size known, the snapshot strictly below the count, the
count at most the size, and the resulting quotient within the range of a `gint`, then
`speed` becomes (count - snapshot) / elapsed and `remaining_time` becomes
(size - count) / speed truncated to an integer, both in `gdouble` arithmetic (each
operand converted to the nearest `gdouble`, each quotient rounded to the nearest
`gdouble`), the snapshot becomes (now, count), and `transferred-bytes` and `refresh` are
emitted. -/
theorem speed_and_remaining_time (t : TpFile) (count : Nat) (now undef : Int)
    (hnew : t.transferred_bytes ≠ count) (hel : 1 ≤ now - t.last_update_time)
    (hknown : t.size < EMPATHY_TP_FILE_UNKNOWN_SIZE)
    (hlast : t.last_update_transferred_bytes < count) (hsize : count ≤ t.size)
    (hfit : ⌊gdouble (gdouble ((t.size - count : Nat) : ℚ) /
        gdouble (gdouble ((count - t.last_update_transferred_bytes : Nat) : ℚ) /
          gdouble ((now - t.last_update_time : Int) : ℚ)))⌋ ≤ G_MAXINT) :
    (tp_file_transferred_bytes_changed_cb count now undef t).speed =
      gdouble (gdouble ((count - t.last_update_transferred_bytes : Nat) : ℚ) /
        gdouble ((now - t.last_update_time : Int) : ℚ)) ∧
    (tp_file_transferred_bytes_changed_cb count now undef t).remaining_time =
      ⌊gdouble (gdouble ((t.size - count : Nat) : ℚ) /
        (tp_file_transferred_bytes_changed_cb count now undef t).speed)⌋ ∧
    (tp_file_transferred_bytes_changed_cb count now undef t).last_update_time = now ∧
    (tp_file_transferred_bytes_changed_cb count now undef t).last_update_transferred_bytes =
      count ∧
    (tp_file_transferred_bytes_changed_cb count now undef t).transferred_bytes = count ∧
    (tp_file_transferred_bytes_changed_cb count now undef t).signals =
      t.signals ++ [Signal.notify_transferred_bytes, Signal.refresh] := by
  obtain ⟨h1, h2, h3, h4, h5, h6⟩ :=
    bytes_changed_recompute t count now undef hnew hel hknown hlast.le hsize
  have ha : (0 : ℚ) < ((count - t.last_update_transferred_bytes : Nat) : ℚ) := by
    have : 0 < count - t.last_update_transferred_bytes := by omega
    exact_mod_cast this
  have he : (0 : ℚ) < ((now - t.last_update_time : Int) : ℚ) := by
    have : (0 : Int) < now - t.last_update_time := by omega
    exact_mod_cast this
  have hs := gdouble_pos _ (div_pos (gdouble_pos _ ha) (gdouble_pos _ he))
  have hq : 0 ≤ gdouble (gdouble ((t.size - count : Nat) : ℚ) /
      gdouble (gdouble ((count - t.last_update_transferred_bytes : Nat) : ℚ) /
        gdouble ((now - t.last_update_time : Int) : ℚ))) :=
    gdouble_nonneg _ (div_nonneg (gdouble_nonneg _ (Nat.cast_nonneg _)) hs.le)
  have hlow : G_MININT ≤ ⌊gdouble (gdouble ((t.size - count : Nat) : ℚ) /
      gdouble (gdouble ((count - t.last_update_transferred_bytes : Nat) : ℚ) /
        gdouble ((now - t.last_update_time : Int) : ℚ)))⌋ := by
    have := Int.floor_nonneg.mpr hq
    unfold G_MININT
    omega
  refine ⟨h1, ?_, h3, h4, h5, h6⟩
  rw [h2, h1, double_to_gint_floor _ _ _ hs, if_pos ⟨hlow, hfit⟩]

theorem speed_and_remaining_time_witness :
    (tp_file_transferred_bytes_changed_cb 7 3 0
      (tp_file_get_all_cb false 42 3 0 tp_file_constructor)).speed =
        5254199565265579 / 2251799813685248 ∧
    (tp_file_transferred_bytes_changed_cb 7 3 0
      (tp_file_get_all_cb false 42 3 0 tp_file_constructor)).remaining_time = 14 := by
  obtain ⟨g1, g400, g600, g32, g3, g7, g35, g73, gq, gbig⟩ := gdouble_examples
  have e1 : (tp_file_get_all_cb false 42 3 0 tp_file_constructor).size = 42 := by decide
  have e2 : (tp_file_get_all_cb false 42 3 0
      tp_file_constructor).last_update_transferred_bytes = 0 := by decide
  have e3 : (tp_file_get_all_cb false 42 3 0
      tp_file_constructor).last_update_time = 0 := by decide
  have hs : gdouble (gdouble ((7 - 0 : Nat) : ℚ) / gdouble ((3 - 0 : Int) : ℚ)) =
      5254199565265579 / 2251799813685248 := by
    rw [show ((7 - 0 : Nat) : ℚ) = 7 by norm_num, show ((3 - 0 : Int) : ℚ) = 3 by norm_num,
      g7, g3, g73]
  have hq : gdouble (gdouble ((42 - 7 : Nat) : ℚ) / (5254199565265579 / 2251799813685248)) =
      8444249301319679 / 562949953421312 := by
    rw [show ((42 - 7 : Nat) : ℚ) = 35 by norm_num, g35, gq]
  have hf : ⌊(8444249301319679 / 562949953421312 : ℚ)⌋ = 14 := by
    rw [Int.floor_eq_iff]
    norm_num
  obtain ⟨h1, h2, _⟩ := speed_and_remaining_time
    (tp_file_get_all_cb false 42 3 0 tp_file_constructor) 7 3 0
    (by decide) (by decide) (by decide) (by decide) (by decide)
    (by
      rw [e1, e2, e3, hs, hq, hf]
      decide)
  rw [e2, e3, hs] at h1
  rw [h1, e1, hq, hf] at h2
  exact ⟨h1, h2⟩

theorem bytes_changed_refresh (count : Nat) (now undef : Int) (t : TpFile) :
    (tp_file_transferred_bytes_changed_cb count now undef t).refreshes =
      t.refreshes +
        (if t.transferred_bytes ≠ count ∧ 1 ≤ now - t.last_update_time then 1 else 0) ∧
    (tp_file_transferred_bytes_changed_cb count now undef t).last_update_time =
      (if t.transferred_bytes ≠ count ∧ 1 ≤ now - t.last_update_time then now
       else t.last_update_time) := by
  unfold tp_file_transferred_bytes_changed_cb TpFile.refreshes
  simp only [g_timeout_add_seconds, g_source_remove]
  by_cases h1 : t.transferred_bytes = count
  · simp [h1]
  · by_cases h2 : 1 ≤ now - t.last_update_time
    · by_cases h3 : t.stalled_id = 0 <;> simp [h1, h2, h3]
    · by_cases h3 : t.stalled_id = 0 <;> simp [h1, h2, h3]

theorem push_all_same_second_quiet (now : Int) (ps : List (Nat × Int × Int)) (t : TpFile)
    (hps : ∀ p ∈ ps, p.2.1 = now) (h : now - t.last_update_time < 1) :
    (push_all ps t).refreshes = t.refreshes := by
  induction ps generalizing t with
  | nil => rfl
  | cons p ps ih =>
    obtain ⟨c, n, u⟩ := p
    have hn : n = now := hps (c, n, u) (List.mem_cons_self _ _)
    subst hn
    obtain ⟨a1, a2⟩ := bytes_changed_refresh c n u t
    have hno : ¬ (t.transferred_bytes ≠ c ∧ 1 ≤ n - t.last_update_time) := by
      intro hh
      omega
    rw [if_neg hno] at a1 a2
    simp only [push_all]
    rw [ih _ (fun p hp => hps p (List.mem_cons_of_mem _ hp)) (by rw [a2]; exact h), a1]
    rfl

theorem push_all_same_second (now : Int) (ps : List (Nat × Int × Int)) (t : TpFile)
    (hps : ∀ p ∈ ps, p.2.1 = now) :
    (push_all ps t).refreshes ≤ t.refreshes + 1 := by
  induction ps generalizing t with
  | nil => simp [push_all]
  | cons p ps ih =>
    obtain ⟨c, n, u⟩ := p
    have hn : n = now := hps (c, n, u) (List.mem_cons_self _ _)
    subst hn
    obtain ⟨a1, a2⟩ := bytes_changed_refresh c n u t
    simp only [push_all]
    by_cases hh : t.transferred_bytes ≠ c ∧ 1 ≤ n - t.last_update_time
    · rw [if_pos hh] at a1 a2
      rw [push_all_same_second_quiet n ps _ (fun p hp => hps p (List.mem_cons_of_mem _ hp))
        (by rw [a2]; omega), a1]
    · rw [if_neg hh] at a1
      have := ih (tp_file_transferred_bytes_changed_cb c n u t)
        (fun p hp => hps p (List.mem_cons_of_mem _ hp))
      rw [a1] at this
      simpa using this

/-- Claim C16: a byte-count update that arrives less than one second after the last
recomputation leaves `speed`, `remaining_time` and the snapshot of time and bytes as
they were and emits no `refresh`; apart from the emission of `transferred-bytes` only
`transferred_bytes` and the stall timer (`stalled_id`, the pending sources) change.
However many updates are processed at the same second, they emit at most one
`refresh`. -/
theorem no_recompute_within_second (t : TpFile) (count : Nat) (now undef : Int) :
    (now - t.last_update_time < 1 →
      (tp_file_transferred_bytes_changed_cb count now undef t).speed = t.speed ∧
      (tp_file_transferred_bytes_changed_cb count now undef t).remaining_time =
        t.remaining_time ∧
      (tp_file_transferred_bytes_changed_cb count now undef t).last_update_time =
        t.last_update_time ∧
      (tp_file_transferred_bytes_changed_cb count now undef t).last_update_transferred_bytes =
        t.last_update_transferred_bytes ∧
      (tp_file_transferred_bytes_changed_cb count now undef t).refreshes = t.refreshes ∧
      (tp_file_transferred_bytes_changed_cb count now undef t).signals =
        t.signals ++
          (if t.transferred_bytes = count then [] else [Signal.notify_transferred_bytes]) ∧
      { t with
          transferred_bytes :=
            (tp_file_transferred_bytes_changed_cb count now undef t).transferred_bytes,
          stalled_id := (tp_file_transferred_bytes_changed_cb count now undef t).stalled_id,
          timers := (tp_file_transferred_bytes_changed_cb count now undef t).timers,
          next_source_id :=
            (tp_file_transferred_bytes_changed_cb count now undef t).next_source_id,
          signals := (tp_file_transferred_bytes_changed_cb count now undef t).signals } =
        tp_file_transferred_bytes_changed_cb count now undef t) ∧
    (∀ ps : List (Nat × Int × Int), (∀ p ∈ ps, p.2.1 = now) →
      (push_all ps t).refreshes ≤ t.refreshes + 1) := by
  constructor
  · intro h
    have h2 : ¬ (now - t.last_update_time ≥ 1) := by omega
    unfold tp_file_transferred_bytes_changed_cb TpFile.refreshes
    simp only [g_timeout_add_seconds, g_source_remove]
    by_cases h1 : t.transferred_bytes = count
    · subst h1
      simp
    · by_cases h3 : t.stalled_id = 0 <;> simp [h1, h2, h3]
  · intro ps hps
    exact push_all_same_second now ps t hps

theorem no_recompute_within_second_witness :
    (0 : Int) - (tp_file_get_all_cb false 1000 3 0 tp_file_constructor).last_update_time < 1 ∧
    (tp_file_transferred_bytes_changed_cb 400 0 0
      (tp_file_get_all_cb false 1000 3 0 tp_file_constructor)).refreshes =
      (tp_file_get_all_cb false 1000 3 0 tp_file_constructor).refreshes ∧
    (tp_file_transferred_bytes_changed_cb 400 0 0
      (tp_file_get_all_cb false 1000 3 0 tp_file_constructor)).last_update_transferred_bytes =
      (tp_file_get_all_cb false 1000 3 0
        tp_file_constructor).last_update_transferred_bytes :=
  ⟨by decide,
   ((no_recompute_within_second (tp_file_get_all_cb false 1000 3 0 tp_file_constructor)
      400 0 0).1 (by decide)).2.2.2.2.1,
   ((no_recompute_within_second (tp_file_get_all_cb false 1000 3 0 tp_file_constructor)
      400 0 0).1 (by decide)).2.2.2.1⟩

/-- Claim C17 fails on the code: the state becomes Open with a socket address stored,
leaves Open and becomes Open again, so `tp_file_start_transfer` runs twice; the second
run schedules a stall timeout without removing the pending one. With no byte-count
update at all, two timeouts are pending and both fire: `tp_file_stalled_cb` runs twice
in one window of silence and `refresh` is emitted twice. -/
theorem stall_callback_runs_twice :
    (handle_all [TpEvent.offer true true,
        TpEvent.method_reply false (GValue.uchar_array [47]) ⟨true, true, 0⟩,
        TpEvent.state_changed TP_FILE_TRANSFER_STATE_OPEN 0 ⟨true, true, 0⟩,
        TpEvent.state_changed 1 0 ⟨true, true, 0⟩,
        TpEvent.state_changed TP_FILE_TRANSFER_STATE_OPEN 0 ⟨true, true, 1⟩]
      tp_file_constructor).timers = [(1, 5), (2, 6)] ∧
    (handle_all [TpEvent.offer true true,
        TpEvent.method_reply false (GValue.uchar_array [47]) ⟨true, true, 0⟩,
        TpEvent.state_changed TP_FILE_TRANSFER_STATE_OPEN 0 ⟨true, true, 0⟩,
        TpEvent.state_changed 1 0 ⟨true, true, 0⟩,
        TpEvent.state_changed TP_FILE_TRANSFER_STATE_OPEN 0 ⟨true, true, 1⟩,
        TpEvent.stalled 1, TpEvent.stalled 2]
      tp_file_constructor).refreshes = 2 ∧
    (handle_all [TpEvent.offer true true,
        TpEvent.method_reply false (GValue.uchar_array [47]) ⟨true, true, 0⟩,
        TpEvent.state_changed TP_FILE_TRANSFER_STATE_OPEN 0 ⟨true, true, 0⟩,
        TpEvent.state_changed 1 0 ⟨true, true, 0⟩,
        TpEvent.state_changed TP_FILE_TRANSFER_STATE_OPEN 0 ⟨true, true, 1⟩,
        TpEvent.stalled 1, TpEvent.stalled 2]
      tp_file_constructor).timers = [] := by
  decide


/-- Claim C18, as stated, fails: when the size is the unknown-size value and
`transferred_bytes` equals it, `empathy_tp_file_get_remaining_time` returns `-1`. -/
theorem remaining_time_unknown_size_first :
    (tp_file_get_all_cb false EMPATHY_TP_FILE_UNKNOWN_SIZE 3 EMPATHY_TP_FILE_UNKNOWN_SIZE
      tp_file_constructor).transferred_bytes =
      (tp_file_get_all_cb false EMPATHY_TP_FILE_UNKNOWN_SIZE 3 EMPATHY_TP_FILE_UNKNOWN_SIZE
        tp_file_constructor).size ∧
    empathy_tp_file_get_remaining_time
      (tp_file_get_all_cb false EMPATHY_TP_FILE_UNKNOWN_SIZE 3 EMPATHY_TP_FILE_UNKNOWN_SIZE
        tp_file_constructor) = -1 := by
  decide

/-- Claim C18, amended: `empathy_tp_file_get_remaining_time` returns 0 whenever
`transferred_bytes` equals the size and the size is not the unknown-size value,
whatever estimate is stored in `remaining_time`. -/
theorem remaining_time_zero_when_complete (t : TpFile)
    (hknown : t.size ≠ EMPATHY_TP_FILE_UNKNOWN_SIZE) (h : t.transferred_bytes = t.size) :
    empathy_tp_file_get_remaining_time t = 0 := by
  simp [empathy_tp_file_get_remaining_time, hknown, h]

theorem remaining_time_zero_when_complete_witness :
    ((tp_file_get_all_cb false 1000 4 1000 tp_file_constructor).size ≠
        EMPATHY_TP_FILE_UNKNOWN_SIZE ∧
      (tp_file_get_all_cb false 1000 4 1000 tp_file_constructor).transferred_bytes =
        (tp_file_get_all_cb false 1000 4 1000 tp_file_constructor).size) ∧
    empathy_tp_file_get_remaining_time
      (tp_file_get_all_cb false 1000 4 1000 tp_file_constructor) = 0 :=
  ⟨by decide,
   remaining_time_zero_when_complete (tp_file_get_all_cb false 1000 4 1000 tp_file_constructor)
     (by decide) (by decide)⟩

/-- Claim C19: `empathy_tp_file_get_remaining_time` returns `-1` whenever the size is
the unknown-size value, and returns the stored `remaining_time` when the size is known
and `transferred_bytes` differs from it. -/
theorem remaining_time_query (t : TpFile) :
    (t.size = EMPATHY_TP_FILE_UNKNOWN_SIZE → empathy_tp_file_get_remaining_time t = -1) ∧
    (t.size ≠ EMPATHY_TP_FILE_UNKNOWN_SIZE → t.transferred_bytes ≠ t.size →
      empathy_tp_file_get_remaining_time t = t.remaining_time) := by
  constructor
  · intro h
    simp [empathy_tp_file_get_remaining_time, h]
  · intro h1 h2
    simp [empathy_tp_file_get_remaining_time, h1, h2]

theorem remaining_time_query_witness :
    empathy_tp_file_get_remaining_time
      (tp_file_set_property (Property.size EMPATHY_TP_FILE_UNKNOWN_SIZE)
        tp_file_constructor) = -1 ∧
    empathy_tp_file_get_remaining_time
      (tp_file_stalled_cb (tp_file_get_all_cb false 1000 3 400 tp_file_constructor)) =
      (tp_file_stalled_cb
        (tp_file_get_all_cb false 1000 3 400 tp_file_constructor)).remaining_time :=
  ⟨(remaining_time_query _).1 rfl,
   (remaining_time_query _).2 (by decide) (by decide)⟩

/-- Claim C20: `empathy_tp_file_get_speed` returns 0 when `transferred_bytes` equals the
size and the stored `speed` otherwise. -/
theorem speed_query (t : TpFile) :
    (t.transferred_bytes = t.size → empathy_tp_file_get_speed t = 0) ∧
    (t.transferred_bytes ≠ t.size → empathy_tp_file_get_speed t = t.speed) := by
  constructor
  · intro h
    simp [empathy_tp_file_get_speed, h]
  · intro h
    simp [empathy_tp_file_get_speed, h]

theorem speed_query_witness :
    empathy_tp_file_get_speed (tp_file_get_all_cb false 1000 4 1000 tp_file_constructor) = 0 ∧
    empathy_tp_file_get_speed (tp_file_get_all_cb false 1000 3 400 tp_file_constructor) =
      (tp_file_get_all_cb false 1000 3 400 tp_file_constructor).speed :=
  ⟨(speed_query _).1 (by decide), (speed_query _).2 (by decide)⟩


/-! ## Slot discipline and byte accounting of the stream copier -/

theorem exclusive_schedule_next (p : Pump) (h : Exclusive p) : Exclusive (schedule_next p) := by
  have hsn := single_schedule_next p h.single
  obtain ⟨⟨s1, s2, s3, s4⟩, h1, h2, h3, h4, h5, h6⟩ := h
  rcases p with ⟨⟨in_, out_, ⟨b0, b1⟩, ⟨c0, c1⟩, ⟨f0, f1⟩, cr, cw, rd, wr, nc, rc⟩,
    canc, src, snk, reads, writes, ic, oc, ics, ocs, rel, wrn⟩
  simp only at s1 s2 s3 s4 h1 h2 h3 h4 h5 h6
  have hr : rd = false → reads = 0 := by
    intro hrd
    subst hrd
    simp at s3
    omega
  have hw : wr = false → writes = 0 := by
    intro hwr
    subst hwr
    simp at s4
    omega
  refine ⟨hsn, ?_, ?_, ?_, ?_, ?_, ?_⟩ <;> unfold schedule_next <;> simp only <;>
    split_ifs <;> simp_all

theorem exclusive_unref (p : Pump) (h : Exclusive p) : Exclusive (copy_data_unref p) := by
  have hsn := single_unref p h.single
  obtain ⟨_, h1, h2, h3, h4, h5, h6⟩ := h
  refine ⟨hsn, ?_, ?_, ?_, ?_, ?_, ?_⟩ <;> unfold copy_data_unref <;> simp only <;>
    split_ifs <;> assumption

theorem exclusive_io_error (e : GError) (p : Pump) (h : Exclusive p) :
    Exclusive (io_error e p) := by
  unfold io_error
  apply exclusive_unref
  obtain ⟨hs, h1, h2, h3, h4, h5, h6⟩ := h
  refine ⟨?_, ?_, ?_, ?_, ?_, ?_, ?_⟩ <;> simp only <;> split_ifs <;> assumption

theorem exclusive_read_done_cb (n : Int) (e : GError) (p : Pump) (h0 : p.reads = 0)
    (hw1 : p.writes ≤ 1) (hw : p.writes = 1 → p.copy.is_writing = true)
    (h1 : p.copy.curr_read < N_BUFFERS) (h2 : p.copy.curr_write < N_BUFFERS)
    (h4 : p.writes = 1 → p.copy.is_full.get p.copy.curr_write = true)
    (hn : n.toNat ≤ (p.copy.buff.get p.copy.curr_read).length)
    (h5 : p.copy.count.s0 ≤ p.copy.buff.s0.length)
    (h6 : p.copy.count.s1 ≤ p.copy.buff.s1.length) :
    Exclusive (read_done_cb n e p) := by
  have hmod : (p.copy.curr_read + 1) % N_BUFFERS < N_BUFFERS := Nat.mod_lt _ (by decide)
  have hs : Single p := ⟨by omega, hw1, by omega, hw⟩
  have key : ∀ q : Pump, q.reads = 0 → q.writes = p.writes → q.copy.is_writing = p.copy.is_writing →
      q.copy.curr_read = p.copy.curr_read → q.copy.curr_write = p.copy.curr_write →
      q.copy.is_full = p.copy.is_full → q.copy.buff = p.copy.buff →
      q.copy.count = p.copy.count →
      Exclusive (schedule_next { q with copy := { q.copy with
        count := q.copy.count.set q.copy.curr_read n.toNat,
        is_full := q.copy.is_full.set q.copy.curr_read true,
        curr_read := (q.copy.curr_read + 1) % N_BUFFERS,
        is_reading := false } }) := by
    intro q q0 q1 q2 q3 q4 q5 q6 q7
    apply exclusive_schedule_next
    refine ⟨⟨?_, ?_, ?_, ?_⟩, ?_, ?_, ?_, ?_, ?_, ?_⟩ <;> simp only [q0, q1, q2, q3, q4, q5, q6, q7]
    · omega
    · exact hw1
    · omega
    · exact hw
    · exact hmod
    · exact h2
    · omega
    · intro h
      have := h4 h
      unfold Slots.get Slots.set at *
      split_ifs <;> simp_all
    · unfold Slots.get Slots.set at *
      split_ifs <;> simp_all
    · unfold Slots.get Slots.set at *
      split_ifs <;> simp_all
  unfold read_done_cb
  simp only
  split_ifs
  · exact key { p with copy := { p.copy with in_ := false },
                       in_closes := p.in_closes + 1, in_closing := p.in_closing + 1 }
      h0 rfl rfl rfl rfl rfl rfl rfl
  · exact exclusive_io_error e p ⟨hs, h1, h2, by omega, h4, h5, h6⟩
  · exact key p h0 rfl rfl rfl rfl rfl rfl rfl

theorem exclusive_write_done_cb (n : Int) (e : GError) (p : Pump) (h0 : p.writes = 0)
    (hr1 : p.reads ≤ 1) (hr : p.reads = 1 → p.copy.is_reading = true)
    (h1 : p.copy.curr_read < N_BUFFERS) (h2 : p.copy.curr_write < N_BUFFERS)
    (h3 : p.reads = 1 → p.copy.is_full.get p.copy.curr_read = false)
    (h5 : p.copy.count.s0 ≤ p.copy.buff.s0.length)
    (h6 : p.copy.count.s1 ≤ p.copy.buff.s1.length) :
    Exclusive (write_done_cb n e p) := by
  have hmod : (p.copy.curr_write + 1) % N_BUFFERS < N_BUFFERS := Nat.mod_lt _ (by decide)
  have hs : Single p := ⟨hr1, by omega, hr, by omega⟩
  unfold write_done_cb
  split_ifs
  · exact exclusive_io_error e p ⟨hs, h1, h2, h3, by omega, h5, h6⟩
  · apply exclusive_schedule_next
    refine ⟨⟨?_, ?_, ?_, ?_⟩, ?_, ?_, ?_, ?_, ?_, ?_⟩ <;> simp only
    · exact hr1
    · omega
    · exact hr
    · omega
    · exact h1
    · exact hmod
    · intro h
      have := h3 h
      unfold Slots.get Slots.set at *
      split_ifs <;> simp_all
    · omega
    · exact h5
    · exact h6

theorem exclusive_step (e : Event) (p q : Pump) (h : Exclusive p) (hs : step e p = some q) :
    Exclusive q := by
  obtain ⟨⟨s1, s2, s3, s4⟩, h1, h2, h3, h4, h5, h6⟩ := h
  cases e <;> simp only [step] at hs
  · split at hs
    · simp at hs
    · split at hs
      · simp at hs
        subst hs
        apply exclusive_read_done_cb <;> simp only <;> first
          | omega
          | assumption
      · simp at hs
        subst hs
        apply exclusive_read_done_cb <;> simp only <;> first
          | omega
          | assumption
          | skip
        all_goals
          unfold Slots.get Slots.set at *
          split_ifs <;> simp_all <;> omega
  · split at hs
    · simp at hs
    · simp at hs
      subst hs
      apply exclusive_read_done_cb <;> simp only <;> first
        | omega
        | assumption
  · split at hs
    · simp at hs
    · simp at hs
      subst hs
      apply exclusive_write_done_cb <;> simp only <;> first
        | omega
        | assumption
  · split at hs
    · simp at hs
    · split at hs
      · simp at hs
      · simp at hs
        subst hs
        apply exclusive_write_done_cb <;> simp only <;> first
          | omega
          | assumption
  · split at hs
    · simp at hs
    · simp at hs
      subst hs
      apply exclusive_unref
      exact ⟨⟨s1, s2, s3, s4⟩, h1, h2, h3, h4, h5, h6⟩
  · split at hs
    · simp at hs
    · simp at hs
      subst hs
      apply exclusive_unref
      exact ⟨⟨s1, s2, s3, s4⟩, h1, h2, h3, h4, h5, h6⟩

theorem exclusive_copy_stream (chunks : List (List Nat)) : Exclusive (copy_stream chunks) := by
  refine ⟨single_copy_stream chunks, ?_, ?_, ?_, ?_, ?_, ?_⟩ <;>
    simp [copy_stream, schedule_next, Slots.get, N_BUFFERS]

theorem exclusive_run (chunks : List (List Nat)) (es : List Event) (q : Pump)
    (h : run es (copy_stream chunks) = some q) : Exclusive q :=
  run_invariant Exclusive (fun _ => True) (fun e p q _ hp hs => exclusive_step e p q hp hs)
    es (copy_stream chunks) q (fun _ _ => trivial) (exclusive_copy_stream chunks) h

theorem held_schedule_next (p : Pump) : (schedule_next p).held = p.held := by
  unfold schedule_next Pump.held
  simp only
  split_ifs <;> rfl

theorem held_unref (p : Pump) : (copy_data_unref p).held = p.held := by
  unfold copy_data_unref Pump.held
  simp only
  split_ifs <;> rfl

theorem held_io_error (e : GError) (p : Pump) : (io_error e p).held = p.held := by
  unfold io_error
  rw [held_unref]
  unfold Pump.held
  simp only
  split_ifs <;> rfl

theorem held_read_done_cb (n : Int) (e : GError) (p : Pump)
    (h3 : p.copy.is_full.get p.copy.curr_read = false) :
    (read_done_cb n e p).held = p.held + n.toNat := by
  unfold read_done_cb
  simp only
  split_ifs with c1 c2
  · rw [held_schedule_next]
    subst c1
    unfold Pump.held Slots.get Slots.set at *
    split_ifs at * <;> simp_all
  · rw [held_io_error]
    have : n.toNat = 0 := by omega
    omega
  · rw [held_schedule_next]
    unfold Pump.held Slots.get Slots.set N_BUFFERS at *
    split_ifs at * <;> simp_all <;> omega

theorem held_write_done_cb (n : Int) (e : GError) (p : Pump)
    (h4 : p.copy.is_full.get p.copy.curr_write = true) :
    (write_done_cb n e p).held + (if 0 < n then p.copy.count.get p.copy.curr_write else 0) =
      p.held := by
  unfold write_done_cb
  split_ifs with c1 c2 c3
  · omega
  · rw [held_io_error]
    rfl
  · rw [held_schedule_next]
    unfold Pump.held Slots.get Slots.set N_BUFFERS at *
    split_ifs at * <;> simp_all <;> omega
  · omega

theorem sink_after_length (n : Int) (p : Pump) (h : Exclusive p)
    (hn : n ≤ (p.copy.count.get p.copy.curr_write : Int)) :
    (sink_after n p).length = p.sink.length + n.toNat := by
  have h5 := h.count0
  have h6 := h.count1
  unfold sink_after
  simp only [List.length_append, List.length_take]
  unfold Slots.get at *
  split_ifs at * <;> omega

theorem held_step_write (n : Int) (e : GError) (p q : Pump) (h : Exclusive p)
    (hs : step (Event.write_done n e) p = some q) :
    q.held + (if 0 < n then p.copy.count.get p.copy.curr_write - n.toNat else 0) = p.held := by
  obtain ⟨s1, s2, s3, s4⟩ := h.single
  have h4 := h.writing_full
  simp only [step] at hs
  split at hs
  · simp at hs
  · split at hs
    · simp at hs
    · rename_i hw hn
      simp at hs
      subst hs
      have hlen := sink_after_length n p h (by omega)
      have key := held_write_done_cb n e
        { p with writes := p.writes - 1, sink := sink_after n p } (h4 (by omega))
      simp only at key
      have e1 : Pump.held { p with writes := p.writes - 1, sink := sink_after n p } =
          p.held + n.toNat := by
        unfold Pump.held
        simp only [hlen]
        omega
      rw [e1] at key
      split_ifs at * <;> omega

theorem held_step (e : Event) (p q : Pump) (h : Exclusive p) (hs : step e p = some q) :
    q.held ≤ p.held := by
  obtain ⟨s1, s2, s3, s4⟩ := h.single
  have h3 := h.reading_empty
  have h4 := h.writing_full
  cases e
  · simp only [step] at hs
    split at hs
    · simp at hs
    · split at hs
      · simp at hs
        subst hs
        rw [held_read_done_cb]
        · simp [Pump.held]
        · exact h3 (by omega)
      · rename_i c rest hsrc
        simp at hs
        subst hs
        rw [held_read_done_cb]
        · simp [Pump.held, hsrc]
          omega
        · exact h3 (by omega)
  · simp only [step] at hs
    split at hs
    · simp at hs
    · simp at hs
      subst hs
      rw [held_read_done_cb]
      · simp [Pump.held]
      · exact h3 (by omega)
  · have := held_step_write (p.copy.count.get p.copy.curr_write) GError.none p q h
      (by
        simp only [step] at hs ⊢
        split at hs
        · simp at hs
        · rename_i hw
          simp [hw]
          simpa using hs)
    omega
  · have := held_step_write _ _ p q h hs
    omega
  · simp only [step] at hs
    split at hs
    · simp at hs
    · simp at hs
      subst hs
      unfold close_done
      rw [held_unref]
      rfl
  · simp only [step] at hs
    split at hs
    · simp at hs
    · simp at hs
      subst hs
      unfold close_done
      rw [held_unref]
      rfl

theorem held_run (es : List Event) (p q : Pump) (h : Exclusive p)
    (hr : run es p = some q) : q.held ≤ p.held := by
  induction es generalizing p with
  | nil =>
    simp [run] at hr
    subst hr
    exact le_refl _
  | cons e es ih =>
    simp only [run] at hr
    cases hs : step e p with
    | none => simp [hs] at hr
    | some p1 =>
      rw [hs] at hr
      exact le_trans (ih p1 (exclusive_step e p p1 h hs) hr) (held_step e p p1 h hs)

theorem held_copy_stream (chunks : List (List Nat)) :
    (copy_stream chunks).held = chunks.flatten.length := by
  unfold copy_stream
  rw [held_schedule_next]
  simp [Pump.held]

theorem sink_le_held (p : Pump) : p.sink.length + p.source.flatten.length ≤ p.held := by
  unfold Pump.held
  omega

theorem schedule_next_keeps (p : Pump) :
    (schedule_next p).copy.is_full = p.copy.is_full ∧
    (schedule_next p).copy.curr_write = p.copy.curr_write ∧
    (schedule_next p).copy.curr_read = p.copy.curr_read ∧
    (schedule_next p).sink = p.sink := by
  unfold schedule_next
  simp only
  split_ifs <;> simp

theorem step_write_done (n : Int) (e : GError) (p p1 : Pump) (hpos : 0 < n)
    (hs : step (Event.write_done n e) p = some p1) :
    p1.copy.is_full = p.copy.is_full.set p.copy.curr_write false ∧
    p1.copy.curr_write = (p.copy.curr_write + 1) % N_BUFFERS ∧
    p1.sink = sink_after n p := by
  simp only [step] at hs
  split at hs
  · simp at hs
  · split at hs
    · simp at hs
    · simp at hs
      subst hs
      unfold write_done_cb
      rw [if_neg (by omega)]
      obtain ⟨k1, k2, _, k4⟩ := schedule_next_keeps
        { p with writes := p.writes - 1, sink := sink_after n p,
                 copy := { p.copy with
                   is_full := p.copy.is_full.set p.copy.curr_write false,
                   curr_write := (p.copy.curr_write + 1) % N_BUFFERS,
                   is_writing := false } }
      exact ⟨k1, k2, k4⟩

theorem unref_keeps (p : Pump) :
    (copy_data_unref p).cancelled = p.cancelled ∧
    (copy_data_unref p).in_closes = p.in_closes ∧
    (copy_data_unref p).out_closes = p.out_closes ∧
    (copy_data_unref p).copy.ref_count = p.copy.ref_count - 1 ∧
    (copy_data_unref p).reads = p.reads ∧ (copy_data_unref p).writes = p.writes ∧
    (copy_data_unref p).warnings = p.warnings := by
  unfold copy_data_unref
  simp only
  split_ifs <;> simp

/-! ## Byte counts that never decrease -/

theorem bytes_changed_size (count : Nat) (now undef : Int) (t : TpFile) :
    (tp_file_transferred_bytes_changed_cb count now undef t).size = t.size := by
  unfold tp_file_transferred_bytes_changed_cb
  simp only [g_timeout_add_seconds, g_source_remove]
  split_ifs <;> rfl

theorem start_transfer_bytes (env : StartEnv) (t : TpFile) :
    (tp_file_start_transfer env t).transferred_bytes = t.transferred_bytes ∧
    ((tp_file_start_transfer env t).last_update_transferred_bytes =
        t.last_update_transferred_bytes ∨
      (tp_file_start_transfer env t).last_update_transferred_bytes = t.transferred_bytes) := by
  unfold tp_file_start_transfer
  simp only [g_timeout_add_seconds, empathy_tp_file_cancel]
  split_ifs <;> simp

theorem bytes_step (e : TpEvent) (t : TpFile)
    (h : t.last_update_transferred_bytes ≤ t.transferred_bytes)
    (hc : ∀ c, e.count = some c → t.transferred_bytes ≤ c) :
    (handle e t).transferred_bytes = e.count.getD t.transferred_bytes ∧
    (handle e t).last_update_transferred_bytes ≤ (handle e t).transferred_bytes := by
  cases e with
  | invalidated =>
    simp only [handle, tp_file_invalidated_cb, TpEvent.count]
    split_ifs <;> simp_all
  | state_changed s r env =>
    obtain ⟨a, b⟩ := start_transfer_bytes env t
    simp only [handle, tp_file_state_changed_cb, TpEvent.count]
    split_ifs <;> simp_all
    omega
  | transferred_bytes_changed count now undef =>
    have := hc count rfl
    simp only [handle, tp_file_transferred_bytes_changed_cb, g_timeout_add_seconds,
      g_source_remove, TpEvent.count]
    split_ifs <;> simp_all <;> omega
  | got_contact error =>
    simp only [handle, tp_file_got_contact_cb, empathy_tp_file_cancel,
      tp_file_check_if_ready, TpEvent.count]
    split_ifs <;> simp_all
  | get_all error size state tb =>
    cases error
    · have := hc tb rfl
      simp only [handle, tp_file_get_all_cb, tp_file_check_if_ready, TpEvent.count]
      split_ifs <;> simp_all <;> omega
    · simp only [handle, tp_file_get_all_cb, tp_file_check_if_ready, TpEvent.count]
      split_ifs <;> simp_all
  | get_requested error requested =>
    simp only [handle, tp_file_get_requested_cb, tp_file_check_if_ready, TpEvent.count]
    split_ifs <;> simp_all
  | method_reply error address env =>
    simp only [handle, tp_file_method_cb, TpEvent.count]
    cases error
    · cases address with
      | uchar_array a =>
        obtain ⟨a1, b1⟩ := start_transfer_bytes env { t with socket_address := some a }
        simp only
        split_ifs <;> simp_all
        omega
      | string a =>
        obtain ⟨a1, b1⟩ := start_transfer_bytes env { t with socket_address := some a }
        simp only
        split_ifs <;> simp_all
        omega
      | other => simp [empathy_tp_file_cancel, h]
    · simp [empathy_tp_file_cancel, h]
  | accept file_ok error_out =>
    simp only [handle, empathy_tp_file_accept, TpEvent.count]
    split_ifs <;> simp_all
  | offer file_ok error_out => simp [handle, empathy_tp_file_offer, TpEvent.count, h]
  | cancel => simp [handle, empathy_tp_file_cancel, TpEvent.count, h]
  | stalled id =>
    simp only [handle, tp_file_stalled_cb, g_source_remove, TpEvent.count]
    split_ifs <;> simp_all
  | set_property prop =>
    cases prop <;> simp [handle, tp_file_set_property, TpEvent.count, h]

theorem monotone_counts_run (es rest : List TpEvent) (t : TpFile)
    (h1 : t.last_update_transferred_bytes ≤ t.transferred_bytes)
    (h2 : t.transferred_bytes ≤ G_MAXUINT64)
    (hm : monotone_counts t.transferred_bytes (es ++ rest) = true) :
    (handle_all es t).last_update_transferred_bytes ≤ (handle_all es t).transferred_bytes ∧
    (handle_all es t).transferred_bytes ≤ G_MAXUINT64 ∧
    monotone_counts (handle_all es t).transferred_bytes rest = true := by
  induction es generalizing t with
  | nil => exact ⟨h1, h2, hm⟩
  | cons e es ih =>
    simp only [handle_all]
    simp only [List.cons_append, monotone_counts] at hm
    cases hcount : e.count with
    | none =>
      rw [hcount] at hm
      obtain ⟨a, b⟩ := bytes_step e t h1 (by simp [hcount])
      rw [hcount] at a
      simp only [Option.getD_none] at a
      apply ih _ b
      · rw [a]
        exact h2
      · rw [a]
        exact hm
    | some c =>
      rw [hcount] at hm
      simp only [Bool.and_eq_true, decide_eq_true_eq] at hm
      obtain ⟨⟨m1, m2⟩, m3⟩ := hm
      obtain ⟨a, b⟩ := bytes_step e t h1 (by
        intro c1 hc1
        rw [hcount] at hc1
        cases hc1
        exact m1)
      rw [hcount] at a
      simp only [Option.getD_some] at a
      apply ih _ b
      · rw [a]
        exact m2
      · rw [a]
        exact m3

theorem bytes_changed_speed (t : TpFile) (count : Nat) (now undef : Int)
    (hnew : t.transferred_bytes ≠ count) (hel : 1 ≤ now - t.last_update_time)
    (hlast : t.last_update_transferred_bytes ≤ count) (hfit : count ≤ G_MAXUINT64) :
    (tp_file_transferred_bytes_changed_cb count now undef t).speed =
      gdouble (gdouble ((count - t.last_update_transferred_bytes : Nat) : ℚ) /
        gdouble ((now - t.last_update_time : Int) : ℚ)) := by
  have w1 : (count + (G_MAXUINT64 + 1) - t.last_update_transferred_bytes % (G_MAXUINT64 + 1))
      % (G_MAXUINT64 + 1) = count - t.last_update_transferred_bytes := by
    unfold G_MAXUINT64 at *
    omega
  have h2 : now - t.last_update_time ≥ 1 := hel
  unfold tp_file_transferred_bytes_changed_cb
  simp only [g_timeout_add_seconds, g_source_remove]
  by_cases h3 : t.stalled_id = 0 <;> simp [hnew, h2, h3, w1]

/-! ## Properties of the table of transfers -/

theorem lookup_remove (table : List (Nat × Nat)) (key : Nat) :
    g_hash_table_lookup (g_hash_table_remove table key) key = none := by
  unfold g_hash_table_lookup g_hash_table_remove empathy_proxy_equal
  rw [Option.map_eq_none', List.find?_eq_none]
  intro kv hkv
  simp only [List.mem_filter] at hkv
  simpa using hkv.2

theorem lookup_insert (table : List (Nat × Nat)) (key value : Nat) :
    g_hash_table_lookup (g_hash_table_insert table key value) key = some value := by
  have h := lookup_remove table key
  unfold g_hash_table_lookup at h ⊢
  unfold g_hash_table_insert
  rw [Option.map_eq_none'] at h
  rw [List.find?_append, h]
  simp [empathy_proxy_equal]

theorem remove_absent (table : List (Nat × Nat)) (key : Nat)
    (h : g_hash_table_lookup table key = none) : g_hash_table_remove table key = table := by
  unfold g_hash_table_lookup empathy_proxy_equal at h
  unfold g_hash_table_remove empathy_proxy_equal
  rw [Option.map_eq_none', List.find?_eq_none] at h
  rw [List.filter_eq_self]
  intro kv hkv
  simpa using h kv hkv

theorem keys_remove_nodup (table : List (Nat × Nat)) (key : Nat)
    (h : (table.map (fun kv => kv.1)).Nodup) :
    ((g_hash_table_remove table key).map (fun kv => kv.1)).Nodup := by
  unfold g_hash_table_remove
  exact List.Nodup.sublist (List.Sublist.map _ (List.filter_sublist _)) h

theorem keys_insert_nodup (table : List (Nat × Nat)) (key value : Nat)
    (h : (table.map (fun kv => kv.1)).Nodup) :
    ((g_hash_table_insert table key value).map (fun kv => kv.1)).Nodup := by
  have h1 := keys_remove_nodup table key h
  unfold g_hash_table_insert
  rw [List.map_append, List.nodup_append]
  refine ⟨h1, by simp, ?_⟩
  intro a ha hb
  simp only [List.map_cons, List.map_nil, List.mem_singleton] at hb
  subst hb
  simp only [g_hash_table_remove, empathy_proxy_equal, List.mem_map, List.mem_filter] at ha
  obtain ⟨kv, ⟨_, hne⟩, heq⟩ := ha
  simp [heq] at hne

theorem objects_find_last (objs : List FileObject) (o : FileObject)
    (h : ∀ x ∈ objs, x.id < o.id) :
    (objs ++ [o]).find? (fun x => x.id == o.id) = some o := by
  have hn : objs.find? (fun x => x.id == o.id) = none := by
    rw [List.find?_eq_none]
    intro x hx
    have := h x hx
    simp
    omega
  rw [List.find?_append, hn]
  simp

theorem objects_map_fresh (objs : List FileObject) (a : Nat) (g : FileObject → FileObject)
    (h : ∀ x ∈ objs, x.id < a) :
    objs.map (fun x => if x.id = a then g x else x) = objs := by
  have : ∀ x ∈ objs, (fun x => if x.id = a then g x else x) x = id x := by
    intro x hx
    have := h x hx
    simp only [id]
    rw [if_neg (by omega)]
  rw [List.map_congr_left this, List.map_id]

theorem objects_filter_last (objs : List FileObject) (o : FileObject)
    (h : ∀ x ∈ objs, x.id < o.id) :
    (objs ++ [o]).filter (fun x => x.id != o.id) = objs := by
  rw [List.filter_append]
  have h1 : objs.filter (fun x => x.id != o.id) = objs := by
    rw [List.filter_eq_self]
    intro x hx
    have := h x hx
    simp
    omega
  rw [h1]
  simp

theorem fresh_new (channel : Nat) (r : Registry)
    (h : ∀ o ∈ r.objects, o.id < r.next_object) :
    ∀ o ∈ (empathy_tp_file_new channel r).1.objects,
      o.id < (empathy_tp_file_new channel r).1.next_object := by
  unfold empathy_tp_file_new
  split
  · simp only [g_object_ref, List.mem_map]
    rintro o ⟨x, hx, rfl⟩
    have := h x hx
    split_ifs <;> simpa using this
  · simp only [List.mem_append, List.mem_singleton]
    rintro o (ho | rfl)
    · have := h o ho
      omega
    · simp

theorem fresh_unref (obj : Nat) (r : Registry)
    (h : ∀ o ∈ r.objects, o.id < r.next_object) :
    ∀ o ∈ (g_object_unref obj r).objects, o.id < (g_object_unref obj r).next_object := by
  unfold g_object_unref
  split
  · exact h
  · split_ifs
    · simp only [tp_file_weak_notify_cb, List.mem_filter]
      rintro o ⟨ho, _⟩
      exact h o ho
    · simp only [List.mem_map]
      rintro o ⟨x, hx, rfl⟩
      have := h x hx
      split_ifs <;> simpa using this

theorem fresh_run (ops : List RegistryOp) (r : Registry)
    (h : ∀ o ∈ r.objects, o.id < r.next_object) :
    ∀ o ∈ (registry_run ops r).objects, o.id < (registry_run ops r).next_object := by
  induction ops generalizing r with
  | nil => exact h
  | cons op ops ih =>
    cases op with
    | new channel => exact ih _ (fresh_new channel r h)
    | unref obj => exact ih _ (fresh_unref obj r h)

theorem keys_new (channel : Nat) (r : Registry) (h : r.keys.Nodup) :
    (empathy_tp_file_new channel r).1.keys.Nodup := by
  unfold empathy_tp_file_new
  split
  · exact h
  · exact keys_insert_nodup _ channel _ h

theorem keys_unref (obj : Nat) (r : Registry) (h : r.keys.Nodup) :
    (g_object_unref obj r).keys.Nodup := by
  unfold g_object_unref
  split
  · exact h
  · split_ifs
    · unfold Registry.keys tp_file_weak_notify_cb at *
      cases ht : r.ft_table with
      | none => simp
      | some table =>
        rw [ht] at h
        exact keys_remove_nodup table _ h
    · exact h

theorem keys_run (ops : List RegistryOp) (r : Registry) (h : r.keys.Nodup) :
    (registry_run ops r).keys.Nodup := by
  induction ops generalizing r with
  | nil => exact h
  | cons op ops ih =>
    cases op with
    | new channel => exact ih _ (keys_new channel r h)
    | unref obj => exact ih _ (keys_unref obj r h)

theorem new_again (channel : Nat) (r : Registry) :
    (empathy_tp_file_new channel (empathy_tp_file_new channel r).1).2 =
      (empathy_tp_file_new channel r).2 ∧
    (empathy_tp_file_new channel (empathy_tp_file_new channel r).1).1.created =
      (empathy_tp_file_new channel r).1.created ∧
    (empathy_tp_file_new channel (empathy_tp_file_new channel r).1).1.ft_table =
      (empathy_tp_file_new channel r).1.ft_table := by
  cases h : r.ft_table.bind (fun table => g_hash_table_lookup table channel) with
  | some obj =>
    have e1 : empathy_tp_file_new channel r = (g_object_ref obj r, obj) := by
      unfold empathy_tp_file_new
      rw [h]
    have e2 : empathy_tp_file_new channel (g_object_ref obj r) =
        (g_object_ref obj (g_object_ref obj r), obj) := by
      unfold empathy_tp_file_new
      have : (g_object_ref obj r).ft_table = r.ft_table := rfl
      rw [this, h]
    rw [e1]
    simp only
    rw [e2]
    exact ⟨rfl, rfl, rfl⟩
  | none =>
    have e1 : empathy_tp_file_new channel r =
        ({ ft_table := some (g_hash_table_insert (r.ft_table.getD []) channel r.next_object),
           objects := r.objects ++
             [{ id := r.next_object, channel := channel, ref_count := 1 }],
           next_object := r.next_object + 1,
           created := r.created + 1 }, r.next_object) := by
      unfold empathy_tp_file_new
      rw [h]
    rw [e1]
    simp only
    unfold empathy_tp_file_new
    simp only [Option.some_bind, lookup_insert]
    simp [g_object_ref]

theorem release_both (channel : Nat) (r : Registry)
    (hfresh : ∀ o ∈ r.objects, o.id < r.next_object)
    (habsent : r.ft_table.bind (fun table => g_hash_table_lookup table channel) = none) :
    (empathy_tp_file_new channel r).2 = r.next_object ∧
    (empathy_tp_file_new channel r).1.created = r.created + 1 ∧
    (empathy_tp_file_new channel (empathy_tp_file_new channel r).1).1.keys =
      r.keys ++ [channel] ∧
    (g_object_unref r.next_object
      (empathy_tp_file_new channel (empathy_tp_file_new channel r).1).1).keys =
      r.keys ++ [channel] ∧
    (g_object_unref r.next_object (g_object_unref r.next_object
      (empathy_tp_file_new channel (empathy_tp_file_new channel r).1).1)).keys = r.keys ∧
    (g_object_unref r.next_object (g_object_unref r.next_object
      (empathy_tp_file_new channel (empathy_tp_file_new channel r).1).1)).objects =
      r.objects := by
  have habs : g_hash_table_lookup (r.ft_table.getD []) channel = none := by
    cases ht : r.ft_table with
    | none => rfl
    | some table =>
      rw [ht] at habsent
      exact habsent
  have hrem := remove_absent _ _ habs
  have e1 : empathy_tp_file_new channel r =
      ({ ft_table := some (g_hash_table_insert (r.ft_table.getD []) channel r.next_object),
         objects := r.objects ++
           [{ id := r.next_object, channel := channel, ref_count := 1 }],
         next_object := r.next_object + 1,
         created := r.created + 1 }, r.next_object) := by
    unfold empathy_tp_file_new
    rw [habsent]
  have e2 : (empathy_tp_file_new channel (empathy_tp_file_new channel r).1).1 =
      { ft_table := some (g_hash_table_insert (r.ft_table.getD []) channel r.next_object),
        objects := r.objects ++
          [{ id := r.next_object, channel := channel, ref_count := 2 }],
        next_object := r.next_object + 1,
        created := r.created + 1 } := by
    rw [e1]
    simp only
    unfold empathy_tp_file_new
    simp only [Option.some_bind, lookup_insert, g_object_ref, List.map_append,
      objects_map_fresh _ _ _ hfresh]
    simp
  have e3 : g_object_unref r.next_object
      { ft_table := some (g_hash_table_insert (r.ft_table.getD []) channel r.next_object),
        objects := r.objects ++
          [{ id := r.next_object, channel := channel, ref_count := 2 }],
        next_object := r.next_object + 1,
        created := r.created + 1 } =
      { ft_table := some (g_hash_table_insert (r.ft_table.getD []) channel r.next_object),
        objects := r.objects ++
          [{ id := r.next_object, channel := channel, ref_count := 1 }],
        next_object := r.next_object + 1,
        created := r.created + 1 } := by
    unfold g_object_unref
    simp only
    rw [objects_find_last r.objects ⟨r.next_object, channel, 2⟩ hfresh]
    simp only [List.map_append, objects_map_fresh _ _ _ hfresh]
    simp
  have e4 : g_object_unref r.next_object
      { ft_table := some (g_hash_table_insert (r.ft_table.getD []) channel r.next_object),
        objects := r.objects ++
          [{ id := r.next_object, channel := channel, ref_count := 1 }],
        next_object := r.next_object + 1,
        created := r.created + 1 } =
      { ft_table := some (r.ft_table.getD []),
        objects := r.objects,
        next_object := r.next_object + 1,
        created := r.created + 1 } := by
    unfold g_object_unref
    simp only
    rw [objects_find_last r.objects ⟨r.next_object, channel, 1⟩ hfresh]
    simp only [le_refl, if_true, tp_file_weak_notify_cb, Option.map_some',
      objects_filter_last r.objects ⟨r.next_object, channel, 1⟩ hfresh]
    have : g_hash_table_remove
        (g_hash_table_insert (r.ft_table.getD []) channel r.next_object) channel =
        r.ft_table.getD [] := by
      unfold g_hash_table_insert
      rw [hrem]
      unfold g_hash_table_remove at hrem ⊢
      rw [List.filter_append, hrem]
      simp [empathy_proxy_equal]
    rw [this]
  have hk : Registry.keys
      { ft_table := some (g_hash_table_insert (r.ft_table.getD []) channel r.next_object),
        objects := r.objects ++
          [{ id := r.next_object, channel := channel, ref_count := 1 }],
        next_object := r.next_object + 1,
        created := r.created + 1 } = r.keys ++ [channel] := by
    unfold Registry.keys g_hash_table_insert
    rw [hrem]
    simp
  refine ⟨?_, ?_, ?_, ?_, ?_, ?_⟩
  · rw [e1]
  · rw [e1]
  · rw [e2]
    unfold Registry.keys g_hash_table_insert
    rw [hrem]
    simp
  · rw [e2, e3]
    exact hk
  · rw [e2, e3, e4]
    rfl
  · rw [e2, e3, e4]

theorem weak_notify_absent (channel : Nat) (r : Registry)
    (h : r.ft_table.bind (fun table => g_hash_table_lookup table channel) = none) :
    tp_file_weak_notify_cb channel r = r := by
  rcases r with ⟨ft_table, objects, next_object, created⟩
  cases ft_table with
  | none => rfl
  | some table =>
    have h1 : g_hash_table_lookup table channel = none := h
    simp only [tp_file_weak_notify_cb, Option.map_some', remove_absent table channel h1]

/-! ## The example scenario, the table, errors and timers -/

/-- Claim C21: the example scenario. For a transfer of size 1000 whose rate snapshot is
0 bytes at time 0, the updates 0 at time 0, 400 at time 1 and 1000 at time 2 give: after
the update at time 1 the speed is 400 and the remaining time 1, in the fields and in
the two queries; after the update at time 2 `empathy_tp_file_get_speed` and
`empathy_tp_file_get_remaining_time` both return 0. -/
theorem example_scenario (t : TpFile) (u0 u1 u2 : Int)
    (hsize : t.size = 1000) (hbytes : t.transferred_bytes = 0)
    (hlast : t.last_update_transferred_bytes = 0) (htime : t.last_update_time = 0) :
    (push_all [(0, 0, u0), (400, 1, u1)] t).speed = 400 ∧
    (push_all [(0, 0, u0), (400, 1, u1)] t).remaining_time = 1 ∧
    empathy_tp_file_get_speed (push_all [(0, 0, u0), (400, 1, u1)] t) = 400 ∧
    empathy_tp_file_get_remaining_time (push_all [(0, 0, u0), (400, 1, u1)] t) = 1 ∧
    empathy_tp_file_get_speed (push_all [(0, 0, u0), (400, 1, u1), (1000, 2, u2)] t) = 0 ∧
    empathy_tp_file_get_remaining_time
      (push_all [(0, 0, u0), (400, 1, u1), (1000, 2, u2)] t) = 0 := by
  have e0 : tp_file_transferred_bytes_changed_cb 0 0 u0 t = t := by
    unfold tp_file_transferred_bytes_changed_cb
    rw [if_pos hbytes]
  obtain ⟨h1, h2, _, _, h5, _⟩ := bytes_changed_recompute t 400 1 u1
    (by omega) (by omega) (by rw [hsize]; decide) (by omega) (by omega)
  have hs1 := bytes_changed_size 400 1 u1 t
  have hs2 := bytes_changed_size 1000 2 u2 (tp_file_transferred_bytes_changed_cb 400 1 u1 t)
  have hb2 := bytes_changed_count 1000 2 u2 (tp_file_transferred_bytes_changed_cb 400 1 u1 t)
  obtain ⟨r1, r2⟩ := recompute_400
  rw [hlast, htime, r1] at h1
  rw [hlast, htime, hsize, r1, double_to_gint_floor _ _ _ (by norm_num), r2,
    if_pos (by decide)] at h2
  simp only [push_all, e0]
  refine ⟨h1, h2, ?_, ?_, ?_, ?_⟩
  · unfold empathy_tp_file_get_speed
    rw [h5, hs1, hsize, if_neg (by decide), h1]
  · unfold empathy_tp_file_get_remaining_time
    rw [h5, hs1, hsize, if_neg (by decide), if_neg (by decide), h2]
  · unfold empathy_tp_file_get_speed
    rw [hb2, hs2, hs1, hsize, if_pos rfl]
  · unfold empathy_tp_file_get_remaining_time
    rw [hb2, hs2, hs1, hsize, if_neg (by decide), if_pos rfl]

theorem example_scenario_witness :
    started_transfer.pumps = 1 ∧
    (push_all [(0, 0, 0), (400, 1, 0)] started_transfer).speed = 400 ∧
    (push_all [(0, 0, 0), (400, 1, 0)] started_transfer).remaining_time = 1 ∧
    empathy_tp_file_get_speed (push_all [(0, 0, 0), (400, 1, 0)] started_transfer) = 400 ∧
    empathy_tp_file_get_remaining_time
      (push_all [(0, 0, 0), (400, 1, 0)] started_transfer) = 1 ∧
    empathy_tp_file_get_speed
      (push_all [(0, 0, 0), (400, 1, 0), (1000, 2, 0)] started_transfer) = 0 ∧
    empathy_tp_file_get_remaining_time
      (push_all [(0, 0, 0), (400, 1, 0), (1000, 2, 0)] started_transfer) = 0 :=
  ⟨by decide, example_scenario started_transfer 0 0 0 (by decide) (by decide) (by decide)
    (by decide)⟩

/-- Claim C22: in every state of the table reached by calls of `empathy_tp_file_new` and
`g_object_unref`, two calls of `empathy_tp_file_new` with the same channel identity
return the same object and the second call creates nothing; no identity has two entries;
when the identity had no entry the first call creates one object, the table gains the
entry of that identity, the release of the first handle leaves the entry, the release of
the second handle takes exactly that entry out again, and `tp_file_weak_notify_cb` for
an identity without entry changes nothing. -/
theorem registry_dedup (ops : List RegistryOp) (channel : Nat) (r : Registry)
    (hr : registry_run ops registry_zero = r) :
    (empathy_tp_file_new channel (empathy_tp_file_new channel r).1).2 =
      (empathy_tp_file_new channel r).2 ∧
    (empathy_tp_file_new channel (empathy_tp_file_new channel r).1).1.created =
      (empathy_tp_file_new channel r).1.created ∧
    r.keys.Nodup ∧
    (r.ft_table.bind (fun table => g_hash_table_lookup table channel) = none →
      (empathy_tp_file_new channel r).1.created = r.created + 1 ∧
      (empathy_tp_file_new channel (empathy_tp_file_new channel r).1).1.keys =
        r.keys ++ [channel] ∧
      (g_object_unref (empathy_tp_file_new channel r).2
        (empathy_tp_file_new channel (empathy_tp_file_new channel r).1).1).keys =
        r.keys ++ [channel] ∧
      (g_object_unref (empathy_tp_file_new channel r).2
        (g_object_unref (empathy_tp_file_new channel r).2
          (empathy_tp_file_new channel (empathy_tp_file_new channel r).1).1)).keys =
        r.keys ∧
      tp_file_weak_notify_cb channel r = r) := by
  subst hr
  obtain ⟨a, b, _⟩ := new_again channel (registry_run ops registry_zero)
  refine ⟨a, b, keys_run ops registry_zero (by decide), ?_⟩
  intro habsent
  obtain ⟨c1, c2, c3, c4, c5, _⟩ := release_both channel (registry_run ops registry_zero)
    (fresh_run ops registry_zero (by decide)) habsent
  rw [c1]
  exact ⟨c2, c3, c4, c5, weak_notify_absent channel _ habsent⟩

theorem registry_dedup_witness :
    registry_run [] registry_zero = registry_zero ∧
    registry_zero.ft_table.bind (fun table => g_hash_table_lookup table 5) = none ∧
    (empathy_tp_file_new 5 (empathy_tp_file_new 5 registry_zero).1).2 =
      (empathy_tp_file_new 5 registry_zero).2 ∧
    (g_object_unref (empathy_tp_file_new 5 registry_zero).2
      (g_object_unref (empathy_tp_file_new 5 registry_zero).2
        (empathy_tp_file_new 5 (empathy_tp_file_new 5 registry_zero).1).1)).keys =
      registry_zero.keys :=
  ⟨rfl, rfl, (registry_dedup [] 5 registry_zero rfl).1,
    ((registry_dedup [] 5 registry_zero rfl).2.2.2 rfl).2.2.2.1⟩

/-- Claim C23, as stated, fails in its last part: a read completing with
`G_IO_ERROR_CANCELLED`, and a write completing so with result -1, do run `io_error`: the
token is cancelled, both streams are closed and a reference is dropped; only the
warning is left out. -/
theorem cancelled_completion_runs_io_error :
    (run [Event.read_fail GError.cancelled] (copy_stream [[7]])).map
      (fun q => (q.cancelled, q.in_closes, q.out_closes, q.copy.ref_count, q.warnings)) =
      some (true, 1, 1, 0, 0) ∧
    (run [Event.read_done, Event.write_done (-1) GError.cancelled] (copy_stream [[7]])).map
      (fun q => (q.cancelled, q.in_closes, q.out_closes, q.copy.ref_count, q.warnings)) =
      some (true, 1, 1, 0, 0) := by
  decide

/-- Claim C23, amended: a read completing with a negative result and a write completing
with a non-positive result run `io_error`, whatever the error, a cancellation included:
the token is cancelled, each stream whose pointer is still set is closed, one reference
is dropped and no read or write is started; for a cancellation only the warning is
left out. -/
theorem io_error_path (p : Pump) (count_read count_write : Int) (error : GError)
    (hr : count_read < 0) (hw : count_write ≤ 0) :
    read_done_cb count_read error p = io_error error p ∧
    write_done_cb count_write error p = io_error error p ∧
    (io_error error p).cancelled = true ∧
    (io_error error p).in_closes = p.in_closes + (if p.copy.in_ then 1 else 0) ∧
    (io_error error p).out_closes = p.out_closes + (if p.copy.out_ then 1 else 0) ∧
    (io_error error p).copy.ref_count = p.copy.ref_count - 1 ∧
    (io_error error p).reads = p.reads ∧ (io_error error p).writes = p.writes ∧
    (io_error error p).warnings =
      p.warnings + (if error = GError.cancelled then 0 else 1) := by
  refine ⟨?_, ?_, ?_, ?_, ?_, ?_, ?_, ?_, ?_⟩
  · unfold read_done_cb
    simp only
    rw [if_neg (by omega), if_pos hr]
  · unfold write_done_cb
    rw [if_pos hw]
  all_goals unfold io_error
  · rw [(unref_keeps _).1]
    split_ifs <;> rfl
  · rw [(unref_keeps _).2.1]
    split_ifs <;> rfl
  · rw [(unref_keeps _).2.2.1]
    split_ifs <;> rfl
  · rw [(unref_keeps _).2.2.2.1]
    split_ifs <;> rfl
  · rw [(unref_keeps _).2.2.2.2.1]
    split_ifs <;> rfl
  · rw [(unref_keeps _).2.2.2.2.2.1]
    split_ifs <;> rfl
  · rw [(unref_keeps _).2.2.2.2.2.2]
    split_ifs <;> rfl

theorem io_error_path_witness :
    ((-1 : Int) < 0 ∧ (0 : Int) ≤ 0) ∧
    (read_done_cb (-1) GError.cancelled after_first_read =
      io_error GError.cancelled after_first_read ∧
    write_done_cb 0 GError.cancelled after_first_read =
      io_error GError.cancelled after_first_read ∧
    (io_error GError.cancelled after_first_read).cancelled = true ∧
    (io_error GError.cancelled after_first_read).in_closes =
      after_first_read.in_closes + (if after_first_read.copy.in_ then 1 else 0) ∧
    (io_error GError.cancelled after_first_read).out_closes =
      after_first_read.out_closes + (if after_first_read.copy.out_ then 1 else 0) ∧
    (io_error GError.cancelled after_first_read).copy.ref_count =
      after_first_read.copy.ref_count - 1 ∧
    (io_error GError.cancelled after_first_read).reads = after_first_read.reads ∧
    (io_error GError.cancelled after_first_read).writes = after_first_read.writes ∧
    (io_error GError.cancelled after_first_read).warnings =
      after_first_read.warnings + (if GError.cancelled = GError.cancelled then 0 else 1)) :=
  ⟨by decide, io_error_path after_first_read (-1) 0 GError.cancelled (by decide) (by decide)⟩

/-- Claim C24 fails on the code: for the transfer started at time 0, the updates 400 at
time 1 and 800 at time 2 each emit `refresh`, one second apart; and when the stall
timeout scheduled for time 5 has fired, an update arriving at time 5 emits `refresh`
again in the same second. -/
theorem refresh_one_second_apart :
    (push_all [(400, 1, 0)] started_transfer).refreshes = started_transfer.refreshes + 1 ∧
    (push_all [(400, 1, 0), (800, 2, 0)] started_transfer).refreshes =
      started_transfer.refreshes + 2 ∧
    (handle_all [TpEvent.stalled 1, TpEvent.transferred_bytes_changed 400 5 0]
      started_transfer).refreshes = started_transfer.refreshes + 2 := by
  decide

/-- Claim C25: in every state reached from `copy_stream` by any sequence of completions,
failed ones included, `curr_read` and `curr_write` are 0 or 1, the slot of a read in
flight is not full, the slot of a write in flight is full, so a read and a write in
flight never use the same slot; and `schedule_next` starts a read only into a slot that
is not full and a write only from a slot that is full. -/
theorem buffer_exclusivity (chunks : List (List Nat)) (es : List Event) (q : Pump)
    (h : run es (copy_stream chunks) = some q) :
    q.copy.curr_read < 2 ∧ q.copy.curr_write < 2 ∧
    (q.reads = 1 → q.copy.is_full.get q.copy.curr_read = false) ∧
    (q.writes = 1 → q.copy.is_full.get q.copy.curr_write = true) ∧
    (q.reads = 1 → q.writes = 1 → q.copy.curr_read ≠ q.copy.curr_write) ∧
    ((schedule_next q).reads ≠ q.reads → q.copy.is_full.get q.copy.curr_read = false) ∧
    ((schedule_next q).writes ≠ q.writes → q.copy.is_full.get q.copy.curr_write = true) := by
  obtain ⟨_, h1, h2, h3, h4, _, _⟩ := exclusive_run chunks es q h
  refine ⟨h1, h2, h3, h4, ?_, ?_, ?_⟩
  · intro hr hw heq
    have a := h3 hr
    have b := h4 hw
    rw [heq] at a
    rw [a] at b
    exact Bool.noConfusion b
  · unfold schedule_next
    simp only
    split_ifs <;> simp_all
  · unfold schedule_next
    simp only
    split_ifs <;> simp_all

theorem buffer_exclusivity_witness :
    run [Event.read_done] (copy_stream [[7]]) = some after_first_read ∧
    (after_first_read.copy.curr_read < 2 ∧ after_first_read.copy.curr_write < 2 ∧
    (after_first_read.reads = 1 →
      after_first_read.copy.is_full.get after_first_read.copy.curr_read = false) ∧
    (after_first_read.writes = 1 →
      after_first_read.copy.is_full.get after_first_read.copy.curr_write = true) ∧
    (after_first_read.reads = 1 → after_first_read.writes = 1 →
      after_first_read.copy.curr_read ≠ after_first_read.copy.curr_write) ∧
    ((schedule_next after_first_read).reads ≠ after_first_read.reads →
      after_first_read.copy.is_full.get after_first_read.copy.curr_read = false) ∧
    ((schedule_next after_first_read).writes ≠ after_first_read.writes →
      after_first_read.copy.is_full.get after_first_read.copy.curr_write = true)) :=
  ⟨by decide, buffer_exclusivity [[7]] [Event.read_done] after_first_read (by decide)⟩

/-- Claim C26: in every run from `copy_stream` in which a write completes with
`0 < n < count`, that completion marks the slot empty and advances `curr_write` with
only `n` bytes added to the sink; in every later state the bytes in the sink, the bytes
the source has still to deliver and the `count - n` bytes dropped together do not
exceed what the source holds in total, so the sink has received strictly fewer bytes. -/
theorem short_write_loses_data (chunks : List (List Nat)) (before after : List Event)
    (n : Int) (e : GError) (p q : Pump)
    (hp : run before (copy_stream chunks) = some p)
    (hpos : 0 < n) (hshort : n < (p.copy.count.get p.copy.curr_write : Int))
    (hq : run (Event.write_done n e :: after) p = some q) :
    (∃ p1, step (Event.write_done n e) p = some p1 ∧ run after p1 = some q ∧
      p1.copy.is_full.get p.copy.curr_write = false ∧
      p1.copy.curr_write = (p.copy.curr_write + 1) % N_BUFFERS ∧
      p1.sink.length = p.sink.length + n.toNat) ∧
    q.sink.length + q.source.flatten.length +
      (p.copy.count.get p.copy.curr_write - n.toNat) ≤ chunks.flatten.length ∧
    q.sink.length < chunks.flatten.length := by
  have hx := exclusive_run chunks before p hp
  have h0 := held_run before _ p (exclusive_copy_stream chunks) hp
  rw [held_copy_stream] at h0
  simp only [run] at hq
  cases hs : step (Event.write_done n e) p with
  | none => simp [hs] at hq
  | some p1 =>
    rw [hs] at hq
    have hq1 : run after p1 = some q := hq
    have h1 := held_step_write n e p p1 hx hs
    rw [if_pos hpos] at h1
    have h2 := held_run after p1 q (exclusive_step _ p p1 hx hs) hq1
    have h3 := sink_le_held q
    obtain ⟨k1, k2, k3⟩ := step_write_done n e p p1 hpos hs
    refine ⟨⟨p1, rfl, hq1, ?_, k2, ?_⟩, by omega, by omega⟩
    · rw [k1]
      unfold Slots.get Slots.set
      split_ifs <;> rfl
    · rw [k3]
      exact sink_after_length n p hx (by omega)

theorem short_write_loses_data_witness :
    (run [Event.read_done] (copy_stream [[7, 8, 9]]) = some after_read_of_three ∧
      (0 : Int) < 1 ∧
      (1 : Int) < (after_read_of_three.copy.count.get after_read_of_three.copy.curr_write : Int) ∧
      run [Event.write_done 1 GError.none] after_read_of_three = some after_short_write) ∧
    after_short_write.sink.length + after_short_write.source.flatten.length +
      (after_read_of_three.copy.count.get after_read_of_three.copy.curr_write - (1 : Int).toNat) ≤
        [[7, 8, 9]].flatten.length ∧
    after_short_write.sink.length < [[7, 8, 9]].flatten.length :=
  ⟨⟨by decide, by decide, by decide, by decide⟩,
    (short_write_loses_data [[7, 8, 9]] [Event.read_done] [] 1 GError.none
      after_read_of_three after_short_write (by decide) (by decide) (by decide)
      (by decide)).2⟩

/-- Claim C27 fails on the code: on the one-byte source, after the first read the second
read fails while the write is in flight and then the write fails too; `io_error` runs
twice and closes the source twice and the sink twice. -/
theorem streams_closed_twice :
    (run [Event.read_done, Event.read_fail GError.other, Event.write_done (-1) GError.other]
      (copy_stream [[7]])).map (fun q => (q.in_closes, q.out_closes)) = some (2, 2) ∧
    (run [Event.read_done, Event.read_fail GError.other] (copy_stream [[7]])).map
      (fun q => (q.in_closes, q.out_closes, q.writes)) = some (1, 1, 1) := by
  decide

/-- Claim C28 fails on the code: with a socket address stored, the state becomes Open,
leaves Open and becomes Open again; `tp_file_start_transfer` runs twice, starts the
copy of the stream twice and creates two cancellation tokens. -/
theorem start_transfer_runs_twice :
    (handle_all [TpEvent.offer true true,
        TpEvent.method_reply false (GValue.uchar_array [47]) ⟨true, true, 0⟩,
        TpEvent.state_changed TP_FILE_TRANSFER_STATE_OPEN 0 ⟨true, true, 0⟩,
        TpEvent.state_changed 1 0 ⟨true, true, 0⟩,
        TpEvent.state_changed TP_FILE_TRANSFER_STATE_OPEN 0 ⟨true, true, 1⟩]
      tp_file_constructor).start_log.length = 2 ∧
    (handle_all [TpEvent.offer true true,
        TpEvent.method_reply false (GValue.uchar_array [47]) ⟨true, true, 0⟩,
        TpEvent.state_changed TP_FILE_TRANSFER_STATE_OPEN 0 ⟨true, true, 0⟩,
        TpEvent.state_changed 1 0 ⟨true, true, 0⟩,
        TpEvent.state_changed TP_FILE_TRANSFER_STATE_OPEN 0 ⟨true, true, 1⟩]
      tp_file_constructor).pumps = 2 ∧
    (handle_all [TpEvent.offer true true,
        TpEvent.method_reply false (GValue.uchar_array [47]) ⟨true, true, 0⟩,
        TpEvent.state_changed TP_FILE_TRANSFER_STATE_OPEN 0 ⟨true, true, 0⟩,
        TpEvent.state_changed 1 0 ⟨true, true, 0⟩,
        TpEvent.state_changed TP_FILE_TRANSFER_STATE_OPEN 0 ⟨true, true, 1⟩]
      tp_file_constructor).tokens = 2 := by
  decide

/-- Claim C29: in every state reached from construction by events whose byte counts (the
count of a successful `GetAll` reply and the counts of `TransferredBytesChanged`) never
decrease, `last_update_transferred_bytes ≤ transferred_bytes`; and a further count, not
smaller than the current one, that causes a recomputation yields a speed greater than
zero. The clock needs no assumption beyond the elapsed time of at least one second that
the recomputation itself requires. -/
theorem speed_positive_for_monotone_counts (es : List TpEvent) (count : Nat)
    (now undef : Int) (hmono : monotone_counts 0 es = true)
    (hnext : (handle_all es tp_file_constructor).transferred_bytes ≤ count)
    (hfit : count ≤ G_MAXUINT64) :
    (handle_all es tp_file_constructor).last_update_transferred_bytes ≤
      (handle_all es tp_file_constructor).transferred_bytes ∧
    ((handle_all es tp_file_constructor).transferred_bytes ≠ count →
      1 ≤ now - (handle_all es tp_file_constructor).last_update_time →
      0 < (tp_file_transferred_bytes_changed_cb count now undef
        (handle_all es tp_file_constructor)).speed) := by
  obtain ⟨a, _, _⟩ := monotone_counts_run es [] tp_file_constructor
    (by decide) (by decide) (by simpa using hmono)
  refine ⟨a, ?_⟩
  intro hnew hel
  rw [bytes_changed_speed _ count now undef hnew hel (by omega) hfit]
  apply gdouble_pos
  apply div_pos
  · apply gdouble_pos
    have : 0 < count - (handle_all es tp_file_constructor).last_update_transferred_bytes := by
      omega
    exact_mod_cast this
  · apply gdouble_pos
    have : (0 : Int) < now - (handle_all es tp_file_constructor).last_update_time := by
      omega
    exact_mod_cast this

theorem speed_positive_for_monotone_counts_witness :
    monotone_counts 0 [TpEvent.get_all false 1000 1 0, TpEvent.offer true true,
        TpEvent.method_reply false (GValue.uchar_array [47]) ⟨true, true, 0⟩,
        TpEvent.state_changed TP_FILE_TRANSFER_STATE_OPEN 0 ⟨true, true, 0⟩,
        TpEvent.transferred_bytes_changed 400 1 0] = true ∧
    0 < (tp_file_transferred_bytes_changed_cb 1000 2 0
      (handle_all [TpEvent.get_all false 1000 1 0, TpEvent.offer true true,
        TpEvent.method_reply false (GValue.uchar_array [47]) ⟨true, true, 0⟩,
        TpEvent.state_changed TP_FILE_TRANSFER_STATE_OPEN 0 ⟨true, true, 0⟩,
        TpEvent.transferred_bytes_changed 400 1 0] tp_file_constructor)).speed :=
  ⟨by decide, (speed_positive_for_monotone_counts
    [TpEvent.get_all false 1000 1 0, TpEvent.offer true true,
      TpEvent.method_reply false (GValue.uchar_array [47]) ⟨true, true, 0⟩,
      TpEvent.state_changed TP_FILE_TRANSFER_STATE_OPEN 0 ⟨true, true, 0⟩,
      TpEvent.transferred_bytes_changed 400 1 0]
    1000 2 0 (by decide) (by decide) (by decide)).2 (by decide) (by decide)⟩

/-- Claim C30 fails on the code: after the stall timeout of the started transfer has
fired, `stalled_id` is still 1 although no timeout is pending; and after the state has
left Open and become Open again, `stalled_id` is 2 while the timeouts 1 and 2 are both
pending, and `tp_file_finalize` leaves timeout 1 pending. -/
theorem stalled_id_left_stale :
    ((handle_all [TpEvent.stalled 1] started_transfer).stalled_id = 1 ∧
      (handle_all [TpEvent.stalled 1] started_transfer).timers = []) ∧
    ((handle_all [TpEvent.state_changed 1 0 ⟨true, true, 0⟩,
        TpEvent.state_changed TP_FILE_TRANSFER_STATE_OPEN 0 ⟨true, true, 1⟩]
        started_transfer).stalled_id = 2 ∧
      (handle_all [TpEvent.state_changed 1 0 ⟨true, true, 0⟩,
        TpEvent.state_changed TP_FILE_TRANSFER_STATE_OPEN 0 ⟨true, true, 1⟩]
        started_transfer).timers = [(1, 5), (2, 6)] ∧
      (tp_file_finalize (handle_all [TpEvent.state_changed 1 0 ⟨true, true, 0⟩,
        TpEvent.state_changed TP_FILE_TRANSFER_STATE_OPEN 0 ⟨true, true, 1⟩]
        started_transfer)).timers = [(1, 5)]) := by
  decide

end Empathy
